import Mathlib

/-!
# Atmosphere `MapUtils`: region locator and code-mapping allocator

A shallow embedding of `stratosphere/loader/source/ldr_map.cpp` and
`stratosphere/ro/source/ro_map.cpp`.

* `u64` values are natural numbers; every machine addition, subtraction and
  shift is written with an explicit reduction modulo `2^64`
  (`add64`, `sub64`, `shl64`, `shr64`).
* The kernel, the random source and the constants declared in headers are the
  fields of `Env`.  Calls are logged, in order, in a `List Event`.
* A function that can abort (`R_ASSERT`) or loop returns an `Outcome`.
-/

namespace MapUtils

/-! ## Machine arithmetic -/

/-- The modulus of `u64` arithmetic, `2^64`. -/
abbrev U64 : Nat := 18446744073709551616

/-- Wrapping `u64` addition. -/
def add64 (a b : Nat) : Nat := (a + b) % 18446744073709551616

/-- Wrapping `u64` subtraction (for operands below `2^64`). -/
def sub64 (a b : Nat) : Nat := (a + 18446744073709551616 - b) % 18446744073709551616

/-- The `u64` left shift `a << n`. -/
def shl64 (a n : Nat) : Nat := (a * 2 ^ n) % 18446744073709551616

/-- The `u64` right shift `a >> n`. -/
def shr64 (a n : Nat) : Nat := a / 2 ^ n

/-! ## Data model -/

/-- A kernel handle. -/
abbrev Handle := Nat

/-- Result codes.  The numeric values live in headers outside the two source
files; only their being distinct matters, `ResultSuccess` being the one value
for which `R_FAILED` is false. -/
inductive Result where
  | ResultSuccess
  | ResultKernelOutOfMemory
  | ResultKernelInvalidMemoryState
  | ResultRoInsufficientAddressSpace
  | ResultOther (code : Nat)
  deriving DecidableEq, Repr

open Result

/-- The `R_FAILED` test. -/
def R_FAILED (rc : Result) : Bool := decide (rc ≠ ResultSuccess)

/-- The fields of the kernel `MemoryInfo` that the code reads. -/
structure MemoryInfo where
  addr : Nat
  size : Nat
  type : Nat
  deriving DecidableEq, Repr

/-- The struct `AddressSpaceInfo` filled by `GetAddressSpaceInfo`. -/
structure AddressSpaceInfo where
  heap_base : Nat
  heap_size : Nat
  heap_end : Nat
  map_base : Nat
  map_size : Nat
  map_end : Nat
  addspace_base : Nat
  addspace_size : Nat
  addspace_end : Nat
  deriving DecidableEq, Repr

/-- The value-initialised struct `AddressSpaceInfo address_space = {}`. -/
def AddressSpaceInfo.zero : AddressSpaceInfo :=
  ⟨0, 0, 0, 0, 0, 0, 0, 0, 0⟩

/-- One call of an external primitive, with what it returned. -/
inductive Event where
  | GetInfo (id0 : Nat) (h : Handle) (id1 : Nat)
  | QueryMemory (addr : Nat)
  | QueryProcessMemory (h : Handle) (addr : Nat)
  | Random (max : Nat) (r : Nat)
  | Map (h : Handle) (dst src size : Nat) (rc : Result)
  | Unmap (h : Handle) (dst src size : Nat) (rc : Result)
  deriving DecidableEq, Repr

/-- The external collaborators of the two source files: the constants of
`ro_map.hpp` / `ldr_map.hpp`, the firmware test, and the primitives.  A
primitive with an out-parameter returns its result code together with the
value it stores.  The address-space geometry and the caller's own memory map
are fixed during one call; the primitives that touch the target process and
the random source may answer differently after different histories, so they
receive the log of the calls made so far.  `LocateRetryCount` is the bound of
a loop over an `unsigned int` counter and is taken to fit that type. -/
structure Env where
  GuardRegionSize : Nat
  LocateRetryCount : Nat
  MemType_Unmapped : Nat
  CUR_PROCESS_HANDLE : Handle
  /-- The test `GetRuntimeFirmwareVersion() >= FirmwareVersion_200`. -/
  firmwareAtLeast200 : Bool
  svcGetInfo : Nat → Handle → Nat → Result × Nat
  svcQueryMemory : Nat → Result × MemoryInfo
  svcQueryProcessMemory : List Event → Handle → Nat → Result × MemoryInfo
  svcMapProcessCodeMemory : List Event → Handle → Nat → Nat → Nat → Result
  svcUnmapProcessCodeMemory : List Event → Handle → Nat → Nat → Nat → Result
  GetRandomU64 : List Event → Nat → Nat

/-- How a call ends: it returns a value, an `R_ASSERT` aborts the process, or
the model ran out of loop fuel. -/
inductive Outcome (α : Type) where
  | ret (a : α) (t : List Event)
  | abort (t : List Event)
  | timeout
  deriving DecidableEq, Repr

/-! ## `GetAddressSpaceInfo` -/

/-- The function `MapUtils::GetAddressSpaceInfo`: six `R_TRY(svcGetInfo(...))`
reads into the fields of `*out`, then the three derived ends. -/
def GetAddressSpaceInfo (env : Env) (t : List Event) (out : AddressSpaceInfo)
    (process_h : Handle) : Result × AddressSpaceInfo × List Event :=
  let r := env.svcGetInfo 4 process_h 0
  let t := t ++ [Event.GetInfo 4 process_h 0]
  let out := { out with heap_base := r.2 }
  if r.1 ≠ ResultSuccess then (r.1, out, t) else
  let r := env.svcGetInfo 5 process_h 0
  let t := t ++ [Event.GetInfo 5 process_h 0]
  let out := { out with heap_size := r.2 }
  if r.1 ≠ ResultSuccess then (r.1, out, t) else
  let r := env.svcGetInfo 2 process_h 0
  let t := t ++ [Event.GetInfo 2 process_h 0]
  let out := { out with map_base := r.2 }
  if r.1 ≠ ResultSuccess then (r.1, out, t) else
  let r := env.svcGetInfo 3 process_h 0
  let t := t ++ [Event.GetInfo 3 process_h 0]
  let out := { out with map_size := r.2 }
  if r.1 ≠ ResultSuccess then (r.1, out, t) else
  let r := env.svcGetInfo 12 process_h 0
  let t := t ++ [Event.GetInfo 12 process_h 0]
  let out := { out with addspace_base := r.2 }
  if r.1 ≠ ResultSuccess then (r.1, out, t) else
  let r := env.svcGetInfo 13 process_h 0
  let t := t ++ [Event.GetInfo 13 process_h 0]
  let out := { out with addspace_size := r.2 }
  if r.1 ≠ ResultSuccess then (r.1, out, t) else
  let out := { out with heap_end := add64 out.heap_base out.heap_size }
  let out := { out with map_end := add64 out.map_base out.map_size }
  let out := { out with addspace_end := add64 out.addspace_base out.addspace_size }
  (ResultSuccess, out, t)

/-! ## Region locator -/

/-- The test `base <= cur_end - 1 && cur_base <= end - 1` guarded by a non-zero
region size, as written for the heap and the alias region. -/
def overlaps (r_size r_base r_end cur_base cur_end : Nat) : Bool :=
  decide (r_size ≠ 0 ∧ (r_base ≤ sub64 cur_end 1 ∧ cur_base ≤ sub64 r_end 1))

/-- The `while (true)` loop of `MapUtils::LocateSpaceForMapModern`; `out` is the
current content of `*out`. -/
def LocateSpaceForMapModern.loop (env : Env) (address_space : AddressSpaceInfo) (out_size : Nat) :
    Nat → Nat → Nat → Nat → List Event → Outcome (Result × Nat)
  | 0, _, _, _, _ => Outcome.timeout
  | fuel + 1, cur_base, cur_end, out, t =>
    if overlaps address_space.heap_size address_space.heap_base address_space.heap_end
        cur_base cur_end then
      if cur_base = address_space.heap_end then
        Outcome.ret (ResultKernelOutOfMemory, out) t
      else
        let cur_base := address_space.heap_end
        let cur_end := add64 cur_base out_size
        if add64 cur_base out_size ≤ cur_base then
          Outcome.ret (ResultKernelOutOfMemory, out) t
        else LocateSpaceForMapModern.loop env address_space out_size fuel cur_base cur_end out t
    else if overlaps address_space.map_size address_space.map_base address_space.map_end
        cur_base cur_end then
      if cur_base = address_space.map_end then
        Outcome.ret (ResultKernelOutOfMemory, out) t
      else
        let cur_base := address_space.map_end
        let cur_end := add64 cur_base out_size
        if add64 cur_base out_size ≤ cur_base then
          Outcome.ret (ResultKernelOutOfMemory, out) t
        else LocateSpaceForMapModern.loop env address_space out_size fuel cur_base cur_end out t
    else
      let q := env.svcQueryMemory cur_base
      let t := t ++ [Event.QueryMemory cur_base]
      let mem_info := q.2
      if q.1 ≠ ResultSuccess then Outcome.abort t
      else if mem_info.type = 0 ∧
          add64 (sub64 mem_info.addr cur_base) mem_info.size ≥ out_size then
        Outcome.ret (ResultSuccess, cur_base) t
      else if add64 mem_info.addr mem_info.size ≤ cur_base then
        Outcome.ret (ResultKernelOutOfMemory, out) t
      else
        let cur_base := add64 mem_info.addr mem_info.size
        if cur_base ≥ address_space.addspace_end then
          Outcome.ret (ResultKernelOutOfMemory, out) t
        else
          let cur_end := add64 cur_base out_size
          if add64 cur_base out_size ≤ cur_base then
            Outcome.ret (ResultKernelOutOfMemory, out) t
          else LocateSpaceForMapModern.loop env address_space out_size fuel cur_base cur_end out t

/-- The function `MapUtils::LocateSpaceForMapModern`. -/
def LocateSpaceForMapModern (env : Env) (fuel : Nat) (t : List Event) (out : Nat)
    (out_size : Nat) : Outcome (Result × Nat) :=
  let g := GetAddressSpaceInfo env t AddressSpaceInfo.zero env.CUR_PROCESS_HANDLE
  let address_space := g.2.1
  let t := g.2.2
  if g.1 ≠ ResultSuccess then Outcome.ret (g.1, out) t else
  let cur_base := address_space.addspace_base
  let cur_end := add64 cur_base out_size
  if cur_end ≤ cur_base then Outcome.ret (ResultKernelOutOfMemory, out) t
  else LocateSpaceForMapModern.loop env address_space out_size fuel cur_base cur_end out t

/-- The `do ... while (true)` loop of `MapUtils::LocateSpaceForMapDeprecated`. -/
def LocateSpaceForMapDeprecated.loop (env : Env) (out_size : Nat) :
    Nat → Nat → Nat → List Event → Outcome (Result × Nat)
  | 0, _, _, _ => Outcome.timeout
  | fuel + 1, cur_base, out, t =>
    let q := env.svcQueryMemory cur_base
    let t := t ++ [Event.QueryMemory cur_base]
    let mem_info := q.2
    if q.1 ≠ ResultSuccess then Outcome.ret (q.1, out) t
    else if mem_info.type = 0 ∧
        add64 (sub64 mem_info.addr cur_base) mem_info.size ≥ out_size then
      Outcome.ret (ResultSuccess, cur_base) t
    else
      let mem_end := add64 mem_info.addr mem_info.size
      if mem_info.type = 16 ∨ mem_end < cur_base ∨ shr64 mem_end 31 ≠ 0 then
        Outcome.ret (ResultKernelOutOfMemory, out) t
      else LocateSpaceForMapDeprecated.loop env out_size fuel mem_end out t

/-- The function `MapUtils::LocateSpaceForMapDeprecated`. -/
def LocateSpaceForMapDeprecated (env : Env) (fuel : Nat) (t : List Event) (out : Nat)
    (out_size : Nat) : Outcome (Result × Nat) :=
  LocateSpaceForMapDeprecated.loop env out_size fuel 134217728 out t

/-- The function `MapUtils::LocateSpaceForMap`. -/
def LocateSpaceForMap (env : Env) (fuel : Nat) (t : List Event) (out : Nat)
    (out_size : Nat) : Outcome (Result × Nat) :=
  if env.firmwareAtLeast200 then LocateSpaceForMapModern env fuel t out out_size
  else LocateSpaceForMapDeprecated env fuel t out out_size

/-! ## Guard-region validator -/

/-- The function `MapUtils::CanAddGuardRegions`; each `R_ASSERT` on a failed
query aborts. -/
def CanAddGuardRegions (env : Env) (t : List Event) (process_handle : Handle)
    (address size : Nat) : Outcome Bool :=
  let q := env.svcQueryProcessMemory t process_handle (sub64 address 1)
  let t := t ++ [Event.QueryProcessMemory process_handle (sub64 address 1)]
  let mem_info := q.2
  if q.1 ≠ ResultSuccess then Outcome.abort t
  else if mem_info.type = env.MemType_Unmapped ∧
      sub64 address env.GuardRegionSize ≥ mem_info.addr then
    let q := env.svcQueryProcessMemory t process_handle (add64 address size)
    let t := t ++ [Event.QueryProcessMemory process_handle (add64 address size)]
    let mem_info := q.2
    if q.1 ≠ ResultSuccess then Outcome.abort t
    else
      Outcome.ret (decide (mem_info.type = env.MemType_Unmapped ∧
        add64 (add64 address size) env.GuardRegionSize ≤ add64 mem_info.addr mem_info.size)) t
  else Outcome.ret false t

/-! ## Code-mapping allocator -/

/-- Modelled from the spec: the class `MappedCodeMemory` is declared in
`ro_map.hpp`, which is not among the source files.  It records the owning
process handle, the destination and source base addresses, the size, and the
result of the kernel map call made when it is constructed. -/
structure MappedCodeMemory where
  process_handle : Handle
  dst_address : Nat
  src_address : Nat
  size : Nat
  result : Result
  deriving DecidableEq, Repr

/-- Modelled from the spec: the constructor
`MappedCodeMemory(process_handle, dst, src, size)` of `ro_map.hpp` issues the
kernel map call and keeps its result. -/
def MappedCodeMemory.construct (env : Env) (t : List Event) (process_handle : Handle)
    (dst src size : Nat) : MappedCodeMemory × List Event :=
  let rc := env.svcMapProcessCodeMemory t process_handle dst src size
  (⟨process_handle, dst, src, size, rc⟩, t ++ [Event.Map process_handle dst src size rc])

/-- Modelled from the spec: leaving the scope of a `MappedCodeMemory` that was
not moved to the caller (the destructor of `ro_map.hpp`): a mapping that was
established is released by the kernel unmap call; nothing is done for one whose
map call failed.  The kernel interface is taken to be infallible here, so a
failing unmap aborts. -/
def MappedCodeMemory.drop (env : Env) (t : List Event) (m : MappedCodeMemory) :
    Outcome Unit :=
  if m.result = ResultSuccess then
    let rc := env.svcUnmapProcessCodeMemory t m.process_handle m.dst_address m.src_address m.size
    let t := t ++ [Event.Unmap m.process_handle m.dst_address m.src_address m.size rc]
    if rc = ResultSuccess then Outcome.ret () t else Outcome.abort t
  else Outcome.ret () t

/-- The candidate `while (true)` loop of `MapCodeMemoryForProcessModern`: draw
`try_address` until its range misses the heap and the alias region. -/
def MapCodeMemoryForProcessModern.sample (env : Env) (address_space : AddressSpaceInfo)
    (size : Nat) : Nat → List Event → Outcome Nat
  | 0, _ => Outcome.timeout
  | fuel + 1, t =>
    let max := shr64 (sub64 address_space.addspace_size size) 12
    let r := env.GetRandomU64 t max
    let t := t ++ [Event.Random max r]
    let try_address := add64 address_space.addspace_base (shl64 r 12)
    if overlaps address_space.heap_size address_space.heap_base address_space.heap_end
        try_address (add64 try_address size) then
      MapCodeMemoryForProcessModern.sample env address_space size fuel t
    else if overlaps address_space.map_size address_space.map_base address_space.map_end
        try_address (add64 try_address size) then
      MapCodeMemoryForProcessModern.sample env address_space size fuel t
    else Outcome.ret try_address t

/-- The `for` loop of `MapCodeMemoryForProcessModern`, by the number of
iterations left (`LocateRetryCount - i`). -/
def MapCodeMemoryForProcessModern.attempts (env : Env) (address_space : AddressSpaceInfo)
    (process_handle : Handle) (base_address size fuel : Nat) :
    Nat → MappedCodeMemory → List Event → Outcome (Result × MappedCodeMemory)
  | 0, out_mcm, t => Outcome.ret (ResultRoInsufficientAddressSpace, out_mcm) t
  | left + 1, out_mcm, t =>
    match MapCodeMemoryForProcessModern.sample env address_space size fuel t with
    | Outcome.timeout => Outcome.timeout
    | Outcome.abort t => Outcome.abort t
    | Outcome.ret try_address t =>
      let c := MappedCodeMemory.construct env t process_handle try_address base_address size
      let tmp_mcm := c.1
      let t := c.2
      if tmp_mcm.result ≠ ResultSuccess then
        if tmp_mcm.result = ResultKernelInvalidMemoryState then
          MapCodeMemoryForProcessModern.attempts env address_space process_handle base_address
            size fuel left out_mcm t
        else Outcome.ret (tmp_mcm.result, out_mcm) t
      else
        match CanAddGuardRegions env t process_handle try_address size with
        | Outcome.timeout => Outcome.timeout
        | Outcome.abort t => Outcome.abort t
        | Outcome.ret false t =>
          match MappedCodeMemory.drop env t tmp_mcm with
          | Outcome.timeout => Outcome.timeout
          | Outcome.abort t => Outcome.abort t
          | Outcome.ret _ t =>
            MapCodeMemoryForProcessModern.attempts env address_space process_handle base_address
              size fuel left out_mcm t
        | Outcome.ret true t => Outcome.ret (ResultSuccess, tmp_mcm) t

/-- The function `MapUtils::MapCodeMemoryForProcessModern`. -/
def MapCodeMemoryForProcessModern (env : Env) (fuel : Nat) (t : List Event)
    (out_mcm : MappedCodeMemory) (process_handle : Handle) (base_address size : Nat) :
    Outcome (Result × MappedCodeMemory) :=
  let g := GetAddressSpaceInfo env t AddressSpaceInfo.zero process_handle
  let address_space := g.2.1
  let t := g.2.2
  if g.1 ≠ ResultSuccess then Outcome.ret (g.1, out_mcm) t
  else if size > address_space.addspace_size then
    Outcome.ret (ResultRoInsufficientAddressSpace, out_mcm) t
  else
    MapCodeMemoryForProcessModern.attempts env address_space process_handle base_address size
      fuel env.LocateRetryCount out_mcm t

/-- The `for` loop of `MapCodeMemoryForProcessDeprecated`, by the number of
iterations left. -/
def MapCodeMemoryForProcessDeprecated.attempts (env : Env) (addspace_base addspace_size : Nat)
    (process_handle : Handle) (base_address size : Nat) :
    Nat → MappedCodeMemory → List Event → Outcome (Result × MappedCodeMemory)
  | 0, out_mcm, t => Outcome.ret (ResultRoInsufficientAddressSpace, out_mcm) t
  | left + 1, out_mcm, t =>
    let max := shr64 (sub64 addspace_size size) 12
    let r := env.GetRandomU64 t max
    let t := t ++ [Event.Random max r]
    let try_address := add64 addspace_base (shl64 r 12)
    let c := MappedCodeMemory.construct env t process_handle try_address base_address size
    let tmp_mcm := c.1
    let t := c.2
    if tmp_mcm.result ≠ ResultSuccess then
      if tmp_mcm.result = ResultKernelInvalidMemoryState then
        MapCodeMemoryForProcessDeprecated.attempts env addspace_base addspace_size process_handle
          base_address size left out_mcm t
      else Outcome.ret (tmp_mcm.result, out_mcm) t
    else
      match CanAddGuardRegions env t process_handle try_address size with
      | Outcome.timeout => Outcome.timeout
      | Outcome.abort t => Outcome.abort t
      | Outcome.ret false t =>
        match MappedCodeMemory.drop env t tmp_mcm with
        | Outcome.timeout => Outcome.timeout
        | Outcome.abort t => Outcome.abort t
        | Outcome.ret _ t =>
          MapCodeMemoryForProcessDeprecated.attempts env addspace_base addspace_size
            process_handle base_address size left out_mcm t
      | Outcome.ret true t => Outcome.ret (ResultSuccess, tmp_mcm) t

/-- The function `MapUtils::MapCodeMemoryForProcessDeprecated`. -/
def MapCodeMemoryForProcessDeprecated (env : Env) (t : List Event)
    (out_mcm : MappedCodeMemory) (process_handle : Handle) (is_64_bit : Bool)
    (base_address size : Nat) : Outcome (Result × MappedCodeMemory) :=
  let addspace_base := if is_64_bit then 134217728 else 2097152
  let addspace_size := if is_64_bit then 2013265920 else 66977792
  if size > addspace_size then Outcome.ret (ResultRoInsufficientAddressSpace, out_mcm) t
  else
    MapCodeMemoryForProcessDeprecated.attempts env addspace_base addspace_size process_handle
      base_address size env.LocateRetryCount out_mcm t

/-- The function `MapUtils::MapCodeMemoryForProcess`. -/
def MapCodeMemoryForProcess (env : Env) (fuel : Nat) (t : List Event)
    (out_mcm : MappedCodeMemory) (process_handle : Handle) (base_address size : Nat) :
    Outcome (Result × MappedCodeMemory) :=
  if env.firmwareAtLeast200 then
    MapCodeMemoryForProcessModern env fuel t out_mcm process_handle base_address size
  else
    match MapCodeMemoryForProcessDeprecated env t out_mcm process_handle true base_address size with
    | Outcome.timeout => Outcome.timeout
    | Outcome.abort t => Outcome.abort t
    | Outcome.ret (rc, out_mcm) t =>
      if R_FAILED rc then
        match MapCodeMemoryForProcessDeprecated env t out_mcm process_handle false base_address
            size with
        | Outcome.timeout => Outcome.timeout
        | Outcome.abort t => Outcome.abort t
        | Outcome.ret (rc, out_mcm) t =>
          if R_FAILED rc then Outcome.ret (rc, out_mcm) t
          else Outcome.ret (ResultSuccess, out_mcm) t
      else Outcome.ret (ResultSuccess, out_mcm) t

/-! ## Reading the log -/

/-- Whether an event is a kernel map call. -/
def Event.isMap : Event → Bool
  | Event.Map _ _ _ _ _ => true
  | _ => false

/-- Whether an event is a draw from the random source. -/
def Event.isRandom : Event → Bool
  | Event.Random _ _ => true
  | _ => false

/-- Whether an event is a guard-region query of a target process. -/
def Event.isQueryProcessMemory : Event → Bool
  | Event.QueryProcessMemory _ _ => true
  | _ => false

/-- The effect of one logged call on the list of mappings
`(handle, dst, src, size)` established in target processes: a successful map
call adds one, a successful unmap call removes it. -/
def established.step (acc : List (Handle × Nat × Nat × Nat)) :
    Event → List (Handle × Nat × Nat × Nat)
  | Event.Map h dst src size rc =>
    if rc = ResultSuccess then acc ++ [(h, dst, src, size)] else acc
  | Event.Unmap h dst src size rc =>
    if rc = ResultSuccess then acc.erase (h, dst, src, size) else acc
  | _ => acc

/-- The mappings established and not yet released after a log. -/
def established (t : List Event) : List (Handle × Nat × Nat × Nat) :=
  t.foldl established.step []

/-- The address-space snapshot `LocateSpaceForMapModern` works on: what
`GetAddressSpaceInfo` stores for the current process. -/
def currentSpace (env : Env) (t : List Event) : AddressSpaceInfo :=
  (GetAddressSpaceInfo env t AddressSpaceInfo.zero env.CUR_PROCESS_HANDLE).2.1

/-! ## Example environments -/

/-- The memory map of the scenario environment: one Free block
`[0x0, 0x100000)`, and a block of kind `0x10` from there to the top. -/
def scenarioBlocks (a : Nat) : MemoryInfo :=
  if a < 1048576 then ⟨0, 1048576, 0⟩ else ⟨1048576, 18446744073708503040, 16⟩

/-- The scenario environment: heap region `[0x1000, 0x2000)`, empty alias region,
address space `[0x0, 0x100000)`, the memory map `scenarioBlocks`; every map
call succeeds and the random source returns `0`. -/
def scenarioEnv : Env where
  GuardRegionSize := 16384
  LocateRetryCount := 512
  MemType_Unmapped := 0
  CUR_PROCESS_HANDLE := 4294934529
  firmwareAtLeast200 := true
  svcGetInfo := fun id0 _ _ =>
    (ResultSuccess,
      if id0 = 4 then 4096 else if id0 = 5 then 4096 else if id0 = 13 then 1048576 else 0)
  svcQueryMemory := fun a => (ResultSuccess, scenarioBlocks a)
  svcQueryProcessMemory := fun _ _ a => (ResultSuccess, scenarioBlocks a)
  svcMapProcessCodeMemory := fun _ _ _ _ _ => ResultSuccess
  svcUnmapProcessCodeMemory := fun _ _ _ _ _ => ResultSuccess
  GetRandomU64 := fun _ _ => 0

/-! ## Specification predicates -/

/-- Every block the kernel reports for a probed address contains it. -/
def BlocksContain (env : Env) : Prop :=
  ∀ a, a < 18446744073709551616 →
    (env.svcQueryMemory a).2.addr ≤ a ∧
      a < (env.svcQueryMemory a).2.addr + (env.svcQueryMemory a).2.size

/-- The reported blocks partition the address space: an address inside the
block reported at `q` is reported that same block. -/
def BlocksPartition (env : Env) : Prop :=
  ∀ p q, p < 18446744073709551616 → q < 18446744073709551616 →
    (env.svcQueryMemory q).2.addr ≤ p →
    p < (env.svcQueryMemory q).2.addr + (env.svcQueryMemory q).2.size →
    (env.svcQueryMemory p).2 = (env.svcQueryMemory q).2

/-- The sizes of the reported blocks are `u64` values. -/
def BlockSizesU64 (env : Env) : Prop :=
  ∀ a, a < 18446744073709551616 → (env.svcQueryMemory a).2.size < 18446744073709551616

/-- A base `b` of the address space whose range `[b, b + size)` does not
overflow, misses the non-empty heap and alias regions, and lies inside a single
Free (type `0`) kernel block. -/
def FitsAt (env : Env) (as : AddressSpaceInfo) (size b : Nat) : Prop :=
  as.addspace_base ≤ b ∧ b < as.addspace_end ∧ b + size < 18446744073709551616 ∧
  (as.heap_size ≠ 0 → b + size ≤ as.heap_base ∨ as.heap_base + as.heap_size ≤ b) ∧
  (as.map_size ≠ 0 → b + size ≤ as.map_base ∨ as.map_base + as.map_size ≤ b) ∧
  ∃ q, q < 18446744073709551616 ∧ (env.svcQueryMemory q).2.type = 0 ∧
    (env.svcQueryMemory q).2.addr ≤ b ∧
    b + size ≤ (env.svcQueryMemory q).2.addr + (env.svcQueryMemory q).2.size

/-- The memory map of `legacyTopEnv`: a block of kind `0x10` below
`0x8000000` and one Free block from `0x8000000` to the top of the 64-bit
space. -/
def legacyTopBlocks (a : Nat) : MemoryInfo :=
  if a < 134217728 then ⟨0, 134217728, 16⟩ else ⟨134217728, 18446744073575333888, 0⟩

/-- A pre-2.0.0 environment whose memory map is `legacyTopBlocks`; every map
call fails with a kernel error other than invalid-memory-state. -/
def legacyTopEnv : Env where
  GuardRegionSize := 16384
  LocateRetryCount := 512
  MemType_Unmapped := 0
  CUR_PROCESS_HANDLE := 4294934529
  firmwareAtLeast200 := false
  svcGetInfo := fun _ _ _ => (ResultOther 1, 0)
  svcQueryMemory := fun a => (ResultSuccess, legacyTopBlocks a)
  svcQueryProcessMemory := fun _ _ a => (ResultSuccess, legacyTopBlocks a)
  svcMapProcessCodeMemory := fun _ _ _ _ _ => ResultOther 1
  svcUnmapProcessCodeMemory := fun _ _ _ _ _ => ResultSuccess
  GetRandomU64 := fun _ _ => 0

/-- The answers of the first and of the second guard query of
`CanAddGuardRegions`: the blocks the kernel reports at `address - 1` and at
`address + size`. -/
def lowerBlock (env : Env) (t : List Event) (h : Handle) (address : Nat) : Result × MemoryInfo :=
  env.svcQueryProcessMemory t h (sub64 address 1)

/-- The answer of the second guard query of `CanAddGuardRegions`. -/
def upperBlock (env : Env) (t : List Event) (h : Handle) (address size : Nat) :
    Result × MemoryInfo :=
  env.svcQueryProcessMemory (t ++ [Event.QueryProcessMemory h (sub64 address 1)]) h
    (add64 address size)

/-- The memory map of `openEnv`: two Unmapped blocks, `[0x0, 0x100000)` and
`[0x100000, 2^64)`. -/
def openBlocks (a : Nat) : MemoryInfo :=
  if a < 1048576 then ⟨0, 1048576, 0⟩ else ⟨1048576, 18446744073708503040, 0⟩

/-- An environment whose target processes are entirely unmapped
(`openBlocks`). -/
def openEnv : Env where
  GuardRegionSize := 16384
  LocateRetryCount := 512
  MemType_Unmapped := 0
  CUR_PROCESS_HANDLE := 4294934529
  firmwareAtLeast200 := true
  svcGetInfo := fun id0 _ _ => (ResultSuccess, if id0 = 13 then 1048576 else 0)
  svcQueryMemory := fun a => (ResultSuccess, openBlocks a)
  svcQueryProcessMemory := fun _ _ a => (ResultSuccess, openBlocks a)
  svcMapProcessCodeMemory := fun _ _ _ _ _ => ResultSuccess
  svcUnmapProcessCodeMemory := fun _ _ _ _ _ => ResultSuccess
  GetRandomU64 := fun _ _ => 0

/-- The six info reads `GetAddressSpaceInfo` logs for a process. -/
def infoReads (h : Handle) : List Event :=
  [Event.GetInfo 4 h 0, Event.GetInfo 5 h 0, Event.GetInfo 2 h 0, Event.GetInfo 3 h 0,
    Event.GetInfo 12 h 0, Event.GetInfo 13 h 0]

/-- An event that leaves the established mappings as they are: anything but a
successful map or unmap call. -/
def Event.inert : Event → Bool
  | Event.Map _ _ _ _ rc => decide (rc ≠ ResultSuccess)
  | Event.Unmap _ _ _ _ rc => decide (rc ≠ ResultSuccess)
  | _ => true

/-- A map call that failed with an error other than invalid-memory-state. -/
def Event.isFatalMap : Event → Bool
  | Event.Map _ _ _ _ rc => decide (rc ≠ ResultSuccess ∧ rc ≠ ResultKernelInvalidMemoryState)
  | _ => false

/-- The log of an outcome, when it has one. -/
def Outcome.log {α : Type} : Outcome α → Option (List Event)
  | Outcome.ret _ t => some t
  | Outcome.abort t => some t
  | Outcome.timeout => none

/-- The scenario environment with a kernel that refuses every map call with
invalid-memory-state. -/
def busyEnv : Env :=
  { scenarioEnv with
    LocateRetryCount := 3
    svcMapProcessCodeMemory := fun _ _ _ _ _ => ResultKernelInvalidMemoryState }

/-- In the new part `new` of a log, a map call that failed with an error other
than invalid-memory-state can only be the last event, and then the call
returned that error and left `out_mcm` as it was. -/
def FatalLast (new : List Event) (o : Outcome (Result × MappedCodeMemory))
    (out_mcm : MappedCodeMemory) (t' : List Event) : Prop :=
  (∀ e ∈ new, e.isFatalMap = false) ∨
  ∃ pre h dst src sz rc, new = pre ++ [Event.Map h dst src sz rc] ∧
    (∀ e ∈ pre, e.isFatalMap = false) ∧ rc ≠ ResultSuccess ∧
    rc ≠ ResultKernelInvalidMemoryState ∧ o = Outcome.ret (rc, out_mcm) t'

/-- The scenario environment with a kernel that fails every map call with a
kernel error other than invalid-memory-state. -/
def fatalEnv : Env :=
  { scenarioEnv with svcMapProcessCodeMemory := fun _ _ _ _ _ => ResultOther 5 }

/-- A pre-2.0.0 environment whose kernel fails every map call with a fresh
fatal error: the code of the error is the number of calls logged so far. -/
def legacyFatalEnv : Env :=
  { legacyTopEnv with svcMapProcessCodeMemory := fun t _ _ _ _ => ResultOther t.length }

/-! ## The probe sequence of the deprecated locator -/

/-- One iteration of the loop of `LocateSpaceForMapDeprecated` seen from the
probe address: the probe address of the next iteration when the body neither
returns nor fails, that is when the query succeeds, the block is not a Free
block with enough remaining span, and none of the three stop tests fires. -/
def LocateSpaceForMapDeprecated.next (env : Env) (out_size cur_base : Nat) : Option Nat :=
  if (env.svcQueryMemory cur_base).1 ≠ ResultSuccess then none
  else if (env.svcQueryMemory cur_base).2.type = 0 ∧
      add64 (sub64 (env.svcQueryMemory cur_base).2.addr cur_base)
        (env.svcQueryMemory cur_base).2.size ≥ out_size then none
  else if (env.svcQueryMemory cur_base).2.type = 16 ∨
      add64 (env.svcQueryMemory cur_base).2.addr (env.svcQueryMemory cur_base).2.size < cur_base ∨
      shr64 (add64 (env.svcQueryMemory cur_base).2.addr (env.svcQueryMemory cur_base).2.size) 31
        ≠ 0 then none
  else some (add64 (env.svcQueryMemory cur_base).2.addr (env.svcQueryMemory cur_base).2.size)

/-- The probe address after `n` further iterations that all continue. -/
def LocateSpaceForMapDeprecated.scanFrom (env : Env) (out_size : Nat) : Nat → Nat → Option Nat
  | 0, cur_base => some cur_base
  | n + 1, cur_base =>
    match LocateSpaceForMapDeprecated.next env out_size cur_base with
    | none => none
    | some c => LocateSpaceForMapDeprecated.scanFrom env out_size n c

/-- The probe address of iteration `n` of `LocateSpaceForMapDeprecated`
(iteration `0` probes `0x8000000`), when the loop gets that far. -/
def LocateSpaceForMapDeprecated.probe (env : Env) (out_size n : Nat) : Option Nat :=
  LocateSpaceForMapDeprecated.scanFrom env out_size n 134217728

/-- The block chain of the sentinel scenario: `[0x8000000, 0x8001000)` Free,
then a block of kind `0x10` (Locked) up to the top; a block of kind `0x10`
below `0x8000000`. -/
def sentinelBlocks (a : Nat) : MemoryInfo :=
  if a < 134217728 then ⟨0, 134217728, 16⟩
  else if a < 134221824 then ⟨134217728, 4096, 0⟩
  else ⟨134221824, 18446744073575329792, 16⟩

/-- A pre-2.0.0 environment with the block chain `sentinelBlocks`. -/
def sentinelEnv : Env :=
  { legacyTopEnv with
    svcQueryMemory := fun a => (ResultSuccess, sentinelBlocks a)
    svcQueryProcessMemory := fun _ _ a => (ResultSuccess, sentinelBlocks a) }

/-! ## The reads of `GetAddressSpaceInfo` -/

/-- The info id of the `k`-th read of `GetAddressSpaceInfo` (`k = 0 .. 5`):
heap base, heap size, alias base, alias size, overall base, overall size. -/
def infoId : Nat → Nat
  | 0 => 4
  | 1 => 5
  | 2 => 2
  | 3 => 3
  | 4 => 12
  | _ => 13

/-- The field of `AddressSpaceInfo` that the `k`-th read stores into. -/
def AddressSpaceInfo.readField (a : AddressSpaceInfo) : Nat → Nat
  | 0 => a.heap_base
  | 1 => a.heap_size
  | 2 => a.map_base
  | 3 => a.map_size
  | 4 => a.addspace_base
  | _ => a.addspace_size

/-- An environment whose first info read (heap base) succeeds with `0x1000`
and whose other info reads fail. -/
def partialEnv : Env :=
  { scenarioEnv with
    svcGetInfo := fun id0 _ _ => if id0 = 4 then (ResultSuccess, 4096) else (ResultOther 9, 0) }

/-! ## The shape of a run of the retry loop -/

/-- The runs of the `for` loop shared by `MapCodeMemoryForProcessModern` and
`MapCodeMemoryForProcessDeprecated`, iteration by iteration. `Cand t a t1` says
that candidate selection from log `t` yields `try_address = a` and log `t1`;
`Stuck t` that it never ends. `AttemptRun .. left t o last` holds when the loop
with `left` iterations to go, started at log `t`, ends with outcome `o` and
`last` is the log at that point (also when the outcome carries none). -/
inductive AttemptRun (env : Env) (Cand : List Event → Nat → List Event → Prop)
    (Stuck : List Event → Prop) (h : Handle) (base_address size : Nat)
    (out_mcm : MappedCodeMemory) :
    Nat → List Event → Outcome (Result × MappedCodeMemory) → List Event → Prop where
  | exhausted (t : List Event) :
    AttemptRun env Cand Stuck h base_address size out_mcm 0 t
      (Outcome.ret (ResultRoInsufficientAddressSpace, out_mcm) t) t
  | stuck (left : Nat) (t : List Event) (hs : Stuck t) :
    AttemptRun env Cand Stuck h base_address size out_mcm (left + 1) t Outcome.timeout t
  | fatal (left : Nat) (t : List Event) (a : Nat) (t1 : List Event) (hc : Cand t a t1)
    (h1 : env.svcMapProcessCodeMemory t1 h a base_address size ≠ ResultSuccess)
    (h2 : env.svcMapProcessCodeMemory t1 h a base_address size
      ≠ ResultKernelInvalidMemoryState) :
    AttemptRun env Cand Stuck h base_address size out_mcm (left + 1) t
      (Outcome.ret (env.svcMapProcessCodeMemory t1 h a base_address size, out_mcm)
        (t1 ++ [Event.Map h a base_address size
          (env.svcMapProcessCodeMemory t1 h a base_address size)]))
      (t1 ++ [Event.Map h a base_address size
        (env.svcMapProcessCodeMemory t1 h a base_address size)])
  | busy (left : Nat) (t : List Event) (a : Nat) (t1 : List Event)
    (o : Outcome (Result × MappedCodeMemory)) (last : List Event) (hc : Cand t a t1)
    (h1 : env.svcMapProcessCodeMemory t1 h a base_address size
      = ResultKernelInvalidMemoryState)
    (hrest : AttemptRun env Cand Stuck h base_address size out_mcm left
      (t1 ++ [Event.Map h a base_address size ResultKernelInvalidMemoryState]) o last) :
    AttemptRun env Cand Stuck h base_address size out_mcm (left + 1) t o last
  | guard_abort (left : Nat) (t : List Event) (a : Nat) (t1 t3 : List Event)
    (hc : Cand t a t1)
    (h1 : env.svcMapProcessCodeMemory t1 h a base_address size = ResultSuccess)
    (hg : CanAddGuardRegions env (t1 ++ [Event.Map h a base_address size ResultSuccess]) h a
      size = Outcome.abort t3) :
    AttemptRun env Cand Stuck h base_address size out_mcm (left + 1) t (Outcome.abort t3) t3
  | accepted (left : Nat) (t : List Event) (a : Nat) (t1 t3 : List Event)
    (hc : Cand t a t1)
    (h1 : env.svcMapProcessCodeMemory t1 h a base_address size = ResultSuccess)
    (hg : CanAddGuardRegions env (t1 ++ [Event.Map h a base_address size ResultSuccess]) h a
      size = Outcome.ret true t3) :
    AttemptRun env Cand Stuck h base_address size out_mcm (left + 1) t
      (Outcome.ret (ResultSuccess, ⟨h, a, base_address, size, ResultSuccess⟩) t3) t3
  | unmap_abort (left : Nat) (t : List Event) (a : Nat) (t1 t3 : List Event)
    (hc : Cand t a t1)
    (h1 : env.svcMapProcessCodeMemory t1 h a base_address size = ResultSuccess)
    (hg : CanAddGuardRegions env (t1 ++ [Event.Map h a base_address size ResultSuccess]) h a
      size = Outcome.ret false t3)
    (hu : env.svcUnmapProcessCodeMemory t3 h a base_address size ≠ ResultSuccess) :
    AttemptRun env Cand Stuck h base_address size out_mcm (left + 1) t
      (Outcome.abort (t3 ++ [Event.Unmap h a base_address size
        (env.svcUnmapProcessCodeMemory t3 h a base_address size)]))
      (t3 ++ [Event.Unmap h a base_address size
        (env.svcUnmapProcessCodeMemory t3 h a base_address size)])
  | rejected (left : Nat) (t : List Event) (a : Nat) (t1 t3 : List Event)
    (o : Outcome (Result × MappedCodeMemory)) (last : List Event) (hc : Cand t a t1)
    (h1 : env.svcMapProcessCodeMemory t1 h a base_address size = ResultSuccess)
    (hg : CanAddGuardRegions env (t1 ++ [Event.Map h a base_address size ResultSuccess]) h a
      size = Outcome.ret false t3)
    (hu : env.svcUnmapProcessCodeMemory t3 h a base_address size = ResultSuccess)
    (hrest : AttemptRun env Cand Stuck h base_address size out_mcm left
      (t3 ++ [Event.Unmap h a base_address size ResultSuccess]) o last) :
    AttemptRun env Cand Stuck h base_address size out_mcm (left + 1) t o last

/-- Candidate selection of the modern allocator: the sampling loop returns. -/
def ModernCand (env : Env) (address_space : AddressSpaceInfo) (size fuel : Nat)
    (t : List Event) (a : Nat) (t1 : List Event) : Prop :=
  MapCodeMemoryForProcessModern.sample env address_space size fuel t = Outcome.ret a t1

/-- The sampling loop of the modern allocator runs out of fuel. -/
def ModernStuck (env : Env) (address_space : AddressSpaceInfo) (size fuel : Nat)
    (t : List Event) : Prop :=
  MapCodeMemoryForProcessModern.sample env address_space size fuel t = Outcome.timeout

/-- Candidate selection of the deprecated allocator: one draw. -/
def DeprecatedCand (env : Env) (addspace_base addspace_size size : Nat)
    (t : List Event) (a : Nat) (t1 : List Event) : Prop :=
  a = add64 addspace_base
    (shl64 (env.GetRandomU64 t (shr64 (sub64 addspace_size size) 12)) 12) ∧
  t1 = t ++ [Event.Random (shr64 (sub64 addspace_size size) 12)
    (env.GetRandomU64 t (shr64 (sub64 addspace_size size) 12))]

/-- Candidate selection only draws random numbers. -/
def CandDraws (Cand : List Event → Nat → List Event → Prop) : Prop :=
  ∀ t a t1, Cand t a t1 → ∃ r, t1 = t ++ r ∧ ∀ e ∈ r, e.isRandom = true

/-! ## Scoped ownership of the mapping -/

/-- The mapping held by one allocator call while its calls are replayed:
`some none` when it holds none, `some (some x)` when it holds `x`, and `none`
once the scoped discipline was broken, that is once a map call was made while
a mapping established earlier by the call was still held. A successful map
call takes the mapping; a successful unmap call of the held mapping releases
it. -/
def scopeStep : Option (Option (Handle × Nat × Nat × Nat)) → Event →
    Option (Option (Handle × Nat × Nat × Nat))
  | none, _ => none
  | some none, Event.Map h dst src size rc =>
    if rc = ResultSuccess then some (some (h, dst, src, size)) else some none
  | some (some _), Event.Map _ _ _ _ _ => none
  | some (some x), Event.Unmap h dst src size rc =>
    if rc = ResultSuccess ∧ (h, dst, src, size) = x then some none else some (some x)
  | st, _ => st

/-- The mapping held after the calls `new` of one allocator call, starting
with none held. -/
def heldAfter (new : List Event) : Option (Option (Handle × Nat × Nat × Nat)) :=
  new.foldl scopeStep (some none)

/-- The environment `openEnv` with a random source that always returns `16`. -/
def acceptEnv : Env :=
  { openEnv with GetRandomU64 := fun _ _ => 16 }

/-- Whether an event is a kernel unmap call. -/
def Event.isUnmap : Event → Bool
  | Event.Unmap _ _ _ _ _ => true
  | _ => false

/-- The address-space snapshot `MapCodeMemoryForProcessModern` works on: what
`GetAddressSpaceInfo` stores for the target process. -/
def queriedSpace (env : Env) (t : List Event) (h : Handle) : AddressSpaceInfo :=
  (GetAddressSpaceInfo env t AddressSpaceInfo.zero h).2.1

/-- An environment whose heap region wraps around the top of the 64-bit space:
heap base `2^64 - 0x1000`, heap size `0x2000`, address space
`[0x0, 2^64 - 0x800)`, one retry; the random source returns its bound and every map call
succeeds. -/
def wrapHeapEnv : Env :=
  { openEnv with
    svcGetInfo := fun id0 _ _ =>
      (ResultSuccess,
        if id0 = 4 then 18446744073709547520 else if id0 = 5 then 8192
        else if id0 = 13 then 18446744073709549568 else 0)
    LocateRetryCount := 1
    GetRandomU64 := fun _ mx => mx }


/-- A base `b` at or after `addspace_base` whose range `[b, b + size)` does not
overflow, misses the non-empty heap and alias regions, and lies inside a single
Free (type `0`) kernel block; unlike `FitsAt`, no bound by `addspace_end`. -/
def FitsFrom (env : Env) (as : AddressSpaceInfo) (size b : Nat) : Prop :=
  as.addspace_base ≤ b ∧ b + size < 18446744073709551616 ∧
  (as.heap_size ≠ 0 → b + size ≤ as.heap_base ∨ as.heap_base + as.heap_size ≤ b) ∧
  (as.map_size ≠ 0 → b + size ≤ as.map_base ∨ as.map_base + as.map_size ≤ b) ∧
  ∃ q, q < 18446744073709551616 ∧ (env.svcQueryMemory q).2.type = 0 ∧
    (env.svcQueryMemory q).2.addr ≤ b ∧
    b + size ≤ (env.svcQueryMemory q).2.addr + (env.svcQueryMemory q).2.size

/-- The effect of one pass through the body of a `while (true)` loop: the
function returns (or aborts), or the loop goes round again with new values of
`cur_base` and `cur_end`. -/
inductive LoopStep where
  | done (o : Outcome (Result × Nat))
  | next (cur_base cur_end : Nat) (t : List Event)

/-- One iteration of the `while (true)` loop of
`MapUtils::LocateSpaceForMapModern`, from the loop head to the closing brace. -/
def LocateSpaceForMapModern.body (env : Env) (address_space : AddressSpaceInfo)
    (out_size cur_base cur_end out : Nat) (t : List Event) : LoopStep :=
  if overlaps address_space.heap_size address_space.heap_base address_space.heap_end
      cur_base cur_end then
    if cur_base = address_space.heap_end then
      LoopStep.done (Outcome.ret (ResultKernelOutOfMemory, out) t)
    else
      let cur_base := address_space.heap_end
      let cur_end := add64 cur_base out_size
      if add64 cur_base out_size ≤ cur_base then
        LoopStep.done (Outcome.ret (ResultKernelOutOfMemory, out) t)
      else LoopStep.next cur_base cur_end t
  else if overlaps address_space.map_size address_space.map_base address_space.map_end
      cur_base cur_end then
    if cur_base = address_space.map_end then
      LoopStep.done (Outcome.ret (ResultKernelOutOfMemory, out) t)
    else
      let cur_base := address_space.map_end
      let cur_end := add64 cur_base out_size
      if add64 cur_base out_size ≤ cur_base then
        LoopStep.done (Outcome.ret (ResultKernelOutOfMemory, out) t)
      else LoopStep.next cur_base cur_end t
  else
    let q := env.svcQueryMemory cur_base
    let t := t ++ [Event.QueryMemory cur_base]
    let mem_info := q.2
    if q.1 ≠ ResultSuccess then LoopStep.done (Outcome.abort t)
    else if mem_info.type = 0 ∧
        add64 (sub64 mem_info.addr cur_base) mem_info.size ≥ out_size then
      LoopStep.done (Outcome.ret (ResultSuccess, cur_base) t)
    else if add64 mem_info.addr mem_info.size ≤ cur_base then
      LoopStep.done (Outcome.ret (ResultKernelOutOfMemory, out) t)
    else
      let cur_base := add64 mem_info.addr mem_info.size
      if cur_base ≥ address_space.addspace_end then
        LoopStep.done (Outcome.ret (ResultKernelOutOfMemory, out) t)
      else
        let cur_end := add64 cur_base out_size
        if add64 cur_base out_size ≤ cur_base then
          LoopStep.done (Outcome.ret (ResultKernelOutOfMemory, out) t)
        else LoopStep.next cur_base cur_end t

/-- The outcome of a loop whose next pass through the body has effect `s`, the
remaining passes being run by `rest`. -/
def LoopStep.run (s : LoopStep) (rest : Nat → Nat → List Event → Outcome (Result × Nat)) :
    Outcome (Result × Nat) :=
  match s with
  | LoopStep.done o => o
  | LoopStep.next cur_base cur_end t => rest cur_base cur_end t

/-- The scenario environment with a kernel whose memory query fails. -/
def queryFailEnv : Env :=
  { scenarioEnv with svcQueryMemory := fun a => (ResultOther 9, scenarioBlocks a) }

/-- The environment `wrapHeapEnv` with the alias region in place of the heap
region: alias base `2^64 - 0x1000`, alias size `0x2000`, no heap. -/
def wrapAliasEnv : Env :=
  { openEnv with
    svcGetInfo := fun id0 _ _ =>
      (ResultSuccess,
        if id0 = 2 then 18446744073709547520 else if id0 = 3 then 8192
        else if id0 = 13 then 18446744073709549568 else 0)
    LocateRetryCount := 1
    GetRandomU64 := fun _ mx => mx }
/-! ## Arithmetic facts -/

theorem add64_lt (a b : Nat) : add64 a b < 18446744073709551616 := by
  unfold add64; omega

/-- The overflow test `cur_base + out_size <= cur_base` is exact. -/
theorem add64_advance {cb size : Nat}
    (hsize : size < 18446744073709551616) (h : ¬ add64 cb size ≤ cb) :
    add64 cb size = cb + size ∧ 0 < size ∧ cb + size < 18446744073709551616 := by
  unfold add64 at *
  omega

/-- For a region whose end does not wrap and a probe range that does not
wrap, the test `overlaps` fails exactly when the two intervals are disjoint. -/
theorem overlaps_false_iff {rs rb re cb ce : Nat} (hre : rs ≠ 0 → re = rb + rs)
    (hre64 : rb + rs < 18446744073709551616) (hce : cb < ce) (hce64 : ce < 18446744073709551616) :
    overlaps rs rb re cb ce = false ↔ (rs ≠ 0 → ce ≤ rb ∨ rb + rs ≤ cb) := by
  unfold overlaps sub64
  by_cases h0 : rs = 0
  · simp [h0]
  · have := hre h0
    simp only [decide_eq_false_iff_not, ne_eq, h0, not_false_eq_true, true_and, forall_const]
    omega

/-- The span test `addr - cur_base + size >= out_size` bounds the true end. -/
theorem span_le {addr sz cb size : Nat} (h2 : cb < addr + sz)
    (hcb : cb < 18446744073709551616)
    (h : add64 (sub64 addr cb) sz ≥ size) : cb + size ≤ addr + sz := by
  unfold add64 sub64 at h
  omega

/-! ## `GetAddressSpaceInfo` -/

/-- What a successful `GetAddressSpaceInfo` leaves in `*out` and in the log. -/
theorem GetAddressSpaceInfo_success (env : Env) (t : List Event) (out : AddressSpaceInfo)
    (h : Handle) (hok : (GetAddressSpaceInfo env t out h).1 = ResultSuccess) :
    (GetAddressSpaceInfo env t out h).2.1 =
      { heap_base := (env.svcGetInfo 4 h 0).2, heap_size := (env.svcGetInfo 5 h 0).2,
        heap_end := add64 (env.svcGetInfo 4 h 0).2 (env.svcGetInfo 5 h 0).2,
        map_base := (env.svcGetInfo 2 h 0).2, map_size := (env.svcGetInfo 3 h 0).2,
        map_end := add64 (env.svcGetInfo 2 h 0).2 (env.svcGetInfo 3 h 0).2,
        addspace_base := (env.svcGetInfo 12 h 0).2, addspace_size := (env.svcGetInfo 13 h 0).2,
        addspace_end := add64 (env.svcGetInfo 12 h 0).2 (env.svcGetInfo 13 h 0).2 } ∧
    (GetAddressSpaceInfo env t out h).2.2 =
      t ++ [Event.GetInfo 4 h 0, Event.GetInfo 5 h 0, Event.GetInfo 2 h 0, Event.GetInfo 3 h 0,
        Event.GetInfo 12 h 0, Event.GetInfo 13 h 0] := by
  unfold GetAddressSpaceInfo at hok ⊢
  simp only at hok ⊢
  split_ifs at hok ⊢ <;> simp_all

/-! ## Modern locator -/

/-- Soundness of the loop of `LocateSpaceForMapModern` from any state whose
probe range `[cur_base, cur_end)` does not wrap. -/
theorem LocateSpaceForMapModern.loop_sound (env : Env) (as : AddressSpaceInfo) (size : Nat)
    (hsize : size < 18446744073709551616)
    (hheap : as.heap_end = add64 as.heap_base as.heap_size)
    (hheap64 : as.heap_base + as.heap_size < 18446744073709551616)
    (hmap : as.map_end = add64 as.map_base as.map_size)
    (hmap64 : as.map_base + as.map_size < 18446744073709551616)
    (hblk : ∀ a, a < 18446744073709551616 →
      (env.svcQueryMemory a).2.addr ≤ a ∧
        a < (env.svcQueryMemory a).2.addr + (env.svcQueryMemory a).2.size) :
    ∀ (fuel cb ce out : Nat) (t : List Event) (b : Nat) (t' : List Event),
      ce = cb + size → 0 < size → ce < 18446744073709551616 →
      LocateSpaceForMapModern.loop env as size fuel cb ce out t
        = Outcome.ret (ResultSuccess, b) t' →
      (as.heap_size ≠ 0 → b + size ≤ as.heap_base ∨ as.heap_base + as.heap_size ≤ b) ∧
      (as.map_size ≠ 0 → b + size ≤ as.map_base ∨ as.map_base + as.map_size ≤ b) ∧
      (env.svcQueryMemory b).1 = ResultSuccess ∧ (env.svcQueryMemory b).2.type = 0 ∧
      (env.svcQueryMemory b).2.addr ≤ b ∧
      b + size ≤ (env.svcQueryMemory b).2.addr + (env.svcQueryMemory b).2.size := by
  intro fuel
  induction fuel with
  | zero => intro cb ce out t b t' _ _ _ h; simp [LocateSpaceForMapModern.loop] at h
  | succ n ih =>
    intro cb ce out t b t' hce hpos hce64 h
    have hhe : as.heap_size ≠ 0 → as.heap_end = as.heap_base + as.heap_size := by
      intro _; rw [hheap]; unfold add64; omega
    have hme : as.map_size ≠ 0 → as.map_end = as.map_base + as.map_size := by
      intro _; rw [hmap]; unfold add64; omega
    have hlt : cb < ce := by omega
    rw [LocateSpaceForMapModern.loop] at h
    split at h
    · -- heap overlap
      split at h
      · simp at h
      · simp only at h
        split at h
        · simp at h
        · rename_i hadv
          obtain ⟨e1, e2, e3⟩ := add64_advance hsize hadv
          exact ih _ _ _ _ _ _ e1 e2 (by omega) h
    · rename_i hno_heap
      split at h
      · split at h
        · simp at h
        · simp only at h
          split at h
          · simp at h
          · rename_i hadv
            obtain ⟨e1, e2, e3⟩ := add64_advance hsize hadv
            exact ih _ _ _ _ _ _ e1 e2 (by omega) h
      · rename_i hno_map
        simp only at h
        split at h
        · simp at h
        · rename_i hq
          split at h
          · rename_i hfree
            simp only [Outcome.ret.injEq, Prod.mk.injEq, true_and] at h
            obtain ⟨hb, _⟩ := h
            subst hb
            have hcb64 : cb < 18446744073709551616 := by omega
            have hc := hblk cb hcb64
            have hnh := (overlaps_false_iff hhe hheap64 hlt hce64).1
              (by simpa using hno_heap)
            have hnm := (overlaps_false_iff hme hmap64 hlt hce64).1
              (by simpa using hno_map)
            refine ⟨?_, ?_, by simpa using hq, hfree.1, hc.1, span_le hc.2 hcb64 hfree.2⟩
            · intro h0; have := hnh h0; omega
            · intro h0; have := hnm h0; omega
          · split at h
            · simp at h
            · split at h
              · simp at h
              · split at h
                · simp at h
                · rename_i hadv
                  obtain ⟨e1, e2, e3⟩ := add64_advance hsize hadv
                  exact ih _ _ _ _ _ _ e1 e2 (by omega) h

/-- C1. Modern locator soundness: for a request size that fits `u64`, a memory
map whose reported block contains every probed address, and heap and alias
regions whose ends do not wrap, a successful `LocateSpaceForMapModern` returns a
base `b` whose range `[b, b + out_size)` misses the heap region when
`heap_size != 0`, misses the alias region when `map_size != 0`, and lies inside
the block the kernel reports at `b`, which has type `0` (Free).  (No assumption
on `addspace_end` is needed.) -/
theorem LocateSpaceForMapModern_sound (env : Env) (fuel : Nat) (t : List Event)
    (out out_size b : Nat) (t' : List Event)
    (hsize : out_size < 18446744073709551616)
    (hheap64 : (currentSpace env t).heap_base + (currentSpace env t).heap_size
      < 18446744073709551616)
    (hmap64 : (currentSpace env t).map_base + (currentSpace env t).map_size
      < 18446744073709551616)
    (hblk : ∀ a, a < 18446744073709551616 →
      (env.svcQueryMemory a).2.addr ≤ a ∧
        a < (env.svcQueryMemory a).2.addr + (env.svcQueryMemory a).2.size)
    (hret : LocateSpaceForMapModern env fuel t out out_size
      = Outcome.ret (ResultSuccess, b) t') :
    ((currentSpace env t).heap_size ≠ 0 →
      b + out_size ≤ (currentSpace env t).heap_base ∨
        (currentSpace env t).heap_base + (currentSpace env t).heap_size ≤ b) ∧
    ((currentSpace env t).map_size ≠ 0 →
      b + out_size ≤ (currentSpace env t).map_base ∨
        (currentSpace env t).map_base + (currentSpace env t).map_size ≤ b) ∧
    (env.svcQueryMemory b).1 = ResultSuccess ∧ (env.svcQueryMemory b).2.type = 0 ∧
    (env.svcQueryMemory b).2.addr ≤ b ∧
    b + out_size ≤ (env.svcQueryMemory b).2.addr + (env.svcQueryMemory b).2.size := by
  unfold LocateSpaceForMapModern at hret
  simp only at hret
  split at hret
  · rename_i hfail
    simp only [Outcome.ret.injEq, Prod.mk.injEq] at hret
    exact absurd hret.1.1 hfail
  · rename_i hok
    have hok' : (GetAddressSpaceInfo env t AddressSpaceInfo.zero env.CUR_PROCESS_HANDLE).1
        = ResultSuccess := by simpa using hok
    have hs := (GetAddressSpaceInfo_success env t _ _ hok').1
    split at hret
    · simp at hret
    · rename_i hadv
      obtain ⟨e1, e2, e3⟩ := add64_advance hsize hadv
      refine LocateSpaceForMapModern.loop_sound env (currentSpace env t) out_size hsize
        ?_ hheap64 ?_ hmap64 hblk fuel _ _ out _ b t' e1 e2 (by omega) hret
      · unfold currentSpace; rw [hs]
      · unfold currentSpace; rw [hs]

theorem scenarioBlocks_contains (a : Nat) (_ : a < 18446744073709551616) :
    (scenarioBlocks a).addr ≤ a ∧ a < (scenarioBlocks a).addr + (scenarioBlocks a).size := by
  unfold scenarioBlocks
  split <;> simp <;> omega

/-- C1 at the scenario environment with size `0x1001`: the locator returns
`0x2000`, right after the heap. -/
theorem LocateSpaceForMapModern_sound_witness :
    ((currentSpace scenarioEnv []).heap_size ≠ 0 →
      8192 + 4097 ≤ (currentSpace scenarioEnv []).heap_base ∨
        (currentSpace scenarioEnv []).heap_base + (currentSpace scenarioEnv []).heap_size
          ≤ 8192) ∧
    ((currentSpace scenarioEnv []).map_size ≠ 0 →
      8192 + 4097 ≤ (currentSpace scenarioEnv []).map_base ∨
        (currentSpace scenarioEnv []).map_base + (currentSpace scenarioEnv []).map_size
          ≤ 8192) ∧
    (scenarioEnv.svcQueryMemory 8192).1 = ResultSuccess ∧
    (scenarioEnv.svcQueryMemory 8192).2.type = 0 ∧
    (scenarioEnv.svcQueryMemory 8192).2.addr ≤ 8192 ∧
    8192 + 4097 ≤ (scenarioEnv.svcQueryMemory 8192).2.addr
      + (scenarioEnv.svcQueryMemory 8192).2.size :=
  LocateSpaceForMapModern_sound scenarioEnv 2 [] 0 4097 8192
    ([Event.GetInfo 4 4294934529 0, Event.GetInfo 5 4294934529 0, Event.GetInfo 2 4294934529 0,
      Event.GetInfo 3 4294934529 0, Event.GetInfo 12 4294934529 0,
      Event.GetInfo 13 4294934529 0, Event.QueryMemory 8192])
    (by decide) (by decide) (by decide) scenarioBlocks_contains rfl

/-- A base at or after `cur_base` that misses a region the probe range overlaps
lies at or after the end of that region. -/
theorem skip_region {rs rb re cb ce size b : Nat} (hre : re = add64 rb rs)
    (hre64 : rb + rs < 18446744073709551616)
    (hce : ce = cb + size) (hpos : 0 < size) (hce64 : ce < 18446744073709551616)
    (hov : overlaps rs rb re cb ce = true)
    (hmiss : rs ≠ 0 → b + size ≤ rb ∨ rb + rs ≤ b) (hb : cb ≤ b) :
    cb < re ∧ re ≤ b := by
  unfold overlaps sub64 at hov
  simp only [decide_eq_true_eq] at hov
  have := hmiss hov.1
  unfold add64 at hre
  omega

/-- When the overflow test fires at `cur_base`, no later base has a range that
fits below `2^64`. -/
theorem overflow_exit {cb size b : Nat} (hpos : 0 < size)
    (hsize : size < 18446744073709551616) (h : add64 cb size ≤ cb) (hb : cb ≤ b) :
    ¬ b + size < 18446744073709551616 := by
  unfold add64 at h
  omega

/-- A base at or after `cur_base` that fits lies at or after the end of the
block reported at `cur_base` when that block is not Free or its remaining span
is too short. -/
theorem skip_block {env : Env} {as : AddressSpaceInfo} {size cb b : Nat}
    (hcont : BlocksContain env) (hpart : BlocksPartition env) (hu64 : BlockSizesU64 env)
    (hpos : 0 < size) (hcb64 : cb < 18446744073709551616)
    (hrej : ¬ ((env.svcQueryMemory cb).2.type = 0 ∧
      add64 (sub64 (env.svcQueryMemory cb).2.addr cb) (env.svcQueryMemory cb).2.size ≥ size))
    (hfit : FitsAt env as size b) (hb : cb ≤ b) :
    (env.svcQueryMemory cb).2.addr + (env.svcQueryMemory cb).2.size ≤ b := by
  by_contra hlt
  obtain ⟨_, _, hb64, _, _, q, hq64, hqfree, hqlo, hqhi⟩ := hfit
  have hc := hcont cb hcb64
  have hs := hu64 cb hcb64
  have e1 : (env.svcQueryMemory b).2 = (env.svcQueryMemory q).2 :=
    hpart b q (by omega) hq64 hqlo (by omega)
  have e2 : (env.svcQueryMemory b).2 = (env.svcQueryMemory cb).2 :=
    hpart b cb (by omega) hcb64 (by omega) (by omega)
  rw [e1] at e2
  rw [e2] at hqfree hqlo hqhi
  apply hrej
  refine ⟨hqfree, ?_⟩
  unfold add64 sub64
  omega

/-- Under a region end that does not wrap, the overlap test implies
`cur_base < end`. -/
theorem overlaps_true_lt {rs rb re cb ce : Nat} (hre : re = add64 rb rs)
    (hre64 : rb + rs < 18446744073709551616)
    (h : overlaps rs rb re cb ce = true) : cb < re := by
  unfold overlaps sub64 at h
  simp only [decide_eq_true_eq] at h
  unfold add64 at hre
  omega

/-- The scan invariant of the loop of `LocateSpaceForMapModern`: if no fitting
base lies before `cur_base`, a returned base is the least fitting base and a
failure means no base fits. -/
theorem LocateSpaceForMapModern.loop_scan (env : Env) (as : AddressSpaceInfo) (size : Nat)
    (hsize : size < 18446744073709551616)
    (hheap : as.heap_end = add64 as.heap_base as.heap_size)
    (hheap64 : as.heap_base + as.heap_size < 18446744073709551616)
    (hmap : as.map_end = add64 as.map_base as.map_size)
    (hmap64 : as.map_base + as.map_size < 18446744073709551616)
    (hcont : BlocksContain env) (hpart : BlocksPartition env) (hu64 : BlockSizesU64 env) :
    ∀ (fuel cb ce out : Nat) (t : List Event) (r : Result × Nat) (t' : List Event),
      ce = cb + size → 0 < size → ce < 18446744073709551616 →
      (∀ b, FitsAt env as size b → cb ≤ b) →
      LocateSpaceForMapModern.loop env as size fuel cb ce out t = Outcome.ret r t' →
      (r.1 = ResultSuccess → ∀ b, FitsAt env as size b → r.2 ≤ b) ∧
      (r.1 ≠ ResultSuccess → ∀ b, ¬ FitsAt env as size b) := by
  intro fuel
  induction fuel with
  | zero => intro cb ce out t r t' _ _ _ _ h; simp [LocateSpaceForMapModern.loop] at h
  | succ n ih =>
    intro cb ce out t r t' hce hpos hce64 hinv h
    have hover : ∀ c, add64 c size ≤ c → (∀ b, FitsAt env as size b → c ≤ b) →
        ∀ b, ¬ FitsAt env as size b := by
      intro c hc hc' b hfit
      exact overflow_exit hpos hsize hc (hc' b hfit) hfit.2.2.1
    rw [LocateSpaceForMapModern.loop] at h
    split at h
    · -- heap overlap
      rename_i hov
      have hskip : ∀ b, FitsAt env as size b → as.heap_end ≤ b := fun b hfit =>
        (skip_region hheap hheap64 hce hpos hce64 hov hfit.2.2.2.1 (hinv b hfit)).2
      have hlt := overlaps_true_lt hheap hheap64 hov
      split at h
      · omega
      · simp only at h
        split at h
        · rename_i hadv
          simp only [Outcome.ret.injEq] at h
          obtain ⟨hr, _⟩ := h
          subst hr
          exact ⟨by simp, fun _ => hover _ hadv hskip⟩
        · rename_i hadv
          obtain ⟨e1, e2, e3⟩ := add64_advance hsize hadv
          exact ih _ _ _ _ _ _ e1 e2 (by omega) hskip h
    · split at h
      · -- alias overlap
        rename_i hov
        have hskip : ∀ b, FitsAt env as size b → as.map_end ≤ b := fun b hfit =>
          (skip_region hmap hmap64 hce hpos hce64 hov hfit.2.2.2.2.1 (hinv b hfit)).2
        have hlt := overlaps_true_lt hmap hmap64 hov
        split at h
        · omega
        · simp only at h
          split at h
          · rename_i hadv
            simp only [Outcome.ret.injEq] at h
            obtain ⟨hr, _⟩ := h
            subst hr
            exact ⟨by simp, fun _ => hover _ hadv hskip⟩
          · rename_i hadv
            obtain ⟨e1, e2, e3⟩ := add64_advance hsize hadv
            exact ih _ _ _ _ _ _ e1 e2 (by omega) hskip h
      · -- kernel block
        simp only at h
        have hcb64 : cb < 18446744073709551616 := by omega
        have hc := hcont cb hcb64
        have hs := hu64 cb hcb64
        split at h
        · simp at h
        · split at h
          · simp only [Outcome.ret.injEq] at h
            obtain ⟨hr, _⟩ := h
            subst hr
            exact ⟨fun _ => hinv, by simp⟩
          · rename_i hrej
            have hskip : ∀ b, FitsAt env as size b →
                (env.svcQueryMemory cb).2.addr + (env.svcQueryMemory cb).2.size ≤ b :=
              fun b hfit => skip_block hcont hpart hu64 hpos hcb64 hrej hfit (hinv b hfit)
            split at h
            · rename_i hwrap
              simp only [Outcome.ret.injEq] at h
              obtain ⟨hr, _⟩ := h
              subst hr
              refine ⟨by simp, fun _ b hfit => ?_⟩
              have h1 := hskip b hfit
              have h2 := hfit.2.2.1
              unfold add64 at hwrap
              omega
            · rename_i hnowrap
              have heq : add64 (env.svcQueryMemory cb).2.addr (env.svcQueryMemory cb).2.size
                  = (env.svcQueryMemory cb).2.addr + (env.svcQueryMemory cb).2.size := by
                unfold add64 at hnowrap ⊢
                omega
              split at h
              · rename_i hend
                simp only [Outcome.ret.injEq] at h
                obtain ⟨hr, _⟩ := h
                subst hr
                refine ⟨by simp, fun _ b hfit => ?_⟩
                have h1 := hskip b hfit
                have h2 := hfit.2.1
                omega
              · split at h
                · rename_i hadv
                  simp only [Outcome.ret.injEq] at h
                  obtain ⟨hr, _⟩ := h
                  subst hr
                  exact ⟨by simp, fun _ => hover _ hadv (by rw [heq]; exact hskip)⟩
                · rename_i hadv
                  obtain ⟨e1, e2, e3⟩ := add64_advance hsize hadv
                  exact ih _ _ _ _ _ _ e1 e2 (by omega) (by rw [heq]; exact hskip) h

theorem scenarioEnv_BlocksContain : BlocksContain scenarioEnv := by
  intro a ha
  exact scenarioBlocks_contains a ha

theorem scenarioEnv_BlocksPartition : BlocksPartition scenarioEnv := by
  intro p q _ _ h1 h2
  simp only [scenarioEnv, scenarioBlocks] at h1 h2 ⊢
  split at h1 <;> split <;> simp_all <;> omega

theorem scenarioEnv_BlockSizesU64 : BlockSizesU64 scenarioEnv := by
  intro a _
  simp only [scenarioEnv, scenarioBlocks]
  split <;> simp

/-- C2 (amended). Modern locator completeness for a non-empty request: for
`1 <= out_size < 2^64`, an address-space query that succeeds, heap and alias
ends that do not wrap, and a memory map whose blocks contain the probed
address, partition the space and have `u64` sizes, if `LocateSpaceForMapModern`
returns `ResultKernelOutOfMemory` then no base `b` with
`addspace_base <= b < addspace_end` has a range `[b, b + out_size)` that does
not overflow, misses the non-empty heap and alias regions and lies inside a
single Free block. -/
theorem LocateSpaceForMapModern_complete (env : Env) (fuel : Nat) (t : List Event)
    (out out_size out' : Nat) (t' : List Event)
    (hpos : 0 < out_size) (hsize : out_size < 18446744073709551616)
    (hquery : (GetAddressSpaceInfo env t AddressSpaceInfo.zero env.CUR_PROCESS_HANDLE).1
      = ResultSuccess)
    (hheap64 : (currentSpace env t).heap_base + (currentSpace env t).heap_size
      < 18446744073709551616)
    (hmap64 : (currentSpace env t).map_base + (currentSpace env t).map_size
      < 18446744073709551616)
    (hcont : BlocksContain env) (hpart : BlocksPartition env) (hu64 : BlockSizesU64 env)
    (hret : LocateSpaceForMapModern env fuel t out out_size
      = Outcome.ret (ResultKernelOutOfMemory, out') t') :
    ∀ b, ¬ FitsAt env (currentSpace env t) out_size b := by
  have hs := (GetAddressSpaceInfo_success env t _ _ hquery).1
  unfold LocateSpaceForMapModern at hret
  simp only [hquery, ne_eq, not_true_eq_false, if_false] at hret
  split at hret
  · rename_i hadv
    intro b hfit
    exact overflow_exit hpos hsize hadv hfit.1 hfit.2.2.1
  · rename_i hadv
    obtain ⟨e1, e2, e3⟩ := add64_advance hsize hadv
    exact (LocateSpaceForMapModern.loop_scan env (currentSpace env t) out_size hsize
      (by unfold currentSpace; rw [hs]) hheap64 (by unfold currentSpace; rw [hs]) hmap64
      hcont hpart hu64 fuel _ _ out _ _ t' e1 e2 (by omega) (fun b hfit => hfit.1) hret).2
      (by simp)

/-- C2 (amended) at the scenario environment: a request for the whole address
space, `0x100000` bytes, fails and indeed fits nowhere. -/
theorem LocateSpaceForMapModern_complete_witness :
    ¬ ∃ b, FitsAt scenarioEnv (currentSpace scenarioEnv []) 1048576 b :=
  fun hex => hex.elim
    (LocateSpaceForMapModern_complete scenarioEnv 3 [] 0 1048576 0
      ([Event.GetInfo 4 4294934529 0, Event.GetInfo 5 4294934529 0,
        Event.GetInfo 2 4294934529 0, Event.GetInfo 3 4294934529 0,
        Event.GetInfo 12 4294934529 0, Event.GetInfo 13 4294934529 0, Event.QueryMemory 8192])
      (by decide) (by decide) rfl (by decide) (by decide)
      scenarioEnv_BlocksContain scenarioEnv_BlocksPartition scenarioEnv_BlockSizesU64 rfl)

/-- C2 as stated fails for the empty request: in the scenario environment,
which is well formed, `LocateSpaceForMapModern` with size `0` returns
`ResultKernelOutOfMemory` although base `0` fits (its empty range does not
overflow, misses the heap and lies inside the Free block). -/
theorem LocateSpaceForMapModern_complete_counterexample :
    BlocksContain scenarioEnv ∧ BlocksPartition scenarioEnv ∧ BlockSizesU64 scenarioEnv ∧
    (GetAddressSpaceInfo scenarioEnv [] AddressSpaceInfo.zero
      scenarioEnv.CUR_PROCESS_HANDLE).1 = ResultSuccess ∧
    (currentSpace scenarioEnv []).heap_base + (currentSpace scenarioEnv []).heap_size
      < 18446744073709551616 ∧
    (currentSpace scenarioEnv []).map_base + (currentSpace scenarioEnv []).map_size
      < 18446744073709551616 ∧
    (currentSpace scenarioEnv []).addspace_base + (currentSpace scenarioEnv []).addspace_size
      < 18446744073709551616 ∧
    (currentSpace scenarioEnv []).map_size = 0 ∧
    LocateSpaceForMapModern scenarioEnv 1 [] 0 0
      = Outcome.ret (ResultKernelOutOfMemory, 0)
        [Event.GetInfo 4 4294934529 0, Event.GetInfo 5 4294934529 0,
          Event.GetInfo 2 4294934529 0, Event.GetInfo 3 4294934529 0,
          Event.GetInfo 12 4294934529 0, Event.GetInfo 13 4294934529 0] ∧
    FitsAt scenarioEnv (currentSpace scenarioEnv []) 0 0 := by
  refine ⟨scenarioEnv_BlocksContain, scenarioEnv_BlocksPartition, scenarioEnv_BlockSizesU64,
    rfl, by decide, by decide, by decide, rfl, rfl, ?_⟩
  refine ⟨by decide, by decide, by decide, ?_, ?_, 0, by decide, rfl, by decide, by decide⟩
  · intro _; left; decide
  · intro h; exact absurd rfl h

/-! ## Overflow of the located range -/

/-- On the modern path the located range never overflows, whatever the kernel
reports: the loop is only entered, and only continues, after the test
`cur_base + out_size <= cur_base` has failed. -/
theorem LocateSpaceForMapModern.loop_no_overflow (env : Env) (as : AddressSpaceInfo)
    (size : Nat) (hsize : size < 18446744073709551616) :
    ∀ (fuel cb ce out : Nat) (t : List Event) (b : Nat) (t' : List Event),
      cb + size < 18446744073709551616 →
      LocateSpaceForMapModern.loop env as size fuel cb ce out t
        = Outcome.ret (ResultSuccess, b) t' →
      b + size < 18446744073709551616 := by
  intro fuel
  induction fuel with
  | zero => intro cb ce out t b t' _ h; simp [LocateSpaceForMapModern.loop] at h
  | succ n ih =>
    intro cb ce out t b t' hcb h
    rw [LocateSpaceForMapModern.loop] at h
    split at h
    · split at h
      · simp at h
      · simp only at h
        split at h
        · simp at h
        · rename_i hnw
          exact ih _ _ _ _ _ _ (add64_advance hsize hnw).2.2 h
    · split at h
      · split at h
        · simp at h
        · simp only at h
          split at h
          · simp at h
          · rename_i hnw
            exact ih _ _ _ _ _ _ (add64_advance hsize hnw).2.2 h
      · simp only at h
        split at h
        · simp at h
        · split at h
          · simp only [Outcome.ret.injEq, Prod.mk.injEq, true_and] at h
            obtain ⟨hb, _⟩ := h
            subst hb
            exact hcb
          · split at h
            · simp at h
            · split at h
              · simp at h
              · split at h
                · simp at h
                · rename_i hnw
                  exact ih _ _ _ _ _ _ (add64_advance hsize hnw).2.2 h

/-- The modern half of C3: for every `u64` request size and every kernel
behaviour, a base returned by `LocateSpaceForMapModern` satisfies
`b + out_size < 2^64`. -/
theorem LocateSpaceForMapModern_no_overflow (env : Env) (fuel : Nat) (t : List Event)
    (out out_size b : Nat) (t' : List Event) (hsize : out_size < 18446744073709551616)
    (hret : LocateSpaceForMapModern env fuel t out out_size
      = Outcome.ret (ResultSuccess, b) t') :
    b + out_size < 18446744073709551616 := by
  unfold LocateSpaceForMapModern at hret
  simp only at hret
  split at hret
  · rename_i hfail
    simp only [Outcome.ret.injEq, Prod.mk.injEq] at hret
    exact absurd hret.1.1 hfail
  · split at hret
    · simp at hret
    · rename_i hnw
      exact LocateSpaceForMapModern.loop_no_overflow env _ out_size hsize fuel _ _ _ _ _ _
        (add64_advance hsize hnw).2.2 hret

/-- C3 fails on the deprecated path. On pre-2.0.0 firmware, with one Free block
from `0x8000000` to the top of the 64-bit space and a request of
`2^64 - 0x8000000` bytes, `LocateSpaceForMap` returns success with base
`0x8000000`, and `0x8000000 + out_size = 2^64` is not below `2^64`. -/
theorem LocateSpaceForMap_deprecated_overflow :
    legacyTopEnv.firmwareAtLeast200 = false ∧
    LocateSpaceForMap legacyTopEnv 1 [] 0 18446744073575333888
      = Outcome.ret (ResultSuccess, 134217728) [Event.QueryMemory 134217728] ∧
    ¬ (134217728 + 18446744073575333888 < 18446744073709551616) ∧
    add64 134217728 18446744073575333888 = 0 := by
  refine ⟨rfl, rfl, by decide, by decide⟩

/-! ## Guard-region validator -/

/-- C4 (amended). Guard validator exactness away from wrap-around: for
`1 <= address`, `GuardRegionSize <= address`,
`address + size + GuardRegionSize < 2^64`, both kernel queries succeeding, each
reported block containing the queried address and the block reported at
`address + size` ending below `2^64`, `CanAddGuardRegions` returns, and it
returns true iff `[address - GuardRegionSize, address)` lies inside the block
reported at `address - 1`, `[address + size, address + size + GuardRegionSize)`
lies inside the block reported at `address + size`, and both blocks are
Unmapped. -/
theorem CanAddGuardRegions_exact (env : Env) (t : List Event) (h : Handle)
    (address size : Nat)
    (hpos : 0 < address) (hlow : env.GuardRegionSize ≤ address)
    (hhigh : address + size + env.GuardRegionSize < 18446744073709551616)
    (hq1 : (lowerBlock env t h address).1 = ResultSuccess)
    (hq2 : (upperBlock env t h address size).1 = ResultSuccess)
    (hc1 : (lowerBlock env t h address).2.addr ≤ address - 1 ∧
      address - 1 < (lowerBlock env t h address).2.addr + (lowerBlock env t h address).2.size)
    (hc2 : (upperBlock env t h address size).2.addr ≤ address + size ∧
      address + size < (upperBlock env t h address size).2.addr
        + (upperBlock env t h address size).2.size)
    (hend2 : (upperBlock env t h address size).2.addr
      + (upperBlock env t h address size).2.size < 18446744073709551616) :
    ∃ r t', CanAddGuardRegions env t h address size = Outcome.ret r t' ∧
      (r = true ↔
        ((lowerBlock env t h address).2.type = env.MemType_Unmapped ∧
          (lowerBlock env t h address).2.addr + env.GuardRegionSize ≤ address ∧
          address ≤ (lowerBlock env t h address).2.addr
            + (lowerBlock env t h address).2.size) ∧
        ((upperBlock env t h address size).2.type = env.MemType_Unmapped ∧
          (upperBlock env t h address size).2.addr ≤ address + size ∧
          address + size + env.GuardRegionSize ≤ (upperBlock env t h address size).2.addr
            + (upperBlock env t h address size).2.size)) := by
  unfold lowerBlock at hq1 hc1 ⊢
  unfold upperBlock at hq2 hc2 hend2 ⊢
  have e1 : sub64 address env.GuardRegionSize = address - env.GuardRegionSize := by
    unfold sub64; omega
  have e2 : add64 (add64 address size) env.GuardRegionSize
      = address + size + env.GuardRegionSize := by
    unfold add64; omega
  have e3 : add64 address size = address + size := by
    unfold add64; omega
  unfold CanAddGuardRegions
  simp only [hq1, ne_eq, not_true_eq_false, if_false]
  generalize env.svcQueryProcessMemory t h (sub64 address 1) = b1 at hq1 hc1 ⊢
  generalize env.svcQueryProcessMemory
    (t ++ [Event.QueryProcessMemory h (sub64 address 1)]) h (add64 address size) = b2
    at hq2 hc2 hend2 ⊢
  have e4 : add64 b2.2.addr b2.2.size = b2.2.addr + b2.2.size := by
    unfold add64; omega
  rw [e1, e2, e4]
  by_cases hcond : b1.2.type = env.MemType_Unmapped ∧ address - env.GuardRegionSize ≥ b1.2.addr
  · rw [if_pos hcond, if_neg (by simp [hq2])]
    refine ⟨_, _, rfl, ?_⟩
    simp only [decide_eq_true_eq]
    constructor
    · intro hr
      exact ⟨⟨hcond.1, by omega, by omega⟩, hr.1, by omega, hr.2⟩
    · intro hr
      exact ⟨hr.2.1, hr.2.2.2⟩
  · rw [if_neg hcond]
    refine ⟨false, _, rfl, ?_⟩
    simp only [Bool.false_eq_true, false_iff]
    intro hr
    exact hcond ⟨hr.1.1, by omega⟩

theorem openBlocks_contains (a : Nat) (_ : a < 18446744073709551616) :
    (openBlocks a).addr ≤ a ∧ a < (openBlocks a).addr + (openBlocks a).size := by
  unfold openBlocks
  split <;> simp <;> omega

/-- C4 (amended) at `openEnv`, address `0x8000`, size `0x1000`: every
hypothesis holds there. -/
theorem CanAddGuardRegions_exact_witness :
    ∃ r t', CanAddGuardRegions openEnv [] 7 32768 4096 = Outcome.ret r t' ∧
      (r = true ↔
        ((lowerBlock openEnv [] 7 32768).2.type = openEnv.MemType_Unmapped ∧
          (lowerBlock openEnv [] 7 32768).2.addr + openEnv.GuardRegionSize ≤ 32768 ∧
          32768 ≤ (lowerBlock openEnv [] 7 32768).2.addr
            + (lowerBlock openEnv [] 7 32768).2.size) ∧
        ((upperBlock openEnv [] 7 32768 4096).2.type = openEnv.MemType_Unmapped ∧
          (upperBlock openEnv [] 7 32768 4096).2.addr ≤ 32768 + 4096 ∧
          32768 + 4096 + openEnv.GuardRegionSize ≤ (upperBlock openEnv [] 7 32768 4096).2.addr
            + (upperBlock openEnv [] 7 32768 4096).2.size)) :=
  CanAddGuardRegions_exact openEnv [] 7 32768 4096 (by decide) (by decide) (by decide)
    rfl rfl (by decide) (by decide) (by decide)

/-- C4 as stated fails where the address arithmetic wraps; three inputs in
`openEnv` (guard size `0x4000`), each with both queries succeeding and each
reported block containing the queried address.
(a) `address = 0x1000` is below the guard size: the validator returns true, yet
the block at `address - 1` starts at `0` and cannot hold
`[address - 0x4000, address)`.
(b) `address = 0x200000`, `size = 0x1000`: both guard intervals lie inside the
Unmapped block `[0x100000, 2^64)`, yet the validator returns false, because
the end of that block wraps to `0`.
(c) `address = 2^64 - 0x2000`, `size = 0x3000`: `address + size` wraps to
`0x1000`; the validator returns true, yet the block reported there ends at
`0x100000`, far below `address + size + 0x4000`. -/
theorem CanAddGuardRegions_exact_counterexample :
    ((lowerBlock openEnv [] 7 4096).1 = ResultSuccess ∧
      (upperBlock openEnv [] 7 4096 4096).1 = ResultSuccess ∧
      (lowerBlock openEnv [] 7 4096).2.addr ≤ sub64 4096 1 ∧
      sub64 4096 1 < (lowerBlock openEnv [] 7 4096).2.addr
        + (lowerBlock openEnv [] 7 4096).2.size ∧
      (upperBlock openEnv [] 7 4096 4096).2.addr ≤ add64 4096 4096 ∧
      add64 4096 4096 < (upperBlock openEnv [] 7 4096 4096).2.addr
        + (upperBlock openEnv [] 7 4096 4096).2.size ∧
      CanAddGuardRegions openEnv [] 7 4096 4096
        = Outcome.ret true
          [Event.QueryProcessMemory 7 4095, Event.QueryProcessMemory 7 8192] ∧
      ¬ ((lowerBlock openEnv [] 7 4096).2.addr + openEnv.GuardRegionSize ≤ 4096)) ∧
    ((lowerBlock openEnv [] 7 2097152).1 = ResultSuccess ∧
      (upperBlock openEnv [] 7 2097152 4096).1 = ResultSuccess ∧
      (lowerBlock openEnv [] 7 2097152).2.addr ≤ sub64 2097152 1 ∧
      sub64 2097152 1 < (lowerBlock openEnv [] 7 2097152).2.addr
        + (lowerBlock openEnv [] 7 2097152).2.size ∧
      (upperBlock openEnv [] 7 2097152 4096).2.addr ≤ add64 2097152 4096 ∧
      add64 2097152 4096 < (upperBlock openEnv [] 7 2097152 4096).2.addr
        + (upperBlock openEnv [] 7 2097152 4096).2.size ∧
      CanAddGuardRegions openEnv [] 7 2097152 4096
        = Outcome.ret false
          [Event.QueryProcessMemory 7 2097151, Event.QueryProcessMemory 7 2101248] ∧
      ((lowerBlock openEnv [] 7 2097152).2.type = openEnv.MemType_Unmapped ∧
        (lowerBlock openEnv [] 7 2097152).2.addr + openEnv.GuardRegionSize ≤ 2097152 ∧
        2097152 ≤ (lowerBlock openEnv [] 7 2097152).2.addr
          + (lowerBlock openEnv [] 7 2097152).2.size) ∧
      ((upperBlock openEnv [] 7 2097152 4096).2.type = openEnv.MemType_Unmapped ∧
        (upperBlock openEnv [] 7 2097152 4096).2.addr ≤ 2097152 + 4096 ∧
        2097152 + 4096 + openEnv.GuardRegionSize
          ≤ (upperBlock openEnv [] 7 2097152 4096).2.addr
            + (upperBlock openEnv [] 7 2097152 4096).2.size)) ∧
    ((lowerBlock openEnv [] 7 18446744073709543424).1 = ResultSuccess ∧
      (upperBlock openEnv [] 7 18446744073709543424 12288).1 = ResultSuccess ∧
      (lowerBlock openEnv [] 7 18446744073709543424).2.addr ≤ sub64 18446744073709543424 1 ∧
      sub64 18446744073709543424 1 < (lowerBlock openEnv [] 7 18446744073709543424).2.addr
        + (lowerBlock openEnv [] 7 18446744073709543424).2.size ∧
      (upperBlock openEnv [] 7 18446744073709543424 12288).2.addr
        ≤ add64 18446744073709543424 12288 ∧
      add64 18446744073709543424 12288
        < (upperBlock openEnv [] 7 18446744073709543424 12288).2.addr
          + (upperBlock openEnv [] 7 18446744073709543424 12288).2.size ∧
      CanAddGuardRegions openEnv [] 7 18446744073709543424 12288
        = Outcome.ret true
          [Event.QueryProcessMemory 7 18446744073709543423, Event.QueryProcessMemory 7 4096] ∧
      ¬ (18446744073709543424 + 12288 + openEnv.GuardRegionSize
        ≤ (upperBlock openEnv [] 7 18446744073709543424 12288).2.addr
          + (upperBlock openEnv [] 7 18446744073709543424 12288).2.size)) := by
  refine ⟨⟨rfl, rfl, ?_, ?_, ?_, ?_, rfl, ?_⟩, ⟨rfl, rfl, ?_, ?_, ?_, ?_, rfl, ⟨rfl, ?_, ?_⟩,
    ⟨rfl, ?_, ?_⟩⟩, ⟨rfl, rfl, ?_, ?_, ?_, ?_, rfl, ?_⟩⟩ <;> decide

/-! ## Modern allocator: oversize request -/

/-- C5. Oversize request on the modern allocator: when the address-space query
succeeds and `size > addspace_size`, `MapCodeMemoryForProcessModern` returns
`ResultRoInsufficientAddressSpace`, leaves `out_mcm` as it was, and its only
calls are the six info reads: no kernel map call and no random draw. -/
theorem MapCodeMemoryForProcessModern_oversize (env : Env) (fuel : Nat) (t : List Event)
    (out_mcm : MappedCodeMemory) (h : Handle) (base_address size : Nat)
    (hquery : (GetAddressSpaceInfo env t AddressSpaceInfo.zero h).1 = ResultSuccess)
    (hbig : size > (GetAddressSpaceInfo env t AddressSpaceInfo.zero h).2.1.addspace_size) :
    MapCodeMemoryForProcessModern env fuel t out_mcm h base_address size
      = Outcome.ret (ResultRoInsufficientAddressSpace, out_mcm) (t ++ infoReads h) ∧
    (infoReads h).countP Event.isMap = 0 ∧ (infoReads h).countP Event.isRandom = 0 := by
  refine ⟨?_, rfl, rfl⟩
  have hs := (GetAddressSpaceInfo_success env t _ _ hquery).2
  unfold MapCodeMemoryForProcessModern
  simp only [hquery, ne_eq, not_true_eq_false, if_false, if_pos hbig, hs, infoReads]

/-- C5 at the scenario environment (address space of `0x100000` bytes) with a
request of `0x100001` bytes. -/
theorem MapCodeMemoryForProcessModern_oversize_witness :
    MapCodeMemoryForProcessModern scenarioEnv 0 [] ⟨0, 0, 0, 0, ResultOther 0⟩ 7 65536 1048577
      = Outcome.ret (ResultRoInsufficientAddressSpace, ⟨0, 0, 0, 0, ResultOther 0⟩)
        ([] ++ infoReads 7) ∧
    (infoReads 7).countP Event.isMap = 0 ∧ (infoReads 7).countP Event.isRandom = 0 :=
  MapCodeMemoryForProcessModern_oversize scenarioEnv 0 [] ⟨0, 0, 0, 0, ResultOther 0⟩ 7 65536
    1048577 rfl (by decide)

/-! ## Modern allocator: candidate sampling -/

/-- More fuel does not change a sampling that returned. -/
theorem MapCodeMemoryForProcessModern.sample_mono (env : Env) (as : AddressSpaceInfo)
    (size : Nat) :
    ∀ (n m : Nat) (t : List Event) (a : Nat) (t' : List Event), n ≤ m →
      MapCodeMemoryForProcessModern.sample env as size n t = Outcome.ret a t' →
      MapCodeMemoryForProcessModern.sample env as size m t = Outcome.ret a t' := by
  intro n
  induction n with
  | zero => intro m t a t' _ h; simp [MapCodeMemoryForProcessModern.sample] at h
  | succ n ih =>
    intro m t a t' hnm h
    obtain ⟨m', rfl⟩ : ∃ m', m = m' + 1 := ⟨m - 1, by omega⟩
    rw [MapCodeMemoryForProcessModern.sample] at h ⊢
    split at h
    · rename_i hov
      rw [if_pos hov]
      exact ih _ _ _ _ (by omega) h
    · rename_i hov
      rw [if_neg hov]
      split at h
      · rename_i hov2
        rw [if_pos hov2]
        exact ih _ _ _ _ (by omega) h
      · rename_i hov2
        rw [if_neg hov2]
        exact h

/-- Sampling only draws random numbers, and never aborts. -/
theorem MapCodeMemoryForProcessModern.sample_log (env : Env) (as : AddressSpaceInfo)
    (size : Nat) :
    ∀ (n : Nat) (t : List Event),
      (∃ a new, MapCodeMemoryForProcessModern.sample env as size n t = Outcome.ret a (t ++ new) ∧
        ∀ e ∈ new, e.isRandom = true) ∨
      MapCodeMemoryForProcessModern.sample env as size n t = Outcome.timeout := by
  intro n
  induction n with
  | zero => intro t; right; simp [MapCodeMemoryForProcessModern.sample]
  | succ n ih =>
    intro t
    rw [MapCodeMemoryForProcessModern.sample]
    have hrec : ∀ r,
        (∃ a new, MapCodeMemoryForProcessModern.sample env as size n
            (t ++ [Event.Random (shr64 (sub64 as.addspace_size size) 12) r])
            = Outcome.ret a (t ++ new) ∧ ∀ e ∈ new, e.isRandom = true) ∨
        MapCodeMemoryForProcessModern.sample env as size n
            (t ++ [Event.Random (shr64 (sub64 as.addspace_size size) 12) r])
            = Outcome.timeout := by
      intro r
      rcases ih (t ++ [Event.Random (shr64 (sub64 as.addspace_size size) 12) r]) with
        ⟨a, new, h1, h2⟩ | h1
      · left
        refine ⟨a, Event.Random (shr64 (sub64 as.addspace_size size) 12) r :: new, ?_, ?_⟩
        · rw [h1]; simp
        · intro e he
          rcases List.mem_cons.1 he with rfl | he
          · rfl
          · exact h2 e he
      · right; exact h1
    split
    · exact hrec _
    · split
      · exact hrec _
      · left
        exact ⟨_, [_], rfl, by intro e he; rw [List.mem_singleton.1 he]; rfl⟩

/-! ## Modern allocator: retry exhaustion -/

theorem foldl_step_inert (new : List Event) (h : ∀ e ∈ new, e.inert = true) :
    ∀ acc, new.foldl established.step acc = acc := by
  induction new with
  | nil => intro acc; rfl
  | cons e es ih =>
    intro acc
    have he := h e (List.mem_cons_self _ _)
    have hstep : established.step acc e = acc := by
      cases e <;> simp_all [established.step, Event.inert]
    rw [List.foldl_cons, hstep]
    exact ih (fun e' he' => h e' (List.mem_cons_of_mem _ he')) acc

/-- Events that are not successful map or unmap calls leave the established
mappings unchanged. -/
theorem established_append_inert (t new : List Event) (h : ∀ e ∈ new, e.inert = true) :
    established (t ++ new) = established t := by
  unfold established
  rw [List.foldl_append]
  exact foldl_step_inert new h _

theorem countP_isMap_of_random (new : List Event) (h : ∀ e ∈ new, e.isRandom = true) :
    new.countP Event.isMap = 0 := by
  rw [List.countP_eq_zero]
  intro e he
  have := h e he
  cases e <;> simp_all [Event.isRandom, Event.isMap]

theorem inert_of_random (e : Event) (h : e.isRandom = true) : e.inert = true := by
  cases e <;> simp_all [Event.isRandom, Event.inert]

/-- When every map call is refused with invalid-memory-state and sampling
always ends, the `for` loop runs all its iterations: one map call each, no
mapping established, `out_mcm` untouched. -/
theorem MapCodeMemoryForProcessModern.attempts_exhaust (env : Env) (as : AddressSpaceInfo)
    (h : Handle) (base_address size : Nat) (out_mcm : MappedCodeMemory)
    (hmap : ∀ t' dst, env.svcMapProcessCodeMemory t' h dst base_address size
      = ResultKernelInvalidMemoryState)
    (hsample : ∀ t', ∃ n,
      MapCodeMemoryForProcessModern.sample env as size n t' ≠ Outcome.timeout) :
    ∀ (left : Nat) (t : List Event), ∃ N new,
      (∀ fuel, N ≤ fuel →
        MapCodeMemoryForProcessModern.attempts env as h base_address size fuel left out_mcm t
          = Outcome.ret (ResultRoInsufficientAddressSpace, out_mcm) (t ++ new)) ∧
      new.countP Event.isMap = left ∧ (∀ e ∈ new, e.inert = true) := by
  intro left
  induction left with
  | zero =>
    intro t
    exact ⟨0, [], by intro fuel _; simp [MapCodeMemoryForProcessModern.attempts], rfl,
      by simp⟩
  | succ left ih =>
    intro t
    obtain ⟨n, hn⟩ := hsample t
    rcases MapCodeMemoryForProcessModern.sample_log env as size n t with
      ⟨a, new1, hs1, hr1⟩ | hto
    · obtain ⟨N2, new2, hrun, hcount, hinert⟩ :=
        ih (t ++ new1 ++ [Event.Map h a base_address size ResultKernelInvalidMemoryState])
      refine ⟨max n N2,
        new1 ++ [Event.Map h a base_address size ResultKernelInvalidMemoryState] ++ new2,
        ?_, ?_, ?_⟩
      · intro fuel hfuel
        have hs := MapCodeMemoryForProcessModern.sample_mono env as size n fuel t a _
          (by omega) hs1
        rw [MapCodeMemoryForProcessModern.attempts, hs]
        simp only [MappedCodeMemory.construct, hmap, ne_eq, reduceCtorEq, not_false_eq_true,
          if_true]
        rw [hrun fuel (by omega)]
        simp
      · rw [List.countP_append, List.countP_append, countP_isMap_of_random new1 hr1, hcount]
        simp [Event.isMap]
        omega
      · intro e he
        rcases List.mem_append.1 he with he | he
        · rcases List.mem_append.1 he with he | he
          · exact inert_of_random e (hr1 e he)
          · rw [List.mem_singleton.1 he]; rfl
        · exact hinert e he
    · exact absurd hto hn

/-- C6. Retry exhaustion on the modern allocator: when the address-space query
succeeds, `size <= addspace_size`, candidate sampling always ends and every
kernel map call fails with invalid-memory-state, then (with enough loop fuel)
`MapCodeMemoryForProcessModern` returns `ResultRoInsufficientAddressSpace`
after exactly `LocateRetryCount` map calls, leaves `out_mcm` as it was, and
the mappings established in target processes are those from before the call. -/
theorem MapCodeMemoryForProcessModern_exhaust (env : Env) (t : List Event)
    (out_mcm : MappedCodeMemory) (h : Handle) (base_address size : Nat)
    (hquery : (GetAddressSpaceInfo env t AddressSpaceInfo.zero h).1 = ResultSuccess)
    (hfit : size ≤ (GetAddressSpaceInfo env t AddressSpaceInfo.zero h).2.1.addspace_size)
    (hmap : ∀ t' dst, env.svcMapProcessCodeMemory t' h dst base_address size
      = ResultKernelInvalidMemoryState)
    (hsample : ∀ t', ∃ n,
      MapCodeMemoryForProcessModern.sample env
        (GetAddressSpaceInfo env t AddressSpaceInfo.zero h).2.1 size n t' ≠ Outcome.timeout) :
    ∃ N new,
      (∀ fuel, N ≤ fuel →
        MapCodeMemoryForProcessModern env fuel t out_mcm h base_address size
          = Outcome.ret (ResultRoInsufficientAddressSpace, out_mcm) (t ++ new)) ∧
      new.countP Event.isMap = env.LocateRetryCount ∧
      established (t ++ new) = established t := by
  have hs := (GetAddressSpaceInfo_success env t _ _ hquery).2
  obtain ⟨N, new, hrun, hcount, hinert⟩ :=
    MapCodeMemoryForProcessModern.attempts_exhaust env _ h base_address size out_mcm hmap
      hsample env.LocateRetryCount (t ++ infoReads h)
  refine ⟨N, infoReads h ++ new, ?_, ?_, ?_⟩
  · intro fuel hfuel
    unfold MapCodeMemoryForProcessModern
    simp only [hquery, ne_eq, not_true_eq_false, if_false, if_neg (Nat.not_lt.2 hfit)]
    rw [hs]
    have := hrun fuel hfuel
    simp only [infoReads] at this
    rw [this]
    simp [infoReads]
  · rw [List.countP_append, hcount]
    simp [infoReads, Event.isMap]
  · apply established_append_inert
    intro e he
    rcases List.mem_append.1 he with he | he
    · simp only [infoReads, List.mem_cons, List.mem_singleton, List.not_mem_nil, or_false] at he
      rcases he with rfl | rfl | rfl | rfl | rfl | rfl <;> rfl
    · exact hinert e he

theorem busyEnv_sample (t' : List Event) :
    MapCodeMemoryForProcessModern.sample busyEnv
      (GetAddressSpaceInfo busyEnv [] AddressSpaceInfo.zero 7).2.1 4096 1 t'
        ≠ Outcome.timeout := by
  have has : (GetAddressSpaceInfo busyEnv [] AddressSpaceInfo.zero 7).2.1
      = ⟨4096, 4096, 8192, 0, 0, 0, 0, 1048576, 1048576⟩ := by rfl
  rw [has, MapCodeMemoryForProcessModern.sample]
  simp [overlaps, busyEnv, scenarioEnv, add64, sub64, shl64]

/-- C6 at `busyEnv` (three retries, every map call refused), size `0x1000`. -/
theorem MapCodeMemoryForProcessModern_exhaust_witness :
    ∃ N new,
      (∀ fuel, N ≤ fuel →
        MapCodeMemoryForProcessModern busyEnv fuel [] ⟨0, 0, 0, 0, ResultOther 0⟩ 7 65536 4096
          = Outcome.ret (ResultRoInsufficientAddressSpace, ⟨0, 0, 0, 0, ResultOther 0⟩)
            ([] ++ new)) ∧
      new.countP Event.isMap = busyEnv.LocateRetryCount ∧
      established ([] ++ new) = established [] :=
  MapCodeMemoryForProcessModern_exhaust busyEnv [] ⟨0, 0, 0, 0, ResultOther 0⟩ 7 65536 4096
    rfl (by decide) (fun _ _ => rfl) (fun t' => ⟨1, busyEnv_sample t'⟩)

/-! ## Allocator logs and fatal kernel errors -/

/-- The guard validator only issues guard queries, and either returns or
aborts. -/
theorem CanAddGuardRegions_log (env : Env) (t : List Event) (h : Handle) (address size : Nat) :
    ∃ new, (∀ e ∈ new, e.isQueryProcessMemory = true) ∧
      ((∃ r, CanAddGuardRegions env t h address size = Outcome.ret r (t ++ new)) ∨
        CanAddGuardRegions env t h address size = Outcome.abort (t ++ new)) := by
  unfold CanAddGuardRegions
  simp only
  split
  · exact ⟨[_], by simp [Event.isQueryProcessMemory], Or.inr rfl⟩
  · split
    · split
      · exact ⟨[Event.QueryProcessMemory h (sub64 address 1),
          Event.QueryProcessMemory h (add64 address size)],
          by simp [Event.isQueryProcessMemory], Or.inr (by simp)⟩
      · exact ⟨[Event.QueryProcessMemory h (sub64 address 1),
          Event.QueryProcessMemory h (add64 address size)],
          by simp [Event.isQueryProcessMemory],
          Or.inl ⟨_, by rw [List.append_assoc]; rfl⟩⟩
    · exact ⟨[_], by simp [Event.isQueryProcessMemory], Or.inl ⟨_, rfl⟩⟩

/-- Dropping a `MappedCodeMemory` issues at most one unmap call, and either
returns or aborts. -/
theorem MappedCodeMemory.drop_log (env : Env) (t : List Event) (m : MappedCodeMemory) :
    ∃ new, (∀ e ∈ new, e.isFatalMap = false) ∧
      (MappedCodeMemory.drop env t m = Outcome.ret () (t ++ new) ∨
        MappedCodeMemory.drop env t m = Outcome.abort (t ++ new)) := by
  unfold MappedCodeMemory.drop
  simp only
  split
  · split
    · exact ⟨[_], by simp [Event.isFatalMap], Or.inl rfl⟩
    · exact ⟨[_], by simp [Event.isFatalMap], Or.inr rfl⟩
  · exact ⟨[], by simp, Or.inl (by simp)⟩

theorem FatalLast_prepend {p new : List Event} {o : Outcome (Result × MappedCodeMemory)}
    {out_mcm : MappedCodeMemory} {t' : List Event} (hp : ∀ e ∈ p, e.isFatalMap = false)
    (hF : FatalLast new o out_mcm t') : FatalLast (p ++ new) o out_mcm t' := by
  rcases hF with hq | ⟨pre, h, dst, src, sz, rc, hnew, hpre, h1, h2, h3⟩
  · left
    intro e he
    rcases List.mem_append.1 he with he | he
    · exact hp e he
    · exact hq e he
  · right
    refine ⟨p ++ pre, h, dst, src, sz, rc, by rw [hnew, List.append_assoc], ?_, h1, h2, h3⟩
    intro e he
    rcases List.mem_append.1 he with he | he
    · exact hp e he
    · exact hpre e he

theorem not_fatal_of_random {e : Event} (h : e.isRandom = true) : e.isFatalMap = false := by
  cases e <;> simp_all [Event.isRandom, Event.isFatalMap]

theorem not_fatal_of_query {e : Event} (h : e.isQueryProcessMemory = true) :
    e.isFatalMap = false := by
  cases e <;> simp_all [Event.isQueryProcessMemory, Event.isFatalMap]

/-- One iteration's events before the loop continues, none of them a fatal map
call: the draws, a map call that succeeded or was refused with
invalid-memory-state, the guard queries, the unmap call. -/
theorem quiet_iteration (r q u : List Event) (h : Handle) (dst src sz : Nat) (rc : Result)
    (hr : ∀ e ∈ r, e.isRandom = true)
    (hrc : rc = ResultSuccess ∨ rc = ResultKernelInvalidMemoryState)
    (hq : ∀ e ∈ q, e.isQueryProcessMemory = true) (hu : ∀ e ∈ u, e.isFatalMap = false) :
    ∀ e ∈ r ++ [Event.Map h dst src sz rc] ++ q ++ u, e.isFatalMap = false := by
  intro e he
  simp only [List.mem_append, List.mem_singleton] at he
  rcases he with ((he | he) | he) | he
  · exact not_fatal_of_random (hr e he)
  · subst he
    rcases hrc with rfl | rfl <;> simp [Event.isFatalMap]
  · exact not_fatal_of_query (hq e he)
  · exact hu e he

/-- The log of the `for` loop of `MapCodeMemoryForProcessModern` extends the
log it started from, and a fatal map call can only end it. -/
theorem MapCodeMemoryForProcessModern.attempts_fatal (env : Env) (as : AddressSpaceInfo)
    (h : Handle) (base_address size fuel : Nat) (out_mcm : MappedCodeMemory) :
    ∀ (left : Nat) (t : List Event) (o : Outcome (Result × MappedCodeMemory)),
      MapCodeMemoryForProcessModern.attempts env as h base_address size fuel left out_mcm t = o →
      ∀ t', o.log = some t' → ∃ new, t' = t ++ new ∧ FatalLast new o out_mcm t' := by
  intro left
  induction left with
  | zero =>
    intro t o ho t' hlog
    rw [MapCodeMemoryForProcessModern.attempts] at ho
    subst ho
    simp only [Outcome.log, Option.some.injEq] at hlog
    exact ⟨[], by simp [hlog], Or.inl (by simp)⟩
  | succ left ih =>
    intro t o ho t' hlog
    rw [MapCodeMemoryForProcessModern.attempts] at ho
    rcases MapCodeMemoryForProcessModern.sample_log env as size fuel t with
      ⟨a, new1, hs, hr⟩ | hto
    · rw [hs] at ho
      simp only [MappedCodeMemory.construct] at ho
      by_cases hrc : env.svcMapProcessCodeMemory (t ++ new1) h a base_address size
          = ResultSuccess
      · rw [if_neg (by simp [hrc])] at ho
        obtain ⟨new3, hq3, hcase⟩ := CanAddGuardRegions_log env
          (t ++ new1 ++ [Event.Map h a base_address size
            (env.svcMapProcessCodeMemory (t ++ new1) h a base_address size)]) h a size
        rcases hcase with ⟨r, hr3⟩ | hab
        · rw [hr3] at ho
          cases r
          · simp only at ho
            obtain ⟨new4, hq4, hd⟩ := MappedCodeMemory.drop_log env
              (t ++ new1 ++ [Event.Map h a base_address size
                (env.svcMapProcessCodeMemory (t ++ new1) h a base_address size)] ++ new3)
              ⟨h, a, base_address, size,
                env.svcMapProcessCodeMemory (t ++ new1) h a base_address size⟩
            have hquiet := quiet_iteration _ _ _ h a base_address
              size _ hr (Or.inl hrc) hq3 hq4
            rcases hd with hd | hd
            · rw [hd] at ho
              simp only at ho
              obtain ⟨new5, h5, hF⟩ := ih _ o ho t' hlog
              refine ⟨new1 ++ [Event.Map h a base_address size
                (env.svcMapProcessCodeMemory (t ++ new1) h a base_address size)]
                ++ new3 ++ new4 ++ new5, by rw [h5]; simp, FatalLast_prepend hquiet hF⟩
            · rw [hd] at ho
              simp only at ho
              subst ho
              simp only [Outcome.log, Option.some.injEq] at hlog
              exact ⟨_, by rw [← hlog]; simp, Or.inl hquiet⟩
          · simp only at ho
            subst ho
            simp only [Outcome.log, Option.some.injEq] at hlog
            have hquiet := quiet_iteration _ _ [] h a base_address
              size _ hr (Or.inl hrc) hq3 (by simp)
            exact ⟨_, by rw [← hlog]; simp, Or.inl hquiet⟩
        · rw [hab] at ho
          simp only at ho
          subst ho
          simp only [Outcome.log, Option.some.injEq] at hlog
          have hquiet := quiet_iteration _ _ [] h a base_address
            size _ hr (Or.inl hrc) hq3 (by simp)
          exact ⟨_, by rw [← hlog]; simp, Or.inl hquiet⟩
      · rw [if_pos (by simp [hrc])] at ho
        by_cases hims : env.svcMapProcessCodeMemory (t ++ new1) h a base_address size
            = ResultKernelInvalidMemoryState
        · rw [if_pos hims] at ho
          obtain ⟨new5, h5, hF⟩ := ih _ o ho t' hlog
          have hquiet := quiet_iteration _ [] [] h a base_address
            size _ hr (Or.inr hims) (by simp) (by simp)
          refine ⟨new1 ++ [Event.Map h a base_address size
            (env.svcMapProcessCodeMemory (t ++ new1) h a base_address size)] ++ [] ++ []
            ++ new5, by rw [h5]; simp, FatalLast_prepend hquiet hF⟩
        · rw [if_neg hims] at ho
          subst ho
          simp only [Outcome.log, Option.some.injEq] at hlog
          refine ⟨new1 ++ [Event.Map h a base_address size
            (env.svcMapProcessCodeMemory (t ++ new1) h a base_address size)],
            by rw [← hlog]; simp, Or.inr ⟨new1, h, a, base_address, size, _, rfl, ?_, hrc, hims,
              by rw [← hlog]⟩⟩
          intro e he
          exact not_fatal_of_random (hr e he)
    · rw [hto] at ho
      simp only at ho
      subst ho
      simp [Outcome.log] at hlog

/-- `GetAddressSpaceInfo` only logs info reads. -/
theorem GetAddressSpaceInfo_log (env : Env) (t : List Event) (out : AddressSpaceInfo)
    (h : Handle) :
    ∃ new, (GetAddressSpaceInfo env t out h).2.2 = t ++ new ∧
      ∀ e ∈ new, e.isFatalMap = false := by
  unfold GetAddressSpaceInfo
  simp only
  split_ifs <;> simp only [List.append_assoc] <;>
    exact ⟨_, rfl, by simp [Event.isFatalMap]⟩

/-- A fatal map call in a log with the `FatalLast` property is its last event,
and the call returned its error. -/
theorem FatalLast.is_last {new pre post : List Event} {x : Event}
    {o : Outcome (Result × MappedCodeMemory)} {out_mcm : MappedCodeMemory} {t' : List Event}
    (hF : FatalLast new o out_mcm t') (hnew : new = pre ++ x :: post)
    (hx : x.isFatalMap = true) :
    post = [] ∧ ∃ h dst src sz rc, x = Event.Map h dst src sz rc ∧
      o = Outcome.ret (rc, out_mcm) t' := by
  rcases hF with hq | ⟨pre', h, dst, src, sz, rc, hnew', hpre, _, _, ho⟩
  · have := hq x (by rw [hnew]; simp)
    rw [hx] at this
    exact absurd this (by simp)
  · rw [hnew] at hnew'
    rcases List.append_eq_append_iff.1 hnew' with ⟨a', h1, h2⟩ | ⟨c', h1, h2⟩
    · cases a' with
      | nil =>
        simp only [List.nil_append, List.cons.injEq] at h2
        exact ⟨h2.2, h, dst, src, sz, rc, h2.1, ho⟩
      | cons z zs =>
        simp only [List.cons_append, List.cons.injEq] at h2
        have := hpre x (by rw [h1, h2.1]; simp)
        rw [hx] at this
        exact absurd this (by simp)
    · cases c' with
      | nil =>
        simp only [List.nil_append, List.cons.injEq] at h2
        exact ⟨h2.2.symm, h, dst, src, sz, rc, h2.1.symm, ho⟩
      | cons z zs =>
        simp only [List.cons_append, List.cons.injEq] at h2
        have := h2.2
        simp at this

/-- The log of `MapCodeMemoryForProcessModern` extends the log it started from,
and a fatal map call can only end it. -/
theorem MapCodeMemoryForProcessModern_log (env : Env) (fuel : Nat) (t : List Event)
    (out_mcm : MappedCodeMemory) (h : Handle) (base_address size : Nat) (t' : List Event)
    (hlog : (MapCodeMemoryForProcessModern env fuel t out_mcm h base_address size).log
      = some t') :
    ∃ new, t' = t ++ new ∧
      FatalLast new (MapCodeMemoryForProcessModern env fuel t out_mcm h base_address size)
        out_mcm t' := by
  obtain ⟨new0, h0, hq0⟩ := GetAddressSpaceInfo_log env t AddressSpaceInfo.zero h
  unfold MapCodeMemoryForProcessModern at hlog ⊢
  simp only at hlog ⊢
  split at hlog
  · rename_i hc
    rw [if_pos hc]
    simp only [Outcome.log, Option.some.injEq] at hlog
    exact ⟨new0, by rw [← hlog, h0], Or.inl hq0⟩
  · rename_i hc
    rw [if_neg hc]
    split at hlog
    · rename_i hc2
      rw [if_pos hc2]
      simp only [Outcome.log, Option.some.injEq] at hlog
      exact ⟨new0, by rw [← hlog, h0], Or.inl hq0⟩
    · rename_i hc2
      rw [if_neg hc2]
      obtain ⟨new1, h1, hF⟩ := MapCodeMemoryForProcessModern.attempts_fatal env _ h base_address
        size fuel out_mcm _ _ _ rfl t' hlog
      exact ⟨new0 ++ new1, by rw [h1, h0, List.append_assoc], FatalLast_prepend hq0 hF⟩

/-- C7. Fatal error propagation on the modern allocator: if the calls made by
`MapCodeMemoryForProcessModern` include a kernel map call that failed with an
error `e` other than invalid-memory-state, that call is the last one (no
further map call, no guard query), and the allocator returned exactly `e`
with `out_mcm` as it was. -/
theorem MapCodeMemoryForProcessModern_fatal (env : Env) (fuel : Nat) (t : List Event)
    (out_mcm : MappedCodeMemory) (h : Handle) (base_address size : Nat)
    (t' pre post : List Event) (h' : Handle) (dst src sz : Nat) (e : Result)
    (hlog : (MapCodeMemoryForProcessModern env fuel t out_mcm h base_address size).log
      = some t')
    (hcall : t' = t ++ (pre ++ Event.Map h' dst src sz e :: post))
    (hfail : e ≠ ResultSuccess) (hfatal : e ≠ ResultKernelInvalidMemoryState) :
    post = [] ∧
    MapCodeMemoryForProcessModern env fuel t out_mcm h base_address size
      = Outcome.ret (e, out_mcm) t' := by
  obtain ⟨new, hnew, hF⟩ := MapCodeMemoryForProcessModern_log env fuel t out_mcm h
    base_address size t' hlog
  rw [hcall] at hnew
  have hnew' := (List.append_cancel_left hnew).symm
  obtain ⟨hpost, _, _, _, _, rc, hx, ho⟩ :=
    hF.is_last hnew' (by simp [Event.isFatalMap, hfail, hfatal])
  simp only [Event.Map.injEq] at hx
  rw [← hx.2.2.2.2] at ho
  exact ⟨hpost, ho⟩

/-- C7 at `fatalEnv`, whose kernel fails the first map call with the error
`ResultOther 5`. -/
theorem MapCodeMemoryForProcessModern_fatal_witness :
    ([] : List Event) = [] ∧
    MapCodeMemoryForProcessModern fatalEnv 1 [] ⟨0, 0, 0, 0, ResultOther 0⟩ 7 65536 4096
      = Outcome.ret (ResultOther 5, ⟨0, 0, 0, 0, ResultOther 0⟩)
        (infoReads 7 ++ [Event.Random 255 0, Event.Map 7 0 65536 4096 (ResultOther 5)]) :=
  MapCodeMemoryForProcessModern_fatal fatalEnv 1 [] ⟨0, 0, 0, 0, ResultOther 0⟩ 7 65536 4096
    (infoReads 7 ++ [Event.Random 255 0, Event.Map 7 0 65536 4096 (ResultOther 5)])
    (infoReads 7 ++ [Event.Random 255 0]) [] 7 0 65536 4096 (ResultOther 5)
    rfl rfl (by decide) (by decide)

/-! ## Deprecated allocator -/

/-- The log of the `for` loop of `MapCodeMemoryForProcessDeprecated` extends the
log it started from, and a fatal map call can only end it. -/
theorem MapCodeMemoryForProcessDeprecated.attempts_fatal_legacy (env : Env)
    (addspace_base addspace_size : Nat) (h : Handle) (base_address size : Nat)
    (out_mcm : MappedCodeMemory) :
    ∀ (left : Nat) (t : List Event) (o : Outcome (Result × MappedCodeMemory)),
      MapCodeMemoryForProcessDeprecated.attempts env addspace_base addspace_size h base_address
        size left out_mcm t = o →
      ∀ t', o.log = some t' → ∃ new, t' = t ++ new ∧ FatalLast new o out_mcm t' := by
  intro left
  induction left with
  | zero =>
    intro t o ho t' hlog
    rw [MapCodeMemoryForProcessDeprecated.attempts] at ho
    subst ho
    simp only [Outcome.log, Option.some.injEq] at hlog
    exact ⟨[], by simp [hlog], Or.inl (by simp)⟩
  | succ left ih =>
    intro t o ho t' hlog
    rw [MapCodeMemoryForProcessDeprecated.attempts] at ho
    simp only [MappedCodeMemory.construct] at ho
    generalize hmax : shr64 (sub64 addspace_size size) 12 = mx at ho
    generalize hrnd : env.GetRandomU64 t mx = r at ho
    generalize ha : add64 addspace_base (shl64 r 12) = a at ho
    have hr : ∀ e ∈ [Event.Random mx r], e.isRandom = true := by simp [Event.isRandom]
    by_cases hrc : env.svcMapProcessCodeMemory (t ++ [Event.Random mx r]) h a base_address size
        = ResultSuccess
    · rw [if_neg (by simp [hrc])] at ho
      obtain ⟨new3, hq3, hcase⟩ := CanAddGuardRegions_log env
        (t ++ [Event.Random mx r] ++ [Event.Map h a base_address size
          (env.svcMapProcessCodeMemory (t ++ [Event.Random mx r]) h a base_address size)])
        h a size
      rcases hcase with ⟨b, hr3⟩ | hab
      · rw [hr3] at ho
        cases b
        · simp only at ho
          obtain ⟨new4, hq4, hd⟩ := MappedCodeMemory.drop_log env
            (t ++ [Event.Random mx r] ++ [Event.Map h a base_address size
              (env.svcMapProcessCodeMemory (t ++ [Event.Random mx r]) h a base_address size)]
              ++ new3)
            ⟨h, a, base_address, size,
              env.svcMapProcessCodeMemory (t ++ [Event.Random mx r]) h a base_address size⟩
          have hquiet := quiet_iteration _ _ _ h a base_address
            size _ hr (Or.inl hrc) hq3 hq4
          rcases hd with hd | hd
          · rw [hd] at ho
            simp only at ho
            obtain ⟨new5, h5, hF⟩ := ih _ o ho t' hlog
            exact ⟨_, by rw [h5]; simp, FatalLast_prepend hquiet hF⟩
          · rw [hd] at ho
            simp only at ho
            subst ho
            simp only [Outcome.log, Option.some.injEq] at hlog
            exact ⟨_, by rw [← hlog]; simp, Or.inl hquiet⟩
        · simp only at ho
          subst ho
          simp only [Outcome.log, Option.some.injEq] at hlog
          have hquiet := quiet_iteration _ _ [] h a base_address
            size _ hr (Or.inl hrc) hq3 (by simp)
          exact ⟨_, by rw [← hlog]; simp, Or.inl hquiet⟩
      · rw [hab] at ho
        simp only at ho
        subst ho
        simp only [Outcome.log, Option.some.injEq] at hlog
        have hquiet := quiet_iteration _ _ [] h a base_address
          size _ hr (Or.inl hrc) hq3 (by simp)
        exact ⟨_, by rw [← hlog]; simp, Or.inl hquiet⟩
    · rw [if_pos (by simp [hrc])] at ho
      by_cases hims : env.svcMapProcessCodeMemory (t ++ [Event.Random mx r]) h a base_address
          size = ResultKernelInvalidMemoryState
      · rw [if_pos hims] at ho
        obtain ⟨new5, h5, hF⟩ := ih _ o ho t' hlog
        have hquiet := quiet_iteration _ [] [] h a base_address
          size _ hr (Or.inr hims) (by simp) (by simp)
        exact ⟨_, by rw [h5]; simp, FatalLast_prepend hquiet hF⟩
      · rw [if_neg hims] at ho
        subst ho
        simp only [Outcome.log, Option.some.injEq] at hlog
        refine ⟨[Event.Random mx r] ++ [Event.Map h a base_address size
          (env.svcMapProcessCodeMemory (t ++ [Event.Random mx r]) h a base_address size)],
          by rw [← hlog]; simp, Or.inr ⟨[Event.Random mx r], h, a, base_address, size, _, rfl,
            ?_, hrc, hims, by rw [← hlog]⟩⟩
        intro e he
        exact not_fatal_of_random (hr e he)

/-- The log of `MapCodeMemoryForProcessDeprecated` extends the log it started
from, and a fatal map call can only end it. -/
theorem MapCodeMemoryForProcessDeprecated_log (env : Env) (t : List Event)
    (out_mcm : MappedCodeMemory) (h : Handle) (is_64_bit : Bool) (base_address size : Nat)
    (t' : List Event)
    (hlog : (MapCodeMemoryForProcessDeprecated env t out_mcm h is_64_bit base_address size).log
      = some t') :
    ∃ new, t' = t ++ new ∧
      FatalLast new (MapCodeMemoryForProcessDeprecated env t out_mcm h is_64_bit base_address
        size) out_mcm t' := by
  unfold MapCodeMemoryForProcessDeprecated at hlog ⊢
  cases is_64_bit <;> simp only [Bool.false_eq_true, if_false, if_true] at hlog ⊢ <;>
    split at hlog
  all_goals first
    | (rename_i hc
       rw [if_pos hc]
       simp only [Outcome.log, Option.some.injEq] at hlog
       exact ⟨[], by rw [← hlog]; simp, Or.inl (by simp)⟩)
    | (rename_i hc
       rw [if_neg hc]
       exact MapCodeMemoryForProcessDeprecated.attempts_fatal_legacy env _ _ h base_address
         size out_mcm _ _ _ rfl t' hlog)

/-- A failing `for` loop of `MapCodeMemoryForProcessDeprecated` leaves `out_mcm`
as it was. -/
theorem MapCodeMemoryForProcessDeprecated.attempts_out (env : Env)
    (addspace_base addspace_size : Nat) (h : Handle) (base_address size : Nat)
    (out_mcm : MappedCodeMemory) :
    ∀ (left : Nat) (t : List Event) (rc : Result) (m : MappedCodeMemory) (t' : List Event),
      MapCodeMemoryForProcessDeprecated.attempts env addspace_base addspace_size h base_address
        size left out_mcm t = Outcome.ret (rc, m) t' →
      rc ≠ ResultSuccess → m = out_mcm := by
  intro left
  induction left with
  | zero =>
    intro t rc m t' ho _
    rw [MapCodeMemoryForProcessDeprecated.attempts] at ho
    simp only [Outcome.ret.injEq, Prod.mk.injEq] at ho
    exact ho.1.2.symm
  | succ left ih =>
    intro t rc m t' ho hrc
    rw [MapCodeMemoryForProcessDeprecated.attempts] at ho
    simp only [MappedCodeMemory.construct] at ho
    split at ho
    · split at ho
      · exact ih _ _ _ _ ho hrc
      · simp only [Outcome.ret.injEq, Prod.mk.injEq] at ho
        exact ho.1.2.symm
    · split at ho
      · simp at ho
      · simp at ho
      · split at ho
        · simp at ho
        · simp at ho
        · exact ih _ _ _ _ ho hrc
      · simp only [Outcome.ret.injEq, Prod.mk.injEq] at ho
        exact absurd ho.1.1.symm hrc

/-- A failing `MapCodeMemoryForProcessDeprecated` leaves `out_mcm` as it was. -/
theorem MapCodeMemoryForProcessDeprecated_out (env : Env) (t : List Event)
    (out_mcm : MappedCodeMemory) (h : Handle) (is_64_bit : Bool) (base_address size : Nat)
    (rc : Result) (m : MappedCodeMemory) (t' : List Event)
    (ho : MapCodeMemoryForProcessDeprecated env t out_mcm h is_64_bit base_address size
      = Outcome.ret (rc, m) t')
    (hrc : rc ≠ ResultSuccess) : m = out_mcm := by
  unfold MapCodeMemoryForProcessDeprecated at ho
  cases is_64_bit <;> simp only [Bool.false_eq_true, if_false, if_true] at ho <;> split at ho
  all_goals first
    | (simp only [Outcome.ret.injEq, Prod.mk.injEq] at ho
       exact ho.1.2.symm)
    | exact MapCodeMemoryForProcessDeprecated.attempts_out env _ _ h base_address size out_mcm
        _ _ _ _ _ ho hrc

/-- When every map call is refused with invalid-memory-state, the `for` loop of
`MapCodeMemoryForProcessDeprecated` runs all its iterations, one map call
each, and fails with `ResultRoInsufficientAddressSpace`. -/
theorem MapCodeMemoryForProcessDeprecated.attempts_exhaust_legacy (env : Env)
    (addspace_base addspace_size : Nat) (h : Handle) (base_address size : Nat)
    (out_mcm : MappedCodeMemory)
    (hmap : ∀ t' dst, env.svcMapProcessCodeMemory t' h dst base_address size
      = ResultKernelInvalidMemoryState) :
    ∀ (left : Nat) (t : List Event), ∃ new,
      MapCodeMemoryForProcessDeprecated.attempts env addspace_base addspace_size h base_address
        size left out_mcm t
        = Outcome.ret (ResultRoInsufficientAddressSpace, out_mcm) (t ++ new) ∧
      new.countP Event.isMap = left := by
  intro left
  induction left with
  | zero =>
    intro t
    exact ⟨[], by simp [MapCodeMemoryForProcessDeprecated.attempts], rfl⟩
  | succ left ih =>
    intro t
    rw [MapCodeMemoryForProcessDeprecated.attempts]
    simp only [MappedCodeMemory.construct, hmap, ne_eq, reduceCtorEq, not_false_eq_true,
      if_true]
    obtain ⟨new, hrun, hcount⟩ := ih (t ++
      [Event.Random (shr64 (sub64 addspace_size size) 12)
        (env.GetRandomU64 t (shr64 (sub64 addspace_size size) 12))] ++
      [Event.Map h (add64 addspace_base (shl64
        (env.GetRandomU64 t (shr64 (sub64 addspace_size size) 12)) 12)) base_address size
        ResultKernelInvalidMemoryState])
    refine ⟨[Event.Random (shr64 (sub64 addspace_size size) 12)
        (env.GetRandomU64 t (shr64 (sub64 addspace_size size) 12))] ++
      [Event.Map h (add64 addspace_base (shl64
        (env.GetRandomU64 t (shr64 (sub64 addspace_size size) 12)) 12)) base_address size
        ResultKernelInvalidMemoryState] ++ new, ?_, ?_⟩
    · rw [hrun]; simp
    · rw [List.countP_append, hcount]
      simp [Event.isMap, Event.isRandom]
      omega

/-- On pre-2.0.0 firmware, after a failed 64-bit-layout attempt
`MapCodeMemoryForProcess` is the 32-bit-layout attempt. -/
theorem MapCodeMemoryForProcess_legacy_retry (env : Env) (fuel : Nat) (t : List Event)
    (out_mcm : MappedCodeMemory) (h : Handle) (base_address size : Nat)
    (hfw : env.firmwareAtLeast200 = false) (rc : Result) (m : MappedCodeMemory)
    (t1 : List Event)
    (h64 : MapCodeMemoryForProcessDeprecated env t out_mcm h true base_address size
      = Outcome.ret (rc, m) t1)
    (hrc : rc ≠ ResultSuccess) :
    MapCodeMemoryForProcess env fuel t out_mcm h base_address size
      = MapCodeMemoryForProcessDeprecated env t1 m h false base_address size := by
  unfold MapCodeMemoryForProcess
  simp only [hfw, Bool.false_eq_true, if_false, h64, R_FAILED, ne_eq, hrc, not_false_eq_true,
    decide_True, if_true]
  split
  · rename_i heq; rw [heq]
  · rename_i heq; rw [heq]
  · rename_i rc2 m2 t2 heq
    rw [heq]
    by_cases h2 : rc2 = ResultSuccess
    · simp [h2]
    · simp [h2]

/-! ## Legacy firmware: the two layouts -/

/-- C8 as stated fails. On pre-2.0.0 firmware with a kernel that fails every map
call fatally, the map call of the 64-bit-layout attempt (at `0x8000000`) fails
with `ResultOther 1`; `MapCodeMemoryForProcess` does not return that error but
goes on to the 32-bit layout, makes a second map call (at `0x200000`), and
returns that call's error `ResultOther 3`. -/
theorem MapCodeMemoryForProcess_legacy_fatal_counterexample :
    legacyFatalEnv.firmwareAtLeast200 = false ∧
    MapCodeMemoryForProcess legacyFatalEnv 0 [] ⟨0, 0, 0, 0, ResultOther 0⟩ 7 65536 4096
      = Outcome.ret (ResultOther 3, ⟨0, 0, 0, 0, ResultOther 0⟩)
        [Event.Random 491519 0, Event.Map 7 134217728 65536 4096 (ResultOther 1),
          Event.Random 16351 0, Event.Map 7 2097152 65536 4096 (ResultOther 3)] ∧
    ResultOther 1 ≠ ResultSuccess ∧ ResultOther 1 ≠ ResultKernelInvalidMemoryState := by
  refine ⟨rfl, rfl, by decide, by decide⟩

/-- C8 (amended). On pre-2.0.0 firmware, a kernel map call of the
64-bit-layout attempt that fails with an error `e` other than
invalid-memory-state is the last call of that attempt, which returns `e` with
`out_mcm` as it was; `MapCodeMemoryForProcess` then runs the 32-bit-layout
attempt from there, and its outcome is the outcome of that attempt. -/
theorem MapCodeMemoryForProcess_legacy_fatal (env : Env) (fuel : Nat) (t : List Event)
    (out_mcm : MappedCodeMemory) (h : Handle) (base_address size : Nat)
    (t1 pre post : List Event) (h' : Handle) (dst src sz : Nat) (e : Result)
    (hfw : env.firmwareAtLeast200 = false)
    (hlog : (MapCodeMemoryForProcessDeprecated env t out_mcm h true base_address size).log
      = some t1)
    (hcall : t1 = t ++ (pre ++ Event.Map h' dst src sz e :: post))
    (hfail : e ≠ ResultSuccess) (hfatal : e ≠ ResultKernelInvalidMemoryState) :
    post = [] ∧
    MapCodeMemoryForProcessDeprecated env t out_mcm h true base_address size
      = Outcome.ret (e, out_mcm) t1 ∧
    MapCodeMemoryForProcess env fuel t out_mcm h base_address size
      = MapCodeMemoryForProcessDeprecated env t1 out_mcm h false base_address size := by
  obtain ⟨new, hnew, hF⟩ := MapCodeMemoryForProcessDeprecated_log env t out_mcm h true
    base_address size t1 hlog
  rw [hcall] at hnew
  have hnew' := (List.append_cancel_left hnew).symm
  obtain ⟨hpost, _, _, _, _, rc, hx, ho⟩ :=
    hF.is_last hnew' (by simp [Event.isFatalMap, hfail, hfatal])
  simp only [Event.Map.injEq] at hx
  rw [← hx.2.2.2.2] at ho
  exact ⟨hpost, ho, MapCodeMemoryForProcess_legacy_retry env fuel t out_mcm h base_address size
    hfw e out_mcm t1 ho hfail⟩

/-- C8 (amended) at `legacyFatalEnv`. -/
theorem MapCodeMemoryForProcess_legacy_fatal_witness :
    ([] : List Event) = [] ∧
    MapCodeMemoryForProcessDeprecated legacyFatalEnv [] ⟨0, 0, 0, 0, ResultOther 0⟩ 7 true
        65536 4096
      = Outcome.ret (ResultOther 1, ⟨0, 0, 0, 0, ResultOther 0⟩)
        [Event.Random 491519 0, Event.Map 7 134217728 65536 4096 (ResultOther 1)] ∧
    MapCodeMemoryForProcess legacyFatalEnv 0 [] ⟨0, 0, 0, 0, ResultOther 0⟩ 7 65536 4096
      = MapCodeMemoryForProcessDeprecated legacyFatalEnv
        [Event.Random 491519 0, Event.Map 7 134217728 65536 4096 (ResultOther 1)]
        ⟨0, 0, 0, 0, ResultOther 0⟩ 7 false 65536 4096 :=
  MapCodeMemoryForProcess_legacy_fatal legacyFatalEnv 0 [] ⟨0, 0, 0, 0, ResultOther 0⟩ 7 65536
    4096 [Event.Random 491519 0, Event.Map 7 134217728 65536 4096 (ResultOther 1)]
    [Event.Random 491519 0] [] 7 134217728 65536 4096 (ResultOther 1)
    rfl rfl rfl (by decide) (by decide)

/-- C9. Legacy two-layout fallback. On pre-2.0.0 firmware:
the first attempt is the retry loop over the 64-bit layout (base `0x8000000`,
size `0x78000000`) and the second the retry loop over the 32-bit layout (base
`0x200000`, size `0x3FE0000`); if the first attempt succeeds,
`MapCodeMemoryForProcess` returns success with its mapping and its log, so the
32-bit layout is never tried; if it fails for any reason, `out_mcm` is as
before and the outcome is that of one run of the second attempt; an abort of
the first attempt is final; and when every map call is refused with
invalid-memory-state, both attempts end in `ResultRoInsufficientAddressSpace`
and so does `MapCodeMemoryForProcess`. -/
theorem MapCodeMemoryForProcess_legacy_fallback (env : Env) (fuel : Nat) (t : List Event)
    (out_mcm : MappedCodeMemory) (h : Handle) (base_address size : Nat)
    (hfw : env.firmwareAtLeast200 = false) :
    (MapCodeMemoryForProcessDeprecated env t out_mcm h true base_address size
      = if size > 2013265920 then Outcome.ret (ResultRoInsufficientAddressSpace, out_mcm) t
        else MapCodeMemoryForProcessDeprecated.attempts env 134217728 2013265920 h
          base_address size env.LocateRetryCount out_mcm t) ∧
    (∀ t1, MapCodeMemoryForProcessDeprecated env t1 out_mcm h false base_address size
      = if size > 66977792 then Outcome.ret (ResultRoInsufficientAddressSpace, out_mcm) t1
        else MapCodeMemoryForProcessDeprecated.attempts env 2097152 66977792 h
          base_address size env.LocateRetryCount out_mcm t1) ∧
    (∀ m t1, MapCodeMemoryForProcessDeprecated env t out_mcm h true base_address size
        = Outcome.ret (ResultSuccess, m) t1 →
      MapCodeMemoryForProcess env fuel t out_mcm h base_address size
        = Outcome.ret (ResultSuccess, m) t1) ∧
    (∀ rc m t1, MapCodeMemoryForProcessDeprecated env t out_mcm h true base_address size
        = Outcome.ret (rc, m) t1 → rc ≠ ResultSuccess →
      m = out_mcm ∧
      MapCodeMemoryForProcess env fuel t out_mcm h base_address size
        = MapCodeMemoryForProcessDeprecated env t1 out_mcm h false base_address size) ∧
    (∀ t1, MapCodeMemoryForProcessDeprecated env t out_mcm h true base_address size
        = Outcome.abort t1 →
      MapCodeMemoryForProcess env fuel t out_mcm h base_address size = Outcome.abort t1) ∧
    ((∀ t' dst, env.svcMapProcessCodeMemory t' h dst base_address size
        = ResultKernelInvalidMemoryState) →
      ∃ new1 new2,
        MapCodeMemoryForProcessDeprecated env t out_mcm h true base_address size
          = Outcome.ret (ResultRoInsufficientAddressSpace, out_mcm) (t ++ new1) ∧
        MapCodeMemoryForProcessDeprecated env (t ++ new1) out_mcm h false base_address size
          = Outcome.ret (ResultRoInsufficientAddressSpace, out_mcm) (t ++ new1 ++ new2) ∧
        MapCodeMemoryForProcess env fuel t out_mcm h base_address size
          = Outcome.ret (ResultRoInsufficientAddressSpace, out_mcm) (t ++ new1 ++ new2)) := by
  have hex : ∀ (is64 : Bool) (t0 : List Event),
      (∀ t' dst, env.svcMapProcessCodeMemory t' h dst base_address size
        = ResultKernelInvalidMemoryState) →
      ∃ new, MapCodeMemoryForProcessDeprecated env t0 out_mcm h is64 base_address size
        = Outcome.ret (ResultRoInsufficientAddressSpace, out_mcm) (t0 ++ new) := by
    intro is64 t0 hmap
    unfold MapCodeMemoryForProcessDeprecated
    by_cases hbig : size > (if is64 = true then 2013265920 else 66977792)
    · exact ⟨[], by simp only [if_pos hbig, List.append_nil]⟩
    · obtain ⟨new, hrun, _⟩ := MapCodeMemoryForProcessDeprecated.attempts_exhaust_legacy env
        (if is64 = true then 134217728 else 2097152)
        (if is64 = true then 2013265920 else 66977792) h base_address size out_mcm hmap
        env.LocateRetryCount t0
      exact ⟨new, by simp only [if_neg hbig]; exact hrun⟩
  refine ⟨by simp [MapCodeMemoryForProcessDeprecated],
    fun t1 => by simp [MapCodeMemoryForProcessDeprecated], ?_, ?_, ?_, ?_⟩
  · intro m t1 h64
    unfold MapCodeMemoryForProcess
    simp [hfw, h64, R_FAILED]
  · intro rc m t1 h64 hrc
    have hm := MapCodeMemoryForProcessDeprecated_out env t out_mcm h true base_address size
      rc m t1 h64 hrc
    subst hm
    exact ⟨rfl, MapCodeMemoryForProcess_legacy_retry env fuel t m h base_address size hfw
      rc m t1 h64 hrc⟩
  · intro t1 h64
    unfold MapCodeMemoryForProcess
    simp [hfw, h64]
  · intro hmap
    obtain ⟨new1, h1⟩ := hex true t hmap
    obtain ⟨new2, h2⟩ := hex false (t ++ new1) hmap
    refine ⟨new1, new2, h1, h2, ?_⟩
    rw [MapCodeMemoryForProcess_legacy_retry env fuel t out_mcm h base_address size hfw
      _ _ _ h1 (by decide), h2]

/-- C9 at `legacyFatalEnv`: the failed 64-bit attempt is followed by one run
of the 32-bit attempt. -/
theorem MapCodeMemoryForProcess_legacy_fallback_witness :
    (⟨0, 0, 0, 0, ResultOther 0⟩ : MappedCodeMemory) = ⟨0, 0, 0, 0, ResultOther 0⟩ ∧
    MapCodeMemoryForProcess legacyFatalEnv 0 [] ⟨0, 0, 0, 0, ResultOther 0⟩ 7 65536 4096
      = MapCodeMemoryForProcessDeprecated legacyFatalEnv
        [Event.Random 491519 0, Event.Map 7 134217728 65536 4096 (ResultOther 1)]
        ⟨0, 0, 0, 0, ResultOther 0⟩ 7 false 65536 4096 :=
  (MapCodeMemoryForProcess_legacy_fallback legacyFatalEnv 0 [] ⟨0, 0, 0, 0, ResultOther 0⟩ 7
    65536 4096 rfl).2.2.2.1 (ResultOther 1) ⟨0, 0, 0, 0, ResultOther 0⟩
    [Event.Random 491519 0, Event.Map 7 134217728 65536 4096 (ResultOther 1)] rfl (by decide)

/-! ## The modern locator on the scenario of the specification -/

/-- In any environment with heap region `[0x1000, 0x2000)`, empty alias region,
address space `[0x0, 0x100000)` and a Free block `[0x0, 0x100000)` reported
throughout it, the modern locator called with size `0x500` probes address `0`
once and returns it: `[0x0, 0x500)` lies below the heap. -/
theorem LocateSpaceForMapModern_scenario_eval (env : Env) (fuel out map_base : Nat)
    (t : List Event)
    (h4 : env.svcGetInfo 4 env.CUR_PROCESS_HANDLE 0 = (ResultSuccess, 4096))
    (h5 : env.svcGetInfo 5 env.CUR_PROCESS_HANDLE 0 = (ResultSuccess, 4096))
    (h2 : env.svcGetInfo 2 env.CUR_PROCESS_HANDLE 0 = (ResultSuccess, map_base))
    (h3 : env.svcGetInfo 3 env.CUR_PROCESS_HANDLE 0 = (ResultSuccess, 0))
    (h12 : env.svcGetInfo 12 env.CUR_PROCESS_HANDLE 0 = (ResultSuccess, 0))
    (h13 : env.svcGetInfo 13 env.CUR_PROCESS_HANDLE 0 = (ResultSuccess, 1048576))
    (hblk : ∀ a, a < 1048576 → env.svcQueryMemory a = (ResultSuccess, ⟨0, 1048576, 0⟩)) :
    LocateSpaceForMapModern env (fuel + 1) t out 1280
      = Outcome.ret (ResultSuccess, 0)
        (t ++ infoReads env.CUR_PROCESS_HANDLE ++ [Event.QueryMemory 0]) := by
  have hq : (GetAddressSpaceInfo env t AddressSpaceInfo.zero env.CUR_PROCESS_HANDLE).1
      = ResultSuccess := by
    unfold GetAddressSpaceInfo
    simp only [h4, h5, h2, h3, h12, h13, ne_eq, not_true_eq_false, if_false]
  obtain ⟨has, hlog⟩ := GetAddressSpaceInfo_success env t _ _ hq
  have hb := hblk 0 (by decide)
  have e1 : add64 0 1280 = 1280 := by decide
  have e2 : overlaps 4096 4096 (add64 4096 4096) 0 1280 = false := by decide
  have e3 : ∀ b e, overlaps 0 b e 0 1280 = false := by
    intro b e; simp [overlaps]
  have e4 : add64 (sub64 0 0) 1048576 ≥ 1280 := by decide
  unfold LocateSpaceForMapModern
  simp only [hq, ne_eq, not_true_eq_false, if_false]
  rw [has, hlog]
  simp only [h4, h5, h2, h3, h12, h13, e1]
  rw [if_neg (by decide), LocateSpaceForMapModern.loop]
  simp only [e2, e3, hb, Bool.false_eq_true, if_false, ne_eq, not_true_eq_false, e4, and_self,
    if_true, infoReads]

/-- C10 (amended). Modern locator scenario: with heap region `[0x1000, 0x2000)`,
empty alias region (`map_size = 0`), address space `[0x0, 0x100000)` and a
single Free kernel block covering `[0x0, 0x100000)`, `LocateSpaceForMapModern`
called with size `0x500` returns success with base `0x0`, after the six info
reads and one memory query at address `0`. -/
theorem LocateSpaceForMapModern_scenario (env : Env) (fuel out map_base : Nat)
    (t : List Event)
    (h4 : env.svcGetInfo 4 env.CUR_PROCESS_HANDLE 0 = (ResultSuccess, 4096))
    (h5 : env.svcGetInfo 5 env.CUR_PROCESS_HANDLE 0 = (ResultSuccess, 4096))
    (h2 : env.svcGetInfo 2 env.CUR_PROCESS_HANDLE 0 = (ResultSuccess, map_base))
    (h3 : env.svcGetInfo 3 env.CUR_PROCESS_HANDLE 0 = (ResultSuccess, 0))
    (h12 : env.svcGetInfo 12 env.CUR_PROCESS_HANDLE 0 = (ResultSuccess, 0))
    (h13 : env.svcGetInfo 13 env.CUR_PROCESS_HANDLE 0 = (ResultSuccess, 1048576))
    (hblk : ∀ a, a < 1048576 → env.svcQueryMemory a = (ResultSuccess, ⟨0, 1048576, 0⟩)) :
    LocateSpaceForMapModern env (fuel + 1) t out 1280
      = Outcome.ret (ResultSuccess, 0)
        (t ++ infoReads env.CUR_PROCESS_HANDLE ++ [Event.QueryMemory 0]) :=
  LocateSpaceForMapModern_scenario_eval env fuel out map_base t h4 h5 h2 h3 h12 h13 hblk

theorem scenarioEnv_block (a : Nat) (ha : a < 1048576) :
    scenarioEnv.svcQueryMemory a = (ResultSuccess, ⟨0, 1048576, 0⟩) := by
  simp [scenarioEnv, scenarioBlocks, ha]

/-- C10 (amended) at the scenario environment. -/
theorem LocateSpaceForMapModern_scenario_witness :
    LocateSpaceForMapModern scenarioEnv (0 + 1) [] 7 1280
      = Outcome.ret (ResultSuccess, 0)
        ([] ++ infoReads scenarioEnv.CUR_PROCESS_HANDLE ++ [Event.QueryMemory 0]) :=
  LocateSpaceForMapModern_scenario scenarioEnv 0 7 0 [] rfl rfl rfl rfl rfl rfl scenarioEnv_block

/-- C10 as stated fails: in the scenario environment no amount of loop fuel
makes `LocateSpaceForMapModern` with size `0x500` return base `0x2000`. -/
theorem LocateSpaceForMapModern_scenario_counterexample :
    ¬ ∃ fuel t', LocateSpaceForMapModern scenarioEnv fuel [] 7 1280
      = Outcome.ret (ResultSuccess, 8192) t' := by
  rintro ⟨fuel, t', h⟩
  cases fuel with
  | zero =>
    have h0 : LocateSpaceForMapModern scenarioEnv 0 [] 7 1280 = Outcome.timeout := rfl
    rw [h0] at h
    exact Outcome.noConfusion h
  | succ n =>
    rw [LocateSpaceForMapModern_scenario_eval scenarioEnv n 7 0 [] rfl rfl rfl rfl rfl rfl
      scenarioEnv_block] at h
    simp at h

/-! ## Deprecated locator -/

/-- An iteration of the deprecated loop that continues probes `next`. -/
theorem LocateSpaceForMapDeprecated.loop_next (env : Env) (size fuel cur c out : Nat)
    (t : List Event) (h : LocateSpaceForMapDeprecated.next env size cur = some c) :
    LocateSpaceForMapDeprecated.loop env size (fuel + 1) cur out t
      = LocateSpaceForMapDeprecated.loop env size fuel c out (t ++ [Event.QueryMemory cur]) := by
  unfold LocateSpaceForMapDeprecated.next at h
  rw [LocateSpaceForMapDeprecated.loop]
  simp only
  split at h
  · simp at h
  · rename_i h1
    rw [if_neg h1]
    split at h
    · simp at h
    · rename_i h2
      rw [if_neg h2]
      split at h
      · simp at h
      · rename_i h3
        rw [if_neg h3]
        simp only [Option.some.injEq] at h
        rw [h]

/-- At a block of kind `0x10` whose query succeeds, the deprecated loop
returns `ResultKernelOutOfMemory`. -/
theorem LocateSpaceForMapDeprecated.loop_locked (env : Env) (size fuel cur out : Nat)
    (t : List Event) (hq : (env.svcQueryMemory cur).1 = ResultSuccess)
    (hl : (env.svcQueryMemory cur).2.type = 16) :
    LocateSpaceForMapDeprecated.loop env size (fuel + 1) cur out t
      = Outcome.ret (ResultKernelOutOfMemory, out) (t ++ [Event.QueryMemory cur]) := by
  rw [LocateSpaceForMapDeprecated.loop]
  simp [hq, hl]

/-- When `n` iterations from `cur` all continue and lead to a block of kind
`0x10`, the loop returns `ResultKernelOutOfMemory` once it has fuel for
`n + 1` iterations. -/
theorem LocateSpaceForMapDeprecated.loop_sentinel (env : Env) (size : Nat) :
    ∀ (n cur p : Nat), LocateSpaceForMapDeprecated.scanFrom env size n cur = some p →
      (env.svcQueryMemory p).1 = ResultSuccess → (env.svcQueryMemory p).2.type = 16 →
      ∀ (fuel out : Nat) (t : List Event), n < fuel →
        ∃ new, LocateSpaceForMapDeprecated.loop env size fuel cur out t
          = Outcome.ret (ResultKernelOutOfMemory, out) (t ++ new ++ [Event.QueryMemory p]) := by
  intro n
  induction n with
  | zero =>
    intro cur p hs hq hl fuel out t hf
    simp only [LocateSpaceForMapDeprecated.scanFrom, Option.some.injEq] at hs
    subst hs
    obtain ⟨f, rfl⟩ : ∃ f, fuel = f + 1 := ⟨fuel - 1, by omega⟩
    exact ⟨[], by rw [LocateSpaceForMapDeprecated.loop_locked env size f cur out t hq hl]; simp⟩
  | succ n ih =>
    intro cur p hs hq hl fuel out t hf
    obtain ⟨f, rfl⟩ : ∃ f, fuel = f + 1 := ⟨fuel - 1, by omega⟩
    rw [LocateSpaceForMapDeprecated.scanFrom] at hs
    split at hs
    · simp at hs
    · rename_i c hc
      obtain ⟨new, hrun⟩ := ih c p hs hq hl f out (t ++ [Event.QueryMemory cur]) (by omega)
      exact ⟨Event.QueryMemory cur :: new, by
        rw [LocateSpaceForMapDeprecated.loop_next env size f cur c out t hc, hrun]; simp⟩

/-- C11. Deprecated locator stops at the sentinel: when the forward scan from
`0x8000000` continues for `n` iterations (no query fails, no Free block with
remaining span `>= out_size` is met, no stop test fires) and then probes a
block of kind Locked (type `0x10`), `LocateSpaceForMapDeprecated` returns
`ResultKernelOutOfMemory`, with `*out` untouched and that probe as its last
call, for every amount of loop fuel above `n`. -/
theorem LocateSpaceForMapDeprecated_sentinel (env : Env) (out_size n p : Nat)
    (hreach : LocateSpaceForMapDeprecated.probe env out_size n = some p)
    (hquery : (env.svcQueryMemory p).1 = ResultSuccess)
    (hlocked : (env.svcQueryMemory p).2.type = 16) :
    ∀ (fuel out : Nat) (t : List Event), n < fuel →
      ∃ new, LocateSpaceForMapDeprecated env fuel t out out_size
        = Outcome.ret (ResultKernelOutOfMemory, out) (t ++ new ++ [Event.QueryMemory p]) := by
  intro fuel out t hf
  unfold LocateSpaceForMapDeprecated
  exact LocateSpaceForMapDeprecated.loop_sentinel env out_size n 134217728 p hreach hquery
    hlocked fuel out t hf

/-- C11 at the chain `[0x8000000, 0x8001000)` Free, `[0x8001000, ...)` Locked
with size `0x2000`: the second probe meets the sentinel and the result is
`ResultKernelOutOfMemory`. -/
theorem LocateSpaceForMapDeprecated_sentinel_witness :
    ∃ new, LocateSpaceForMapDeprecated sentinelEnv 2 [] 7 8192
      = Outcome.ret (ResultKernelOutOfMemory, 7) ([] ++ new ++ [Event.QueryMemory 134221824]) :=
  LocateSpaceForMapDeprecated_sentinel sentinelEnv 8192 1 134221824 (by decide) rfl rfl
    2 7 [] (by decide)

/-- A probe address that follows another is not smaller and lies below `2^31`. -/
theorem LocateSpaceForMapDeprecated.next_bounds (env : Env) (size cur c : Nat)
    (h : LocateSpaceForMapDeprecated.next env size cur = some c) :
    cur ≤ c ∧ c < 2147483648 := by
  unfold LocateSpaceForMapDeprecated.next at h
  split at h
  · simp at h
  · split at h
    · simp at h
    · split at h
      · simp at h
      · rename_i h3
        simp only [Option.some.injEq] at h
        subst h
        simp only [shr64, not_or, not_lt, ne_eq, not_not] at h3
        have := h3.2.2
        omega

/-- Scanning one iteration further is one more `next` at the end. -/
theorem LocateSpaceForMapDeprecated.scanFrom_succ (env : Env) (size : Nat) :
    ∀ (n cur : Nat), LocateSpaceForMapDeprecated.scanFrom env size (n + 1) cur
      = (LocateSpaceForMapDeprecated.scanFrom env size n cur).bind
          (LocateSpaceForMapDeprecated.next env size) := by
  intro n
  induction n with
  | zero =>
    intro cur
    simp only [LocateSpaceForMapDeprecated.scanFrom, Option.some_bind]
    split <;> simp_all
  | succ n ih =>
    intro cur
    rw [LocateSpaceForMapDeprecated.scanFrom]
    split
    · rename_i hn
      rw [LocateSpaceForMapDeprecated.scanFrom, hn]
      rfl
    · rename_i c hn
      rw [ih c]
      conv_rhs => rw [LocateSpaceForMapDeprecated.scanFrom, hn]

/-- An iteration of the deprecated loop that does not continue returns after
its query, and a success returns the probe address. -/
theorem LocateSpaceForMapDeprecated.loop_stop (env : Env) (size fuel cur out : Nat)
    (t : List Event) (h : LocateSpaceForMapDeprecated.next env size cur = none) :
    ∃ r, LocateSpaceForMapDeprecated.loop env size (fuel + 1) cur out t
        = Outcome.ret r (t ++ [Event.QueryMemory cur]) ∧
      (r.1 = ResultSuccess → r.2 = cur) := by
  unfold LocateSpaceForMapDeprecated.next at h
  rw [LocateSpaceForMapDeprecated.loop]
  simp only
  split at h
  · rename_i h1
    rw [if_pos h1]
    exact ⟨_, rfl, fun h' => absurd h' h1⟩
  · rename_i h1
    rw [if_neg h1]
    split at h
    · rename_i h2
      rw [if_pos h2]
      exact ⟨_, rfl, fun _ => rfl⟩
    · rename_i h2
      rw [if_neg h2]
      split at h
      · rename_i h3
        rw [if_pos h3]
        exact ⟨_, rfl, fun h' => by simp at h'⟩
      · simp at h

/-- The log of the deprecated loop: the probes, in order, and a returned base
is the last of them. -/
theorem LocateSpaceForMapDeprecated.loop_probes (env : Env) (size : Nat) :
    ∀ (fuel cur out : Nat) (t : List Event) (o : Outcome (Result × Nat)) (t' : List Event),
      LocateSpaceForMapDeprecated.loop env size fuel cur out t = o → o.log = some t' →
      ∃ ps : List Nat, ps ≠ [] ∧ t' = t ++ ps.map Event.QueryMemory ∧
        (∀ i p, ps[i]? = some p → LocateSpaceForMapDeprecated.scanFrom env size i cur = some p) ∧
        (∀ b, o = Outcome.ret (ResultSuccess, b) t' →
          LocateSpaceForMapDeprecated.scanFrom env size (ps.length - 1) cur = some b) := by
  intro fuel
  induction fuel with
  | zero =>
    intro cur out t o t' ho hlog
    rw [LocateSpaceForMapDeprecated.loop] at ho
    subst ho
    simp [Outcome.log] at hlog
  | succ f ih =>
    intro cur out t o t' ho hlog
    cases hn : LocateSpaceForMapDeprecated.next env size cur with
    | none =>
      obtain ⟨r, hr, hsucc⟩ := LocateSpaceForMapDeprecated.loop_stop env size f cur out t hn
      rw [hr] at ho
      subst ho
      simp only [Outcome.log, Option.some.injEq] at hlog
      refine ⟨[cur], by simp, by rw [← hlog]; rfl, ?_, ?_⟩
      · intro i p hi
        cases i with
        | zero =>
          simp only [List.getElem?_cons_zero, Option.some.injEq] at hi
          subst hi
          rfl
        | succ j => simp at hi
      · intro b hb
        simp only [Outcome.ret.injEq] at hb
        have := hsucc (by rw [hb.1])
        rw [hb.1] at this
        simp only [List.length_singleton, Nat.sub_self, LocateSpaceForMapDeprecated.scanFrom]
        rw [← this]
    | some c =>
      rw [LocateSpaceForMapDeprecated.loop_next env size f cur c out t hn] at ho
      obtain ⟨ps, hne, hps, hidx, hret⟩ := ih c out _ o t' ho hlog
      refine ⟨cur :: ps, by simp, by rw [hps]; simp, ?_, ?_⟩
      · intro i p hi
        cases i with
        | zero =>
          simp only [List.getElem?_cons_zero, Option.some.injEq] at hi
          subst hi
          rfl
        | succ j =>
          simp only [List.getElem?_cons_succ] at hi
          rw [LocateSpaceForMapDeprecated.scanFrom, hn]
          exact hidx j p hi
      · intro b hb
        have hb' := hret b hb
        obtain ⟨x, xs, rfl⟩ := List.exists_cons_of_ne_nil hne
        simp only [List.length_cons, Nat.add_sub_cancel] at hb' ⊢
        rw [LocateSpaceForMapDeprecated.scanFrom, hn]
        exact hb'

/-- Every probe address lies in `[0x8000000, 2^31)`. -/
theorem LocateSpaceForMapDeprecated.probe_bounds (env : Env) (size : Nat) :
    ∀ (n p : Nat), LocateSpaceForMapDeprecated.probe env size n = some p →
      134217728 ≤ p ∧ p < 2147483648 := by
  intro n
  induction n with
  | zero =>
    intro p h
    simp only [LocateSpaceForMapDeprecated.probe, LocateSpaceForMapDeprecated.scanFrom,
      Option.some.injEq] at h
    omega
  | succ n ih =>
    intro p h
    unfold LocateSpaceForMapDeprecated.probe at h ih
    rw [LocateSpaceForMapDeprecated.scanFrom_succ] at h
    cases hq : LocateSpaceForMapDeprecated.scanFrom env size n 134217728 with
    | none => rw [hq] at h; simp at h
    | some q =>
      rw [hq] at h
      simp only [Option.some_bind] at h
      have h1 := ih q hq
      have h2 := LocateSpaceForMapDeprecated.next_bounds env size q p h
      omega

/-- C19. The deprecated locator stays in the low 2 GiB, for every size and
every kernel behaviour: every probe address lies in `[0x8000000, 2^31)`; the
probe address of an iteration is not smaller than that of the iteration
before; the calls of a run that ends are the probes in order; and a returned
base is the last probe, so it lies in `[0x8000000, 2^31)` too. -/
theorem LocateSpaceForMapDeprecated_low_2GiB (env : Env) (out_size : Nat) :
    (∀ n p, LocateSpaceForMapDeprecated.probe env out_size n = some p →
      134217728 ≤ p ∧ p < 2147483648) ∧
    (∀ n p q, LocateSpaceForMapDeprecated.probe env out_size n = some p →
      LocateSpaceForMapDeprecated.probe env out_size (n + 1) = some q → p ≤ q) ∧
    (∀ fuel out t o t', LocateSpaceForMapDeprecated env fuel t out out_size = o →
      o.log = some t' →
      ∃ ps : List Nat, ps ≠ [] ∧ t' = t ++ ps.map Event.QueryMemory ∧
        (∀ i p, ps[i]? = some p →
          LocateSpaceForMapDeprecated.probe env out_size i = some p) ∧
        ∀ b, o = Outcome.ret (ResultSuccess, b) t' →
          LocateSpaceForMapDeprecated.probe env out_size (ps.length - 1) = some b ∧
          134217728 ≤ b ∧ b < 2147483648) := by
  refine ⟨LocateSpaceForMapDeprecated.probe_bounds env out_size, ?_, ?_⟩
  · intro n p q hp hq
    unfold LocateSpaceForMapDeprecated.probe at hp hq
    rw [LocateSpaceForMapDeprecated.scanFrom_succ, hp] at hq
    exact (LocateSpaceForMapDeprecated.next_bounds env out_size p q hq).1
  · intro fuel out t o t' ho hlog
    unfold LocateSpaceForMapDeprecated at ho
    obtain ⟨ps, hne, hps, hidx, hret⟩ :=
      LocateSpaceForMapDeprecated.loop_probes env out_size fuel 134217728 out t o t' ho hlog
    refine ⟨ps, hne, hps, hidx, ?_⟩
    intro b hb
    have hb' := hret b hb
    exact ⟨hb', LocateSpaceForMapDeprecated.probe_bounds env out_size _ b hb'⟩

/-! ## Failure of the address-space query -/

/-- C12 as stated fails: with a first read that succeeds (heap base `0x1000`)
and a second read that fails, `GetAddressSpaceInfo` returns the error after
two reads, but the caller's output is no longer as it was: `heap_base` already
holds `0x1000`. -/
theorem GetAddressSpaceInfo_failure_counterexample :
    (GetAddressSpaceInfo partialEnv [] AddressSpaceInfo.zero 7).1 = ResultOther 9 ∧
    (GetAddressSpaceInfo partialEnv [] AddressSpaceInfo.zero 7).2.2
      = [Event.GetInfo 4 7 0, Event.GetInfo 5 7 0] ∧
    (GetAddressSpaceInfo partialEnv [] AddressSpaceInfo.zero 7).2.1.heap_base = 4096 ∧
    (GetAddressSpaceInfo partialEnv [] AddressSpaceInfo.zero 7).2.1 ≠ AddressSpaceInfo.zero := by
  refine ⟨rfl, rfl, rfl, by decide⟩

/-- C12 (amended). When the `k`-th of the six info reads is the first to fail,
`GetAddressSpaceInfo` returns that read's error and has issued exactly the
reads up to it, none of the later ones; the fields of the later reads and the
three derived ends are as before the call, and the fields of the earlier reads
hold the values read. -/
theorem GetAddressSpaceInfo_failure (env : Env) (t : List Event) (out : AddressSpaceInfo)
    (h : Handle) (k : Nat) (hk : k < 6)
    (hok : ∀ j, j < k → (env.svcGetInfo (infoId j) h 0).1 = ResultSuccess)
    (hfail : (env.svcGetInfo (infoId k) h 0).1 ≠ ResultSuccess) :
    (GetAddressSpaceInfo env t out h).1 = (env.svcGetInfo (infoId k) h 0).1 ∧
    (GetAddressSpaceInfo env t out h).2.2 = t ++ (infoReads h).take (k + 1) ∧
    (∀ j, j < k →
      (GetAddressSpaceInfo env t out h).2.1.readField j = (env.svcGetInfo (infoId j) h 0).2) ∧
    (∀ j, k < j → j < 6 →
      (GetAddressSpaceInfo env t out h).2.1.readField j = out.readField j) ∧
    (GetAddressSpaceInfo env t out h).2.1.heap_end = out.heap_end ∧
    (GetAddressSpaceInfo env t out h).2.1.map_end = out.map_end ∧
    (GetAddressSpaceInfo env t out h).2.1.addspace_end = out.addspace_end := by
  have h0 := hok 0
  have h1 := hok 1
  have h2 := hok 2
  have h3 := hok 3
  have h4 := hok 4
  simp only [infoId] at h0 h1 h2 h3 h4
  interval_cases k <;> simp only [infoId] at hfail <;>
    simp only [Nat.lt_irrefl, Nat.zero_lt_succ, Nat.one_lt_ofNat, Nat.lt_add_one,
      Nat.reduceLT, forall_const] at h0 h1 h2 h3 h4 <;>
    unfold GetAddressSpaceInfo <;>
    simp only [ne_eq, hfail, h0, h1, h2, h3, h4, not_true_eq_false, not_false_eq_true, if_true,
      if_false, infoReads, infoId] <;>
    refine ⟨trivial, by simp, ?_, ?_, trivial, trivial, trivial⟩ <;>
    intro j hj <;> (try intro hj') <;> interval_cases j <;>
    simp [AddressSpaceInfo.readField, infoId]

/-- C12 (amended) at `partialEnv`, whose second read is the first to fail. -/
theorem GetAddressSpaceInfo_failure_witness :
    (GetAddressSpaceInfo partialEnv [] AddressSpaceInfo.zero 7).1
      = (partialEnv.svcGetInfo (infoId 1) 7 0).1 ∧
    (GetAddressSpaceInfo partialEnv [] AddressSpaceInfo.zero 7).2.2
      = [] ++ (infoReads 7).take (1 + 1) ∧
    (∀ j, j < 1 →
      (GetAddressSpaceInfo partialEnv [] AddressSpaceInfo.zero 7).2.1.readField j
        = (partialEnv.svcGetInfo (infoId j) 7 0).2) ∧
    (∀ j, 1 < j → j < 6 →
      (GetAddressSpaceInfo partialEnv [] AddressSpaceInfo.zero 7).2.1.readField j
        = AddressSpaceInfo.zero.readField j) ∧
    (GetAddressSpaceInfo partialEnv [] AddressSpaceInfo.zero 7).2.1.heap_end
      = AddressSpaceInfo.zero.heap_end ∧
    (GetAddressSpaceInfo partialEnv [] AddressSpaceInfo.zero 7).2.1.map_end
      = AddressSpaceInfo.zero.map_end ∧
    (GetAddressSpaceInfo partialEnv [] AddressSpaceInfo.zero 7).2.1.addspace_end
      = AddressSpaceInfo.zero.addspace_end :=
  GetAddressSpaceInfo_failure partialEnv [] AddressSpaceInfo.zero 7 1 (by decide)
    (fun j hj => by interval_cases j; rfl) (by decide)

/-! ## Runs of the retry loop -/

/-- The guard validator never runs out of fuel. -/
theorem CanAddGuardRegions_ne_timeout (env : Env) (t : List Event) (h : Handle)
    (address size : Nat) : CanAddGuardRegions env t h address size ≠ Outcome.timeout := by
  obtain ⟨new, _, hcase⟩ := CanAddGuardRegions_log env t h address size
  rcases hcase with ⟨r, hr⟩ | hab
  · rw [hr]; simp
  · rw [hab]; simp

/-- The `for` loop of `MapCodeMemoryForProcessModern` is a run in the sense of
`AttemptRun`. -/
theorem MapCodeMemoryForProcessModern.attempts_run (env : Env) (as : AddressSpaceInfo)
    (h : Handle) (base_address size fuel : Nat) (out_mcm : MappedCodeMemory) :
    ∀ (left : Nat) (t : List Event), ∃ last,
      AttemptRun env (ModernCand env as size fuel) (ModernStuck env as size fuel) h base_address
        size out_mcm left t
        (MapCodeMemoryForProcessModern.attempts env as h base_address size fuel left out_mcm t)
        last := by
  intro left
  induction left with
  | zero =>
    intro t
    rw [MapCodeMemoryForProcessModern.attempts]
    exact ⟨t, AttemptRun.exhausted t⟩
  | succ left ih =>
    intro t
    rw [MapCodeMemoryForProcessModern.attempts]
    rcases MapCodeMemoryForProcessModern.sample_log env as size fuel t with
      ⟨a, new1, hs, _⟩ | hto
    · rw [hs]
      simp only [MappedCodeMemory.construct]
      by_cases hrc : env.svcMapProcessCodeMemory (t ++ new1) h a base_address size
          = ResultSuccess
      · rw [if_neg (by simp [hrc]), hrc]
        cases hg : CanAddGuardRegions env
            (t ++ new1 ++ [Event.Map h a base_address size ResultSuccess]) h a size with
        | timeout => exact absurd hg (CanAddGuardRegions_ne_timeout _ _ _ _ _)
        | abort t3 => exact ⟨t3, AttemptRun.guard_abort left t a (t ++ new1) t3 hs hrc hg⟩
        | ret b t3 =>
          cases b with
          | true => exact ⟨t3, AttemptRun.accepted left t a (t ++ new1) t3 hs hrc hg⟩
          | false =>
            simp only [MappedCodeMemory.drop, if_true]
            by_cases hu : env.svcUnmapProcessCodeMemory t3 h a base_address size = ResultSuccess
            · rw [if_pos hu, hu]
              simp only
              obtain ⟨last, hrest⟩ := ih (t3 ++ [Event.Unmap h a base_address size ResultSuccess])
              exact ⟨last, AttemptRun.rejected left t a (t ++ new1) t3 _ last hs hrc hg hu hrest⟩
            · rw [if_neg hu]
              simp only
              exact ⟨_, AttemptRun.unmap_abort left t a (t ++ new1) t3 hs hrc hg hu⟩
      · rw [if_pos (by simp [hrc])]
        by_cases hims : env.svcMapProcessCodeMemory (t ++ new1) h a base_address size
            = ResultKernelInvalidMemoryState
        · rw [if_pos hims, hims]
          obtain ⟨last, hrest⟩ := ih (t ++ new1 ++
            [Event.Map h a base_address size ResultKernelInvalidMemoryState])
          exact ⟨last, AttemptRun.busy left t a (t ++ new1) _ last hs hims hrest⟩
        · rw [if_neg hims]
          exact ⟨_, AttemptRun.fatal left t a (t ++ new1) hs hrc hims⟩
    · rw [hto]
      exact ⟨t, AttemptRun.stuck left t hto⟩

/-- The `for` loop of `MapCodeMemoryForProcessDeprecated` is a run in the sense
of `AttemptRun`; its candidate selection never gets stuck. -/
theorem MapCodeMemoryForProcessDeprecated.attempts_run_legacy (env : Env)
    (addspace_base addspace_size : Nat) (h : Handle) (base_address size : Nat)
    (out_mcm : MappedCodeMemory) :
    ∀ (left : Nat) (t : List Event), ∃ last,
      AttemptRun env (DeprecatedCand env addspace_base addspace_size size) (fun _ => False) h
        base_address size out_mcm left t
        (MapCodeMemoryForProcessDeprecated.attempts env addspace_base addspace_size h
          base_address size left out_mcm t) last := by
  intro left
  induction left with
  | zero =>
    intro t
    rw [MapCodeMemoryForProcessDeprecated.attempts]
    exact ⟨t, AttemptRun.exhausted t⟩
  | succ left ih =>
    intro t
    rw [MapCodeMemoryForProcessDeprecated.attempts]
    simp only [MappedCodeMemory.construct]
    have hs : DeprecatedCand env addspace_base addspace_size size t
        (add64 addspace_base
          (shl64 (env.GetRandomU64 t (shr64 (sub64 addspace_size size) 12)) 12))
        (t ++ [Event.Random (shr64 (sub64 addspace_size size) 12)
          (env.GetRandomU64 t (shr64 (sub64 addspace_size size) 12))]) := ⟨rfl, rfl⟩
    generalize add64 addspace_base
      (shl64 (env.GetRandomU64 t (shr64 (sub64 addspace_size size) 12)) 12) = a at hs ⊢
    generalize t ++ [Event.Random (shr64 (sub64 addspace_size size) 12)
      (env.GetRandomU64 t (shr64 (sub64 addspace_size size) 12))] = t1 at hs ⊢
    by_cases hrc : env.svcMapProcessCodeMemory t1 h a base_address size = ResultSuccess
    · rw [if_neg (by simp [hrc]), hrc]
      cases hg : CanAddGuardRegions env
          (t1 ++ [Event.Map h a base_address size ResultSuccess]) h a size with
      | timeout => exact absurd hg (CanAddGuardRegions_ne_timeout _ _ _ _ _)
      | abort t3 => exact ⟨t3, AttemptRun.guard_abort left t a t1 t3 hs hrc hg⟩
      | ret b t3 =>
        cases b with
        | true => exact ⟨t3, AttemptRun.accepted left t a t1 t3 hs hrc hg⟩
        | false =>
          simp only [MappedCodeMemory.drop, if_true]
          by_cases hu : env.svcUnmapProcessCodeMemory t3 h a base_address size = ResultSuccess
          · rw [if_pos hu, hu]
            simp only
            obtain ⟨last, hrest⟩ := ih (t3 ++ [Event.Unmap h a base_address size ResultSuccess])
            exact ⟨last, AttemptRun.rejected left t a t1 t3 _ last hs hrc hg hu hrest⟩
          · rw [if_neg hu]
            simp only
            exact ⟨_, AttemptRun.unmap_abort left t a t1 t3 hs hrc hg hu⟩
    · rw [if_pos (by simp [hrc])]
      by_cases hims : env.svcMapProcessCodeMemory t1 h a base_address size
          = ResultKernelInvalidMemoryState
      · rw [if_pos hims, hims]
        obtain ⟨last, hrest⟩ := ih (t1 ++
          [Event.Map h a base_address size ResultKernelInvalidMemoryState])
        exact ⟨last, AttemptRun.busy left t a t1 _ last hs hims hrest⟩
      · rw [if_neg hims]
        exact ⟨_, AttemptRun.fatal left t a t1 hs hrc hims⟩

/-- The last log of a run is the log of its outcome, when that has one. -/
theorem AttemptRun.last_eq {env : Env} {Cand : List Event → Nat → List Event → Prop}
    {Stuck : List Event → Prop} {h : Handle} {base_address size : Nat}
    {out_mcm : MappedCodeMemory} {left : Nat} {t : List Event}
    {o : Outcome (Result × MappedCodeMemory)} {last : List Event}
    (hrun : AttemptRun env Cand Stuck h base_address size out_mcm left t o last) :
    ∀ t', o.log = some t' → last = t' := by
  induction hrun with
  | exhausted t => intro t' hl; simpa [Outcome.log] using hl
  | stuck left t hs => intro t' hl; simp [Outcome.log] at hl
  | fatal left t a t1 hc h1 h2 => intro t' hl; simpa [Outcome.log] using hl
  | busy left t a t1 o last hc h1 hrest ih => exact ih
  | guard_abort left t a t1 t3 hc h1 hg => intro t' hl; simpa [Outcome.log] using hl
  | accepted left t a t1 t3 hc h1 hg => intro t' hl; simpa [Outcome.log] using hl
  | unmap_abort left t a t1 t3 hc h1 hg hu => intro t' hl; simpa [Outcome.log] using hl
  | rejected left t a t1 t3 o last hc h1 hg hu hrest ih => exact ih

/-- The log of a guard validation that returned. -/
theorem CanAddGuardRegions_ret_log {env : Env} {t : List Event} {h : Handle}
    {address size : Nat} {b : Bool} {t3 : List Event}
    (hg : CanAddGuardRegions env t h address size = Outcome.ret b t3) :
    ∃ q, t3 = t ++ q ∧ ∀ e ∈ q, e.isQueryProcessMemory = true := by
  obtain ⟨new, hq, hcase⟩ := CanAddGuardRegions_log env t h address size
  rcases hcase with ⟨r, hr⟩ | hab
  · rw [hr] at hg
    simp only [Outcome.ret.injEq] at hg
    exact ⟨new, hg.2.symm, hq⟩
  · rw [hab] at hg; simp at hg

/-- The log of a guard validation that aborted. -/
theorem CanAddGuardRegions_abort_log {env : Env} {t : List Event} {h : Handle}
    {address size : Nat} {t3 : List Event}
    (hg : CanAddGuardRegions env t h address size = Outcome.abort t3) :
    ∃ q, t3 = t ++ q ∧ ∀ e ∈ q, e.isQueryProcessMemory = true := by
  obtain ⟨new, hq, hcase⟩ := CanAddGuardRegions_log env t h address size
  rcases hcase with ⟨r, hr⟩ | hab
  · rw [hr] at hg; simp at hg
  · rw [hab] at hg
    simp only [Outcome.abort.injEq] at hg
    exact ⟨new, hg.symm, hq⟩

theorem countP_isMap_of_query (q : List Event) (h : ∀ e ∈ q, e.isQueryProcessMemory = true) :
    q.countP Event.isMap = 0 := by
  rw [List.countP_eq_zero]
  intro e he
  have := h e he
  cases e <;> simp_all [Event.isQueryProcessMemory, Event.isMap]

/-- The map calls of one iteration: exactly one, at the selected candidate. -/
theorem iteration_maps (r q u : List Event) (h : Handle) (a src sz : Nat) (rc : Result)
    (hr : ∀ e ∈ r, e.isRandom = true) (hq : ∀ e ∈ q, e.isQueryProcessMemory = true)
    (hu : ∀ e ∈ u, e.isMap = false) :
    (r ++ [Event.Map h a src sz rc] ++ q ++ u).countP Event.isMap = 1 ∧
    ∀ e ∈ r ++ [Event.Map h a src sz rc] ++ q ++ u, e.isMap = true →
      e = Event.Map h a src sz rc := by
  constructor
  · rw [List.countP_append, List.countP_append, List.countP_append,
      countP_isMap_of_random r hr, countP_isMap_of_query q hq]
    have : u.countP Event.isMap = 0 := by
      rw [List.countP_eq_zero]
      intro e he
      simp [hu e he]
    rw [this]
    simp [Event.isMap]
  · intro e he hm
    simp only [List.mem_append, List.mem_singleton] at he
    rcases he with ((he | he) | he) | he
    · have := hr e he
      cases e <;> simp_all [Event.isRandom, Event.isMap]
    · exact he
    · have := hq e he
      cases e <;> simp_all [Event.isQueryProcessMemory, Event.isMap]
    · rw [hu e he] at hm; simp at hm

/-- The map calls of a run: at most one per iteration, each at a selected
candidate; and a run without fatal map call that returns a failure has used
every iteration. -/
theorem AttemptRun.maps {env : Env} {Cand : List Event → Nat → List Event → Prop}
    {Stuck : List Event → Prop} {h : Handle} {base_address size : Nat}
    {out_mcm : MappedCodeMemory} (hC : CandDraws Cand)
    {left : Nat} {t : List Event}
    {o : Outcome (Result × MappedCodeMemory)} {last : List Event}
    (hrun : AttemptRun env Cand Stuck h base_address size out_mcm left t o last) :
    ∃ new, last = t ++ new ∧ new.countP Event.isMap ≤ left ∧
      (∀ e ∈ new, e.isMap = true →
        ∃ t0 a t1 rc, Cand t0 a t1 ∧ e = Event.Map h a base_address size rc) ∧
      ((∀ e ∈ new, e.isFatalMap = false) → ∀ rc m t', o = Outcome.ret (rc, m) t' →
        rc ≠ ResultSuccess → new.countP Event.isMap = left) := by
  induction hrun with
  | exhausted t =>
    exact ⟨[], by simp, by simp, by simp, by simp⟩
  | stuck left t hs =>
    exact ⟨[], by simp, by simp, by simp, by simp⟩
  | fatal left t a t1 hc h1 h2 =>
    obtain ⟨r, rfl, hr⟩ := hC t a t1 hc
    have him := iteration_maps r [] [] h a base_address size
      (env.svcMapProcessCodeMemory (t ++ r) h a base_address size) hr (by simp) (by simp)
    simp only [List.append_nil] at him
    refine ⟨r ++ [Event.Map h a base_address size
      (env.svcMapProcessCodeMemory (t ++ r) h a base_address size)], by simp, ?_, ?_, ?_⟩
    · rw [him.1]; omega
    · intro e he hm
      exact ⟨t, a, t ++ r, _, hc, him.2 e he hm⟩
    · intro hnf
      have := hnf (Event.Map h a base_address size
        (env.svcMapProcessCodeMemory (t ++ r) h a base_address size)) (by simp)
      simp [Event.isFatalMap, h1, h2] at this
  | busy left t a t1 o last hc h1 hrest ih =>
    obtain ⟨r, rfl, hr⟩ := hC t a t1 hc
    obtain ⟨new, hlast, hcount, hmaps, hfull⟩ := ih
    have him := iteration_maps r [] [] h a base_address size
      ResultKernelInvalidMemoryState hr (by simp) (by simp)
    simp only [List.append_nil] at him
    refine ⟨r ++ [Event.Map h a base_address size ResultKernelInvalidMemoryState] ++ new,
      by rw [hlast]; simp, ?_, ?_, ?_⟩
    · rw [List.countP_append, him.1]; omega
    · intro e he hm
      rcases List.mem_append.1 he with he | he
      · exact ⟨t, a, t ++ r, _, hc, him.2 e he hm⟩
      · exact hmaps e he hm
    · intro hnf rc m t' ho hrc
      rw [List.countP_append, him.1,
        hfull (fun e he => hnf e (List.mem_append_right _ he)) rc m t' ho hrc]
      omega
  | guard_abort left t a t1 t3 hc h1 hg =>
    obtain ⟨r, rfl, hr⟩ := hC t a t1 hc
    obtain ⟨q, rfl, hq⟩ := CanAddGuardRegions_abort_log hg
    have him := iteration_maps r q [] h a base_address size
      ResultSuccess hr hq (by simp)
    simp only [List.append_nil] at him
    refine ⟨r ++ [Event.Map h a base_address size ResultSuccess] ++ q, by simp, ?_, ?_, ?_⟩
    · rw [him.1]; omega
    · intro e he hm
      exact ⟨t, a, t ++ r, _, hc, him.2 e he hm⟩
    · intro _ rc m t' ho; simp at ho
  | accepted left t a t1 t3 hc h1 hg =>
    obtain ⟨r, rfl, hr⟩ := hC t a t1 hc
    obtain ⟨q, rfl, hq⟩ := CanAddGuardRegions_ret_log hg
    have him := iteration_maps r q [] h a base_address size
      ResultSuccess hr hq (by simp)
    simp only [List.append_nil] at him
    refine ⟨r ++ [Event.Map h a base_address size ResultSuccess] ++ q, by simp, ?_, ?_, ?_⟩
    · rw [him.1]; omega
    · intro e he hm
      exact ⟨t, a, t ++ r, _, hc, him.2 e he hm⟩
    · intro _ rc m t' ho hrc
      simp only [Outcome.ret.injEq, Prod.mk.injEq] at ho
      exact absurd ho.1.1.symm hrc
  | unmap_abort left t a t1 t3 hc h1 hg hu =>
    obtain ⟨r, rfl, hr⟩ := hC t a t1 hc
    obtain ⟨q, rfl, hq⟩ := CanAddGuardRegions_ret_log hg
    have him := iteration_maps r q
      [Event.Unmap h a base_address size (env.svcUnmapProcessCodeMemory
        (t ++ r ++ [Event.Map h a base_address size ResultSuccess] ++ q) h a base_address size)]
      h a base_address size ResultSuccess hr hq (by simp [Event.isMap])
    refine ⟨r ++ [Event.Map h a base_address size ResultSuccess] ++ q ++
      [Event.Unmap h a base_address size (env.svcUnmapProcessCodeMemory
        (t ++ r ++ [Event.Map h a base_address size ResultSuccess] ++ q) h a base_address size)],
      by simp only [List.append_assoc], ?_, ?_, ?_⟩
    · rw [him.1]; omega
    · intro e he hm
      exact ⟨t, a, t ++ r, _, hc, him.2 e he hm⟩
    · intro _ rc m t' ho; simp at ho
  | rejected left t a t1 t3 o last hc h1 hg hu hrest ih =>
    obtain ⟨r, rfl, hr⟩ := hC t a t1 hc
    obtain ⟨q, rfl, hq⟩ := CanAddGuardRegions_ret_log hg
    obtain ⟨new, hlast, hcount, hmaps, hfull⟩ := ih
    have him := iteration_maps r q [Event.Unmap h a base_address size ResultSuccess] h a
      base_address size ResultSuccess hr hq (by simp [Event.isMap])
    refine ⟨r ++ [Event.Map h a base_address size ResultSuccess] ++ q
      ++ [Event.Unmap h a base_address size ResultSuccess] ++ new,
      by rw [hlast]; simp, ?_, ?_, ?_⟩
    · rw [List.countP_append, him.1]; omega
    · intro e he hm
      rcases List.mem_append.1 he with he | he
      · exact ⟨t, a, t ++ r, _, hc, him.2 e he hm⟩
      · exact hmaps e he hm
    · intro hnf rc m t' ho hrc
      rw [List.countP_append, him.1,
        hfull (fun e he => hnf e (List.mem_append_right _ he)) rc m t' ho hrc]
      omega

/-- The calls of `GetAddressSpaceInfo` are info reads of the process. -/
theorem GetAddressSpaceInfo_reads (env : Env) (t : List Event) (out : AddressSpaceInfo)
    (h : Handle) :
    ∃ new, (GetAddressSpaceInfo env t out h).2.2 = t ++ new ∧
      ∀ e ∈ new, ∃ id0, e = Event.GetInfo id0 h 0 := by
  unfold GetAddressSpaceInfo
  simp only
  split_ifs <;> simp only [List.append_assoc] <;>
    exact ⟨_, rfl, by simp⟩

/-- Sampling of the modern allocator only draws random numbers. -/
theorem ModernCand_draws (env : Env) (as : AddressSpaceInfo) (size fuel : Nat) :
    CandDraws (ModernCand env as size fuel) := by
  intro t a t1 hc
  unfold ModernCand at hc
  rcases MapCodeMemoryForProcessModern.sample_log env as size fuel t with
    ⟨a', new, hs, hr⟩ | hto
  · rw [hs] at hc
    simp only [Outcome.ret.injEq] at hc
    exact ⟨new, hc.2.symm, hr⟩
  · rw [hto] at hc; simp at hc

/-- Candidate selection of the deprecated allocator is one draw. -/
theorem DeprecatedCand_draws (env : Env) (addspace_base addspace_size size : Nat) :
    CandDraws (DeprecatedCand env addspace_base addspace_size size) := by
  intro t a t1 hc
  exact ⟨_, hc.2, by simp [Event.isRandom]⟩

/-- A call of `MapCodeMemoryForProcessDeprecated` that ends made at most
`LocateRetryCount` map calls. -/
theorem MapCodeMemoryForProcessDeprecated_count (env : Env) (t : List Event)
    (out_mcm : MappedCodeMemory) (h : Handle) (is_64_bit : Bool) (base_address size : Nat)
    (t' : List Event)
    (hlog : (MapCodeMemoryForProcessDeprecated env t out_mcm h is_64_bit base_address size).log
      = some t') :
    ∃ new, t' = t ++ new ∧ new.countP Event.isMap ≤ env.LocateRetryCount := by
  unfold MapCodeMemoryForProcessDeprecated at hlog
  simp only at hlog
  by_cases hbig : size > (if is_64_bit = true then 2013265920 else 66977792)
  · rw [if_pos hbig] at hlog
    simp only [Outcome.log, Option.some.injEq] at hlog
    exact ⟨[], by simp [hlog], by simp⟩
  · rw [if_neg hbig] at hlog
    obtain ⟨last, hrun⟩ := MapCodeMemoryForProcessDeprecated.attempts_run_legacy env
      (if is_64_bit = true then 134217728 else 2097152)
      (if is_64_bit = true then 2013265920 else 66977792) h base_address size out_mcm
      env.LocateRetryCount t
    obtain ⟨new, hnew, hcount, _, _⟩ := hrun.maps (DeprecatedCand_draws _ _ _ _)
    rw [hrun.last_eq t' hlog] at hnew
    exact ⟨new, hnew, hcount⟩

/-- A call of `MapCodeMemoryForProcessModern` that ends made at most
`LocateRetryCount` map calls. -/
theorem MapCodeMemoryForProcessModern_count (env : Env) (fuel : Nat) (t : List Event)
    (out_mcm : MappedCodeMemory) (h : Handle) (base_address size : Nat) (t' : List Event)
    (hlog : (MapCodeMemoryForProcessModern env fuel t out_mcm h base_address size).log
      = some t') :
    ∃ new, t' = t ++ new ∧ new.countP Event.isMap ≤ env.LocateRetryCount := by
  obtain ⟨new0, h0, hq0⟩ := GetAddressSpaceInfo_reads env t AddressSpaceInfo.zero h
  have hc0 : new0.countP Event.isMap = 0 := by
    rw [List.countP_eq_zero]
    intro e he
    obtain ⟨id0, rfl⟩ := hq0 e he
    simp [Event.isMap]
  unfold MapCodeMemoryForProcessModern at hlog
  simp only at hlog
  split at hlog
  · simp only [Outcome.log, Option.some.injEq] at hlog
    exact ⟨new0, by rw [← hlog, h0], by omega⟩
  · split at hlog
    · simp only [Outcome.log, Option.some.injEq] at hlog
      exact ⟨new0, by rw [← hlog, h0], by omega⟩
    · obtain ⟨last, hrun⟩ := MapCodeMemoryForProcessModern.attempts_run env
        (GetAddressSpaceInfo env t AddressSpaceInfo.zero h).2.1 h base_address size fuel out_mcm
        env.LocateRetryCount (GetAddressSpaceInfo env t AddressSpaceInfo.zero h).2.2
      obtain ⟨new, hnew, hcount, _, _⟩ := hrun.maps (ModernCand_draws _ _ _ _)
      rw [hrun.last_eq t' hlog, h0] at hnew
      exact ⟨new0 ++ new, by rw [hnew]; simp, by rw [List.countP_append]; omega⟩

/-- C18. Bounded search, for every kernel behaviour and random source: a call
of `MapCodeMemoryForProcessModern` that ends (returns or aborts) has made at
most `LocateRetryCount` kernel map calls; on pre-2.0.0 firmware a call of
`MapCodeMemoryForProcess` that ends has made at most `2 * LocateRetryCount`;
and the retry loop started with a budget of `left` iterations makes at most
`left` map calls up to the point where it ends or its sampling gets stuck, and
exactly `left` when it returns a failure without a fatal map error: every
attempt refused with invalid-memory-state or rejected by guard validation
uses one unit of the budget. -/
theorem MapCodeMemoryForProcess_bounded (env : Env) (fuel : Nat) (t : List Event)
    (out_mcm : MappedCodeMemory) (h : Handle) (base_address size : Nat) :
    (∀ t', (MapCodeMemoryForProcessModern env fuel t out_mcm h base_address size).log
        = some t' →
      ∃ new, t' = t ++ new ∧ new.countP Event.isMap ≤ env.LocateRetryCount) ∧
    (env.firmwareAtLeast200 = false →
      ∀ t', (MapCodeMemoryForProcess env fuel t out_mcm h base_address size).log = some t' →
      ∃ new, t' = t ++ new ∧ new.countP Event.isMap ≤ 2 * env.LocateRetryCount) ∧
    (∀ (as : AddressSpaceInfo) (left : Nat) (t0 : List Event), ∃ last new,
      AttemptRun env (ModernCand env as size fuel) (ModernStuck env as size fuel) h
        base_address size out_mcm left t0
        (MapCodeMemoryForProcessModern.attempts env as h base_address size fuel left out_mcm t0)
        last ∧
      last = t0 ++ new ∧ new.countP Event.isMap ≤ left ∧
      ((∀ e ∈ new, e.isFatalMap = false) → ∀ rc m t',
        MapCodeMemoryForProcessModern.attempts env as h base_address size fuel left out_mcm t0
          = Outcome.ret (rc, m) t' →
        rc ≠ ResultSuccess → new.countP Event.isMap = left)) := by
  refine ⟨MapCodeMemoryForProcessModern_count env fuel t out_mcm h base_address size, ?_, ?_⟩
  · intro hfw t' hlog
    cases h64 : MapCodeMemoryForProcessDeprecated env t out_mcm h true base_address size with
    | timeout =>
      unfold MapCodeMemoryForProcess at hlog
      simp [hfw, h64, Outcome.log] at hlog
    | abort t1 =>
      unfold MapCodeMemoryForProcess at hlog
      simp only [hfw, Bool.false_eq_true, if_false, h64, Outcome.log, Option.some.injEq] at hlog
      obtain ⟨new, hnew, hcount⟩ := MapCodeMemoryForProcessDeprecated_count env t out_mcm h
        true base_address size t1 (by rw [h64]; rfl)
      exact ⟨new, by rw [← hlog, hnew], by omega⟩
    | ret r t1 =>
      obtain ⟨rc, m⟩ := r
      obtain ⟨new1, hnew1, hcount1⟩ := MapCodeMemoryForProcessDeprecated_count env t out_mcm h
        true base_address size t1 (by rw [h64]; rfl)
      by_cases hrc : rc = ResultSuccess
      · unfold MapCodeMemoryForProcess at hlog
        simp only [hfw, Bool.false_eq_true, if_false, h64, R_FAILED, hrc, ne_eq,
          not_true_eq_false, decide_False, Outcome.log, Option.some.injEq] at hlog
        exact ⟨new1, by rw [← hlog, hnew1], by omega⟩
      · rw [MapCodeMemoryForProcess_legacy_retry env fuel t out_mcm h base_address size hfw
          rc m t1 h64 hrc] at hlog
        obtain ⟨new2, hnew2, hcount2⟩ := MapCodeMemoryForProcessDeprecated_count env t1 m h
          false base_address size t' hlog
        exact ⟨new1 ++ new2, by rw [hnew2, hnew1, List.append_assoc],
          by rw [List.countP_append]; omega⟩
  · intro as left t0
    obtain ⟨last, hrun⟩ := MapCodeMemoryForProcessModern.attempts_run env as h base_address
      size fuel out_mcm left t0
    obtain ⟨new, hnew, hcount, _, hfull⟩ := hrun.maps (ModernCand_draws _ _ _ _)
    exact ⟨last, new, hrun, hnew, hcount, hfull⟩

/-! ## The returned mapping -/

/-- A run that returns success returns the mapping of its last map call, which
succeeded and whose guard validation, made right after it, returned true. -/
theorem AttemptRun.success_inv {env : Env} {Cand : List Event → Nat → List Event → Prop}
    {Stuck : List Event → Prop} {h : Handle} {base_address size : Nat}
    {out_mcm : MappedCodeMemory} (hC : CandDraws Cand) {left : Nat} {t : List Event}
    {o : Outcome (Result × MappedCodeMemory)} {last : List Event}
    (hrun : AttemptRun env Cand Stuck h base_address size out_mcm left t o last) :
    ∀ m t', o = Outcome.ret (ResultSuccess, m) t' →
      ∃ c t1 pre, t1 = t ++ pre ∧
        env.svcMapProcessCodeMemory t1 h c base_address size = ResultSuccess ∧
        CanAddGuardRegions env (t1 ++ [Event.Map h c base_address size ResultSuccess]) h c size
          = Outcome.ret true t' ∧
        m = ⟨h, c, base_address, size, ResultSuccess⟩ := by
  induction hrun with
  | exhausted t => intro m t' ho; simp at ho
  | stuck left t hs => intro m t' ho; simp at ho
  | fatal left t a t1 hc h1 h2 =>
    intro m t' ho
    simp only [Outcome.ret.injEq, Prod.mk.injEq] at ho
    exact absurd ho.1.1 h1
  | busy left t a t1 o last hc h1 hrest ih =>
    intro m t' ho
    obtain ⟨r, rfl, _⟩ := hC t a t1 hc
    obtain ⟨c, t1', pre, hpre, hm, hg, hmm⟩ := ih m t' ho
    exact ⟨c, t1', r ++ [Event.Map h a base_address size ResultKernelInvalidMemoryState] ++ pre,
      by rw [hpre]; simp, hm, hg, hmm⟩
  | guard_abort left t a t1 t3 hc h1 hg => intro m t' ho; simp at ho
  | accepted left t a t1 t3 hc h1 hg =>
    intro m t' ho
    obtain ⟨r, rfl, _⟩ := hC t a t1 hc
    simp only [Outcome.ret.injEq, Prod.mk.injEq, true_and] at ho
    exact ⟨a, t ++ r, r, rfl, h1, by rw [hg, ho.2], ho.1.symm⟩
  | unmap_abort left t a t1 t3 hc h1 hg hu => intro m t' ho; simp at ho
  | rejected left t a t1 t3 o last hc h1 hg hu hrest ih =>
    intro m t' ho
    obtain ⟨r, rfl, _⟩ := hC t a t1 hc
    obtain ⟨q, rfl, _⟩ := CanAddGuardRegions_ret_log hg
    obtain ⟨c, t1', pre, hpre, hm, hg', hmm⟩ := ih m t' ho
    exact ⟨c, t1', r ++ [Event.Map h a base_address size ResultSuccess] ++ q
      ++ [Event.Unmap h a base_address size ResultSuccess] ++ pre,
      by rw [hpre]; simp, hm, hg', hmm⟩

/-- A successful `MapCodeMemoryForProcessDeprecated` returns a mapping that
passed guard validation. -/
theorem MapCodeMemoryForProcessDeprecated_success (env : Env) (t : List Event)
    (out_mcm : MappedCodeMemory) (h : Handle) (is_64_bit : Bool) (base_address size : Nat)
    (m : MappedCodeMemory) (t' : List Event)
    (hret : MapCodeMemoryForProcessDeprecated env t out_mcm h is_64_bit base_address size
      = Outcome.ret (ResultSuccess, m) t') :
    ∃ c t1 pre, t1 = t ++ pre ∧
      env.svcMapProcessCodeMemory t1 h c base_address size = ResultSuccess ∧
      CanAddGuardRegions env (t1 ++ [Event.Map h c base_address size ResultSuccess]) h c size
        = Outcome.ret true t' ∧
      m = ⟨h, c, base_address, size, ResultSuccess⟩ := by
  unfold MapCodeMemoryForProcessDeprecated at hret
  simp only at hret
  by_cases hbig : size > (if is_64_bit = true then 2013265920 else 66977792)
  · rw [if_pos hbig] at hret
    simp at hret
  · rw [if_neg hbig] at hret
    obtain ⟨last, hrun⟩ := MapCodeMemoryForProcessDeprecated.attempts_run_legacy env
      (if is_64_bit = true then 134217728 else 2097152)
      (if is_64_bit = true then 2013265920 else 66977792) h base_address size out_mcm
      env.LocateRetryCount t
    exact hrun.success_inv (DeprecatedCand_draws _ _ _ _) m t' hret

/-- A successful `MapCodeMemoryForProcessModern` returns a mapping that passed
guard validation. -/
theorem MapCodeMemoryForProcessModern_success (env : Env) (fuel : Nat) (t : List Event)
    (out_mcm : MappedCodeMemory) (h : Handle) (base_address size : Nat)
    (m : MappedCodeMemory) (t' : List Event)
    (hret : MapCodeMemoryForProcessModern env fuel t out_mcm h base_address size
      = Outcome.ret (ResultSuccess, m) t') :
    ∃ c t1 pre, t1 = t ++ pre ∧
      env.svcMapProcessCodeMemory t1 h c base_address size = ResultSuccess ∧
      CanAddGuardRegions env (t1 ++ [Event.Map h c base_address size ResultSuccess]) h c size
        = Outcome.ret true t' ∧
      m = ⟨h, c, base_address, size, ResultSuccess⟩ := by
  obtain ⟨new0, h0, _⟩ := GetAddressSpaceInfo_reads env t AddressSpaceInfo.zero h
  unfold MapCodeMemoryForProcessModern at hret
  simp only at hret
  split at hret
  · rename_i hf
    simp only [Outcome.ret.injEq, Prod.mk.injEq] at hret
    exact absurd hret.1.1 hf
  · split at hret
    · simp at hret
    · obtain ⟨last, hrun⟩ := MapCodeMemoryForProcessModern.attempts_run env
        (GetAddressSpaceInfo env t AddressSpaceInfo.zero h).2.1 h base_address size fuel out_mcm
        env.LocateRetryCount (GetAddressSpaceInfo env t AddressSpaceInfo.zero h).2.2
      obtain ⟨c, t1, pre, hpre, hm, hg, hmm⟩ :=
        hrun.success_inv (ModernCand_draws _ _ _ _) m t' hret
      exact ⟨c, t1, new0 ++ pre, by rw [hpre, h0, List.append_assoc], hm, hg, hmm⟩

/-- C13. A returned mapping always passed guard validation, on every firmware
path: when `MapCodeMemoryForProcess` returns success with the mapping `m`, then
`m` records destination `c`, the source base, the size and a successful
result, where the kernel map call for `(c, base_address, size)` made at some
point `t1` of the call succeeded and `CanAddGuardRegions(process, c, size)`,
evaluated right after that map call, returned true as the last step of the
call. -/
theorem MapCodeMemoryForProcess_success (env : Env) (fuel : Nat) (t : List Event)
    (out_mcm : MappedCodeMemory) (h : Handle) (base_address size : Nat)
    (m : MappedCodeMemory) (t' : List Event)
    (hret : MapCodeMemoryForProcess env fuel t out_mcm h base_address size
      = Outcome.ret (ResultSuccess, m) t') :
    ∃ c t1 pre, t1 = t ++ pre ∧
      env.svcMapProcessCodeMemory t1 h c base_address size = ResultSuccess ∧
      CanAddGuardRegions env (t1 ++ [Event.Map h c base_address size ResultSuccess]) h c size
        = Outcome.ret true t' ∧
      m = ⟨h, c, base_address, size, ResultSuccess⟩ := by
  cases hfw : env.firmwareAtLeast200 with
  | true =>
    unfold MapCodeMemoryForProcess at hret
    simp only [hfw, if_true] at hret
    exact MapCodeMemoryForProcessModern_success env fuel t out_mcm h base_address size m t' hret
  | false =>
    cases h64 : MapCodeMemoryForProcessDeprecated env t out_mcm h true base_address size with
    | timeout =>
      unfold MapCodeMemoryForProcess at hret
      simp [hfw, h64] at hret
    | abort t1 =>
      unfold MapCodeMemoryForProcess at hret
      simp [hfw, h64] at hret
    | ret r t1 =>
      obtain ⟨rc, m1⟩ := r
      by_cases hrc : rc = ResultSuccess
      · unfold MapCodeMemoryForProcess at hret
        simp only [hfw, Bool.false_eq_true, if_false, h64, R_FAILED, hrc, ne_eq,
          not_true_eq_false, decide_False, Outcome.ret.injEq, Prod.mk.injEq, true_and] at hret
        rw [hrc, hret.1, hret.2] at h64
        exact MapCodeMemoryForProcessDeprecated_success env t out_mcm h true base_address size
          m t' h64
      · rw [MapCodeMemoryForProcess_legacy_retry env fuel t out_mcm h base_address size hfw
          rc m1 t1 h64 hrc] at hret
        obtain ⟨new1, hnew1, _⟩ := MapCodeMemoryForProcessDeprecated_count env t out_mcm h
          true base_address size t1 (by rw [h64]; rfl)
        obtain ⟨c, t2, pre, hpre, hm, hg, hmm⟩ :=
          MapCodeMemoryForProcessDeprecated_success env t1 m1 h false base_address size m t' hret
        exact ⟨c, t2, new1 ++ pre, by rw [hpre, hnew1, List.append_assoc], hm, hg, hmm⟩

/-- C13 at `acceptEnv`: the candidate `0x10000` is mapped and passes guard
validation. -/
theorem MapCodeMemoryForProcess_success_witness :
    ∃ c t1 pre, t1 = [] ++ pre ∧
      acceptEnv.svcMapProcessCodeMemory t1 7 c 1048576 4096 = ResultSuccess ∧
      CanAddGuardRegions acceptEnv (t1 ++ [Event.Map 7 c 1048576 4096 ResultSuccess]) 7 c 4096
        = Outcome.ret true (infoReads 7 ++ [Event.Random 255 16,
            Event.Map 7 65536 1048576 4096 ResultSuccess, Event.QueryProcessMemory 7 65535,
            Event.QueryProcessMemory 7 69632]) ∧
      (⟨7, 65536, 1048576, 4096, ResultSuccess⟩ : MappedCodeMemory)
        = ⟨7, c, 1048576, 4096, ResultSuccess⟩ :=
  MapCodeMemoryForProcess_success acceptEnv 1 [] ⟨0, 0, 0, 0, ResultOther 0⟩ 7 1048576 4096
    ⟨7, 65536, 1048576, 4096, ResultSuccess⟩ _ (by decide)

/-! ## Scoped ownership: no mapping is leaked -/

/-- Calls other than map and unmap calls do not change the held mapping. -/
theorem scopeStep_quiet (l : List Event)
    (hl : ∀ e ∈ l, e.isMap = false ∧ e.isUnmap = false) :
    ∀ st, l.foldl scopeStep st = st := by
  induction l with
  | nil => intro st; rfl
  | cons e es ih =>
    intro st
    have he := hl e (List.mem_cons_self _ _)
    have hstep : scopeStep st e = st := by
      cases e with
      | Map h dst src size rc => exact absurd he.1 (by simp [Event.isMap])
      | Unmap h dst src size rc => exact absurd he.2 (by simp [Event.isUnmap])
      | GetInfo id0 h id1 => rcases st with _ | _ | _ <;> rfl
      | QueryMemory addr => rcases st with _ | _ | _ <;> rfl
      | QueryProcessMemory h addr => rcases st with _ | _ | _ <;> rfl
      | Random max r => rcases st with _ | _ | _ <;> rfl
    rw [List.foldl_cons, hstep]
    exact ih (fun e' he' => hl e' (List.mem_cons_of_mem _ he')) st

theorem quiet_of_random {e : Event} (h : e.isRandom = true) :
    e.isMap = false ∧ e.isUnmap = false := by
  cases e <;> simp_all [Event.isRandom, Event.isMap, Event.isUnmap]

theorem quiet_of_query {e : Event} (h : e.isQueryProcessMemory = true) :
    e.isMap = false ∧ e.isUnmap = false := by
  cases e <;> simp_all [Event.isQueryProcessMemory, Event.isMap, Event.isUnmap]

/-- The held mapping after the draws, the map call and the guard queries of one
iteration. -/
theorem heldAfter_iteration (r q : List Event) (h : Handle) (a src sz : Nat) (rc : Result)
    (hr : ∀ e ∈ r, e.isRandom = true) (hq : ∀ e ∈ q, e.isQueryProcessMemory = true) :
    (r ++ [Event.Map h a src sz rc] ++ q).foldl scopeStep (some none)
      = if rc = ResultSuccess then some (some (h, a, src, sz)) else some none := by
  rw [List.foldl_append, List.foldl_append,
    scopeStep_quiet r (fun e he => quiet_of_random (hr e he))]
  simp only [List.foldl_cons, List.foldl_nil, scopeStep]
  exact scopeStep_quiet q (fun e he => quiet_of_query (hq e he)) _

/-- A run that returns holds exactly the returned mapping on success and none
on failure, and never made a map call while holding an earlier mapping. -/
theorem AttemptRun.held {env : Env} {Cand : List Event → Nat → List Event → Prop}
    {Stuck : List Event → Prop} {h : Handle} {base_address size : Nat}
    {out_mcm : MappedCodeMemory} (hC : CandDraws Cand) {left : Nat} {t : List Event}
    {o : Outcome (Result × MappedCodeMemory)} {last : List Event}
    (hrun : AttemptRun env Cand Stuck h base_address size out_mcm left t o last) :
    ∃ new, last = t ++ new ∧ ∀ rc m t', o = Outcome.ret (rc, m) t' →
      heldAfter new = some (if rc = ResultSuccess
        then some (h, m.dst_address, base_address, size) else none) := by
  induction hrun with
  | exhausted t =>
    refine ⟨[], by simp, ?_⟩
    intro rc m t' ho
    simp only [Outcome.ret.injEq, Prod.mk.injEq] at ho
    rw [← ho.1.1]
    rfl
  | stuck left t hs => exact ⟨[], by simp, by intro rc m t' ho; simp at ho⟩
  | fatal left t a t1 hc h1 h2 =>
    obtain ⟨r, rfl, hr⟩ := hC t a t1 hc
    refine ⟨r ++ [Event.Map h a base_address size
      (env.svcMapProcessCodeMemory (t ++ r) h a base_address size)] ++ [], by simp, ?_⟩
    intro rc m t' ho
    simp only [Outcome.ret.injEq, Prod.mk.injEq] at ho
    unfold heldAfter
    rw [heldAfter_iteration r [] h a base_address size _ hr (by simp), if_neg h1,
      if_neg (by rw [← ho.1.1]; exact h1)]
  | busy left t a t1 o last hc h1 hrest ih =>
    obtain ⟨r, rfl, hr⟩ := hC t a t1 hc
    obtain ⟨new, hlast, hheld⟩ := ih
    refine ⟨r ++ [Event.Map h a base_address size ResultKernelInvalidMemoryState] ++ [] ++ new,
      by rw [hlast]; simp, ?_⟩
    intro rc m t' ho
    have := hheld rc m t' ho
    unfold heldAfter at this ⊢
    rw [List.foldl_append, heldAfter_iteration r [] h a base_address size _ hr (by simp),
      if_neg (by simp)]
    exact this
  | guard_abort left t a t1 t3 hc h1 hg =>
    obtain ⟨r, rfl, hr⟩ := hC t a t1 hc
    obtain ⟨q, rfl, hq⟩ := CanAddGuardRegions_abort_log hg
    exact ⟨r ++ [Event.Map h a base_address size ResultSuccess] ++ q, by simp,
      by intro rc m t' ho; simp at ho⟩
  | accepted left t a t1 t3 hc h1 hg =>
    obtain ⟨r, rfl, hr⟩ := hC t a t1 hc
    obtain ⟨q, rfl, hq⟩ := CanAddGuardRegions_ret_log hg
    refine ⟨r ++ [Event.Map h a base_address size ResultSuccess] ++ q, by simp, ?_⟩
    intro rc m t' ho
    simp only [Outcome.ret.injEq, Prod.mk.injEq] at ho
    unfold heldAfter
    rw [heldAfter_iteration r q h a base_address size _ hr hq, ← ho.1.1, ← ho.1.2]
    simp
  | unmap_abort left t a t1 t3 hc h1 hg hu =>
    obtain ⟨r, rfl, hr⟩ := hC t a t1 hc
    obtain ⟨q, rfl, hq⟩ := CanAddGuardRegions_ret_log hg
    exact ⟨r ++ [Event.Map h a base_address size ResultSuccess] ++ q ++
      [Event.Unmap h a base_address size (env.svcUnmapProcessCodeMemory
        (t ++ r ++ [Event.Map h a base_address size ResultSuccess] ++ q) h a base_address size)],
      by simp only [List.append_assoc], by intro rc m t' ho; simp at ho⟩
  | rejected left t a t1 t3 o last hc h1 hg hu hrest ih =>
    obtain ⟨r, rfl, hr⟩ := hC t a t1 hc
    obtain ⟨q, rfl, hq⟩ := CanAddGuardRegions_ret_log hg
    obtain ⟨new, hlast, hheld⟩ := ih
    refine ⟨r ++ [Event.Map h a base_address size ResultSuccess] ++ q
      ++ [Event.Unmap h a base_address size ResultSuccess] ++ new, by rw [hlast]; simp, ?_⟩
    intro rc m t' ho
    have := hheld rc m t' ho
    unfold heldAfter at this ⊢
    rw [List.foldl_append, List.foldl_append,
      heldAfter_iteration r q h a base_address size _ hr hq]
    simp only [if_true, List.foldl_cons, List.foldl_nil, scopeStep, and_self]
    exact this

theorem inert_of_query (e : Event) (h : e.isQueryProcessMemory = true) : e.inert = true := by
  cases e <;> simp_all [Event.isQueryProcessMemory, Event.inert]

/-- The established mappings after one more call. -/
theorem established_snoc (t : List Event) (e : Event) :
    established (t ++ [e]) = established.step (established t) e := by
  unfold established
  rw [List.foldl_append]
  rfl

/-- Unmapping the mapping established last restores the earlier mappings, up
to order. -/
theorem perm_erase_snoc (l : List (Handle × Nat × Nat × Nat)) (x : Handle × Nat × Nat × Nat) :
    ((l ++ [x]).erase x).Perm l := by
  induction l with
  | nil => simp
  | cons y l ih =>
    rw [List.cons_append, List.erase_cons]
    by_cases hyx : (y == x) = true
    · rw [if_pos hyx]
      have : y = x := by simpa using hyx
      rw [this]
      exact List.perm_append_singleton x l
    · rw [if_neg hyx]
      exact ih.cons y

/-- The established mappings after the draws, a successful map call and the
guard queries of one iteration. -/
theorem established_iteration (t r q : List Event) (h : Handle) (a src sz : Nat)
    (hr : ∀ e ∈ r, e.isRandom = true) (hq : ∀ e ∈ q, e.isQueryProcessMemory = true) :
    established (t ++ r ++ [Event.Map h a src sz ResultSuccess] ++ q)
      = established t ++ [(h, a, src, sz)] := by
  rw [established_append_inert _ q (fun e he => inert_of_query e (hq e he)), established_snoc,
    established_append_inert _ r (fun e he => inert_of_random e (hr e he))]
  simp [established.step]

/-- The mappings established when a run returns are those from before it,
with the returned mapping added on success, up to order. -/
theorem AttemptRun.established_perm {env : Env}
    {Cand : List Event → Nat → List Event → Prop}
    {Stuck : List Event → Prop} {h : Handle} {base_address size : Nat}
    {out_mcm : MappedCodeMemory} (hC : CandDraws Cand) {left : Nat} {t : List Event}
    {o : Outcome (Result × MappedCodeMemory)} {last : List Event}
    (hrun : AttemptRun env Cand Stuck h base_address size out_mcm left t o last) :
    ∀ rc m t', o = Outcome.ret (rc, m) t' →
      (established last).Perm (if rc = ResultSuccess
        then established t ++ [(h, m.dst_address, base_address, size)] else established t) := by
  induction hrun with
  | exhausted t =>
    intro rc m t' ho
    simp only [Outcome.ret.injEq, Prod.mk.injEq] at ho
    rw [← ho.1.1, if_neg (by simp)]
  | stuck left t hs => intro rc m t' ho; simp at ho
  | fatal left t a t1 hc h1 h2 =>
    intro rc m t' ho
    obtain ⟨r, rfl, hr⟩ := hC t a t1 hc
    simp only [Outcome.ret.injEq, Prod.mk.injEq] at ho
    rw [if_neg (by rw [← ho.1.1]; exact h1), established_snoc,
      established_append_inert _ r (fun e he => inert_of_random e (hr e he))]
    simp [established.step, h1]
  | busy left t a t1 o last hc h1 hrest ih =>
    intro rc m t' ho
    obtain ⟨r, rfl, hr⟩ := hC t a t1 hc
    have := ih rc m t' ho
    rw [established_snoc,
      established_append_inert _ r (fun e he => inert_of_random e (hr e he))] at this
    simpa [established.step] using this
  | guard_abort left t a t1 t3 hc h1 hg => intro rc m t' ho; simp at ho
  | accepted left t a t1 t3 hc h1 hg =>
    intro rc m t' ho
    obtain ⟨r, rfl, hr⟩ := hC t a t1 hc
    obtain ⟨q, rfl, hq⟩ := CanAddGuardRegions_ret_log hg
    simp only [Outcome.ret.injEq, Prod.mk.injEq] at ho
    rw [← ho.1.1, ← ho.1.2, if_pos rfl, established_iteration t r q h a base_address size hr hq]
  | unmap_abort left t a t1 t3 hc h1 hg hu => intro rc m t' ho; simp at ho
  | rejected left t a t1 t3 o last hc h1 hg hu hrest ih =>
    intro rc m t' ho
    obtain ⟨r, rfl, hr⟩ := hC t a t1 hc
    obtain ⟨q, rfl, hq⟩ := CanAddGuardRegions_ret_log hg
    have h0 := ih rc m t' ho
    rw [established_snoc, established_iteration t r q h a base_address size hr hq] at h0
    simp only [established.step, if_true] at h0
    have hp := perm_erase_snoc (established t) (h, a, base_address, size)
    by_cases hrc : rc = ResultSuccess
    · rw [if_pos hrc] at h0 ⊢
      exact h0.trans (hp.append_right _)
    · rw [if_neg hrc] at h0 ⊢
      exact h0.trans hp

/-- C14. No mapping is leaked by the modern allocator, with `MappedCodeMemory`
a scoped resource that is unmapped when dropped before being moved to the
caller: when `MapCodeMemoryForProcessModern` returns, for every kernel
behaviour and random source, the mapping it still holds is exactly the
returned one on success and none on failure; it never made a map call while
still holding an earlier mapping, so every mapping whose guard validation
failed was unmapped before the next attempt; and the mappings established in
the target processes are those from before the call, with the returned one
added on success (as lists up to order). -/
theorem MapCodeMemoryForProcessModern_no_leak (env : Env) (fuel : Nat) (t : List Event)
    (out_mcm : MappedCodeMemory) (h : Handle) (base_address size : Nat) (rc : Result)
    (m : MappedCodeMemory) (t' : List Event)
    (hret : MapCodeMemoryForProcessModern env fuel t out_mcm h base_address size
      = Outcome.ret (rc, m) t') :
    ∃ new, t' = t ++ new ∧
      heldAfter new = some (if rc = ResultSuccess
        then some (h, m.dst_address, base_address, size) else none) ∧
      (established t').Perm (if rc = ResultSuccess
        then established t ++ [(h, m.dst_address, base_address, size)] else established t) := by
  obtain ⟨new0, h0, hq0⟩ := GetAddressSpaceInfo_reads env t AddressSpaceInfo.zero h
  have hquiet0 : ∀ e ∈ new0, e.isMap = false ∧ e.isUnmap = false := by
    intro e he
    obtain ⟨id0, rfl⟩ := hq0 e he
    exact ⟨rfl, rfl⟩
  have hinert0 : ∀ e ∈ new0, e.inert = true := by
    intro e he
    obtain ⟨id0, rfl⟩ := hq0 e he
    rfl
  have hfail : ∀ rc', rc' ≠ ResultSuccess →
      Outcome.ret (rc', out_mcm) (GetAddressSpaceInfo env t AddressSpaceInfo.zero h).2.2
        = Outcome.ret (rc, m) t' →
      ∃ new, t' = t ++ new ∧
        heldAfter new = some (if rc = ResultSuccess
          then some (h, m.dst_address, base_address, size) else none) ∧
        (established t').Perm (if rc = ResultSuccess
          then established t ++ [(h, m.dst_address, base_address, size)]
          else established t) := by
    intro rc' hrc' heq
    simp only [Outcome.ret.injEq, Prod.mk.injEq] at heq
    have hrc : rc ≠ ResultSuccess := by rw [← heq.1.1]; exact hrc'
    refine ⟨new0, by rw [← heq.2, h0], ?_, ?_⟩
    · rw [if_neg hrc]
      exact scopeStep_quiet new0 hquiet0 _
    · rw [if_neg hrc, ← heq.2, h0, established_append_inert t new0 hinert0]
  unfold MapCodeMemoryForProcessModern at hret
  simp only at hret
  split at hret
  · rename_i hf
    exact hfail _ hf hret
  · split at hret
    · exact hfail _ (by simp) hret
    · obtain ⟨last, hrun⟩ := MapCodeMemoryForProcessModern.attempts_run env
        (GetAddressSpaceInfo env t AddressSpaceInfo.zero h).2.1 h base_address size fuel out_mcm
        env.LocateRetryCount (GetAddressSpaceInfo env t AddressSpaceInfo.zero h).2.2
      have hC := ModernCand_draws env
        (GetAddressSpaceInfo env t AddressSpaceInfo.zero h).2.1 size fuel
      obtain ⟨new, hnew, hheld⟩ := hrun.held hC
      have hperm := hrun.established_perm hC rc m t' hret
      have hlast := hrun.last_eq t' (by rw [hret]; rfl)
      rw [hlast] at hnew hperm
      rw [h0, established_append_inert t new0 hinert0] at hperm
      refine ⟨new0 ++ new, by rw [hnew, h0, List.append_assoc], ?_, hperm⟩
      have := hheld rc m t' hret
      unfold heldAfter at this ⊢
      rw [List.foldl_append, scopeStep_quiet new0 hquiet0]
      exact this

/-- C14 at `acceptEnv`: the call succeeds and holds the returned mapping. -/
theorem MapCodeMemoryForProcessModern_no_leak_witness :
    ∃ new, infoReads 7 ++ [Event.Random 255 16,
          Event.Map 7 65536 1048576 4096 ResultSuccess, Event.QueryProcessMemory 7 65535,
          Event.QueryProcessMemory 7 69632] = [] ++ new ∧
      heldAfter new = some (if ResultSuccess = ResultSuccess
        then some (7, (⟨7, 65536, 1048576, 4096, ResultSuccess⟩ : MappedCodeMemory).dst_address,
          1048576, 4096) else none) ∧
      (established (infoReads 7 ++ [Event.Random 255 16,
          Event.Map 7 65536 1048576 4096 ResultSuccess, Event.QueryProcessMemory 7 65535,
          Event.QueryProcessMemory 7 69632])).Perm (if ResultSuccess = ResultSuccess
        then established [] ++ [(7,
          (⟨7, 65536, 1048576, 4096, ResultSuccess⟩ : MappedCodeMemory).dst_address,
          1048576, 4096)] else established []) :=
  MapCodeMemoryForProcessModern_no_leak acceptEnv 1 [] ⟨0, 0, 0, 0, ResultOther 0⟩ 7 1048576
    4096 ResultSuccess ⟨7, 65536, 1048576, 4096, ResultSuccess⟩ _ (by decide)

/-! ## Candidate addresses -/

/-- A candidate returned by the sampling loop is `addspace_base` plus a drawn
page offset, and passed both overlap tests. -/
theorem MapCodeMemoryForProcessModern.sample_candidate (env : Env) (as : AddressSpaceInfo)
    (size : Nat) :
    ∀ (fuel : Nat) (t : List Event) (a : Nat) (t1 : List Event),
      MapCodeMemoryForProcessModern.sample env as size fuel t = Outcome.ret a t1 →
      (∃ t0, a = add64 as.addspace_base
        (shl64 (env.GetRandomU64 t0 (shr64 (sub64 as.addspace_size size) 12)) 12)) ∧
      overlaps as.heap_size as.heap_base as.heap_end a (add64 a size) = false ∧
      overlaps as.map_size as.map_base as.map_end a (add64 a size) = false := by
  intro fuel
  induction fuel with
  | zero => intro t a t1 h; simp [MapCodeMemoryForProcessModern.sample] at h
  | succ n ih =>
    intro t a t1 h
    rw [MapCodeMemoryForProcessModern.sample] at h
    split at h
    · exact ih _ _ _ h
    · rename_i h1
      split at h
      · exact ih _ _ _ h
      · rename_i h2
        simp only [Outcome.ret.injEq] at h
        rw [← h.1]
        exact ⟨⟨t, rfl⟩, by simpa using h1, by simpa using h2⟩

/-- A drawn page offset within the bound keeps the candidate inside the
address space, page-aligned relative to its base. -/
theorem candidate_bounds {base asz size r : Nat}
    (hr : r ≤ shr64 (sub64 asz size) 12) (hsz : size ≤ asz)
    (hw : base + asz < 18446744073709551616) :
    base ≤ add64 base (shl64 r 12) ∧ add64 base (shl64 r 12) + size ≤ base + asz ∧
    4096 ∣ (add64 base (shl64 r 12) - base) := by
  have hx : add64 base (shl64 r 12) = base + r * 4096 := by
    unfold shr64 sub64 at hr
    unfold add64 shl64
    norm_num at hr ⊢
    omega
  rw [hx]
  unfold shr64 sub64 at hr
  norm_num at hr
  refine ⟨by omega, by omega, ⟨r, by omega⟩⟩

/-- A candidate that passed the overlap test misses a region whose end does
not wrap. -/
theorem candidate_misses {rs rb re a size : Nat} (hre : re = add64 rb rs)
    (hre64 : rb + rs < 18446744073709551616) (hpos : 1 ≤ size)
    (ha : a + size < 18446744073709551616)
    (hov : overlaps rs rb re a (add64 a size) = false) :
    rs ≠ 0 → a + size ≤ rb ∨ rb + rs ≤ a := by
  intro h0
  unfold overlaps at hov
  simp only [decide_eq_false_iff_not, ne_eq, h0, not_false_eq_true, true_and] at hov
  unfold add64 at hre
  unfold sub64 add64 at hov
  omega

/-- The map calls of `MapCodeMemoryForProcessModern` are made at candidates of
its sampling loop, after a successful address-space query and only for a size
that fits the address space. -/
theorem MapCodeMemoryForProcessModern_maps (env : Env) (fuel : Nat) (t : List Event)
    (out_mcm : MappedCodeMemory) (h : Handle) (base_address size : Nat) (t' new : List Event)
    (hlog : (MapCodeMemoryForProcessModern env fuel t out_mcm h base_address size).log
      = some t')
    (hnew : t' = t ++ new) (e : Event) (he : e ∈ new) (hm : e.isMap = true) :
    (GetAddressSpaceInfo env t AddressSpaceInfo.zero h).1 = ResultSuccess ∧
    size ≤ (queriedSpace env t h).addspace_size ∧
    ∃ t0 a t1 rc, ModernCand env (queriedSpace env t h) size fuel t0 a t1 ∧
      e = Event.Map h a base_address size rc := by
  obtain ⟨new0, h0, hq0⟩ := GetAddressSpaceInfo_reads env t AddressSpaceInfo.zero h
  have hno : ∀ e ∈ new0, e.isMap = false := by
    intro e he
    obtain ⟨id0, rfl⟩ := hq0 e he
    rfl
  unfold MapCodeMemoryForProcessModern at hlog
  simp only at hlog
  split at hlog
  · simp only [Outcome.log, Option.some.injEq] at hlog
    rw [← hlog, h0] at hnew
    have hn := List.append_cancel_left hnew
    have := hno e (by rw [hn]; exact he)
    rw [this] at hm
    simp at hm
  · rename_i hok
    split at hlog
    · simp only [Outcome.log, Option.some.injEq] at hlog
      rw [← hlog, h0] at hnew
      have hn := List.append_cancel_left hnew
      have := hno e (by rw [hn]; exact he)
      rw [this] at hm
      simp at hm
    · rename_i hfit
      obtain ⟨last, hrun⟩ := MapCodeMemoryForProcessModern.attempts_run env
        (GetAddressSpaceInfo env t AddressSpaceInfo.zero h).2.1 h base_address size fuel out_mcm
        env.LocateRetryCount (GetAddressSpaceInfo env t AddressSpaceInfo.zero h).2.2
      obtain ⟨new1, hnew1, _, hmaps, _⟩ := hrun.maps (ModernCand_draws _ _ _ _)
      rw [hrun.last_eq t' hlog, h0, hnew, List.append_assoc] at hnew1
      have hsplit := List.append_cancel_left hnew1
      rw [hsplit] at he
      rcases List.mem_append.1 he with he | he
      · rw [hno e he] at hm; simp at hm
      · exact ⟨by simpa using hok, by unfold queriedSpace; omega, hmaps e he hm⟩

/-- The map calls of `MapCodeMemoryForProcessDeprecated` are made at candidates
drawn in the hardcoded layout, only for a size that fits it. -/
theorem MapCodeMemoryForProcessDeprecated_maps (env : Env) (t : List Event)
    (out_mcm : MappedCodeMemory) (h : Handle) (is_64_bit : Bool) (base_address size : Nat)
    (t' new : List Event)
    (hlog : (MapCodeMemoryForProcessDeprecated env t out_mcm h is_64_bit base_address size).log
      = some t')
    (hnew : t' = t ++ new) (e : Event) (he : e ∈ new) (hm : e.isMap = true) :
    size ≤ (if is_64_bit = true then 2013265920 else 66977792) ∧
    ∃ t0 a t1 rc, DeprecatedCand env (if is_64_bit = true then 134217728 else 2097152)
        (if is_64_bit = true then 2013265920 else 66977792) size t0 a t1 ∧
      e = Event.Map h a base_address size rc := by
  unfold MapCodeMemoryForProcessDeprecated at hlog
  simp only at hlog
  by_cases hbig : size > (if is_64_bit = true then 2013265920 else 66977792)
  · rw [if_pos hbig] at hlog
    simp only [Outcome.log, Option.some.injEq] at hlog
    rw [← hlog] at hnew
    have : new = [] := by simpa using hnew.symm
    rw [this] at he
    simp at he
  · rw [if_neg hbig] at hlog
    obtain ⟨last, hrun⟩ := MapCodeMemoryForProcessDeprecated.attempts_run_legacy env
      (if is_64_bit = true then 134217728 else 2097152)
      (if is_64_bit = true then 2013265920 else 66977792) h base_address size out_mcm
      env.LocateRetryCount t
    obtain ⟨new1, hnew1, _, hmaps, _⟩ := hrun.maps (DeprecatedCand_draws _ _ _ _)
    rw [hrun.last_eq t' hlog, hnew] at hnew1
    rw [List.append_cancel_left hnew1] at he
    exact ⟨by omega, hmaps e he hm⟩

/-- C15 as stated fails when the heap region wraps. In `wrapHeapEnv` the random
source respects its bound, `1 <= size <= addspace_size` and
`addspace_base + addspace_size` does not wrap, yet the candidate
`2^64 - 0x5000` passed to the kernel map call with size `0x4800` reaches into
the heap region, which starts at `2^64 - 0x1000`: the overlap test compares
with `heap_end - 1`, and `heap_end` has wrapped to `0x1000`. The same happens
with the alias region in `wrapAliasEnv`. -/
theorem MapCodeMemoryForProcess_candidates_counterexample :
    ((∀ t0 mx, wrapHeapEnv.GetRandomU64 t0 mx ≤ mx) ∧
    1 ≤ 18432 ∧ 18432 ≤ (queriedSpace wrapHeapEnv [] 7).addspace_size ∧
    (queriedSpace wrapHeapEnv [] 7).addspace_base + (queriedSpace wrapHeapEnv [] 7).addspace_size
      < 18446744073709551616 ∧
    MapCodeMemoryForProcessModern wrapHeapEnv 1 [] ⟨0, 0, 0, 0, ResultOther 0⟩ 7 65536 18432
      = Outcome.ret (ResultRoInsufficientAddressSpace, ⟨0, 0, 0, 0, ResultOther 0⟩)
        (infoReads 7 ++ [Event.Random 4503599627370491 4503599627370491,
          Event.Map 7 18446744073709531136 65536 18432 ResultSuccess,
          Event.QueryProcessMemory 7 18446744073709531135,
          Event.QueryProcessMemory 7 18446744073709549568,
          Event.Unmap 7 18446744073709531136 65536 18432 ResultSuccess]) ∧
    (queriedSpace wrapHeapEnv [] 7).heap_size ≠ 0 ∧
    ¬ (18446744073709531136 + 18432 ≤ (queriedSpace wrapHeapEnv [] 7).heap_base ∨
      (queriedSpace wrapHeapEnv [] 7).heap_base + (queriedSpace wrapHeapEnv [] 7).heap_size
        ≤ 18446744073709531136)) ∧
    ((∀ t0 mx, wrapAliasEnv.GetRandomU64 t0 mx ≤ mx) ∧
    18432 ≤ (queriedSpace wrapAliasEnv [] 7).addspace_size ∧
    (queriedSpace wrapAliasEnv [] 7).addspace_base
      + (queriedSpace wrapAliasEnv [] 7).addspace_size < 18446744073709551616 ∧
    MapCodeMemoryForProcessModern wrapAliasEnv 1 [] ⟨0, 0, 0, 0, ResultOther 0⟩ 7 65536 18432
      = Outcome.ret (ResultRoInsufficientAddressSpace, ⟨0, 0, 0, 0, ResultOther 0⟩)
        (infoReads 7 ++ [Event.Random 4503599627370491 4503599627370491,
          Event.Map 7 18446744073709531136 65536 18432 ResultSuccess,
          Event.QueryProcessMemory 7 18446744073709531135,
          Event.QueryProcessMemory 7 18446744073709549568,
          Event.Unmap 7 18446744073709531136 65536 18432 ResultSuccess]) ∧
    (queriedSpace wrapAliasEnv [] 7).map_size ≠ 0 ∧
    ¬ (18446744073709531136 + 18432 ≤ (queriedSpace wrapAliasEnv [] 7).map_base ∨
      (queriedSpace wrapAliasEnv [] 7).map_base + (queriedSpace wrapAliasEnv [] 7).map_size
        ≤ 18446744073709531136)) := by
  refine ⟨⟨fun _ mx => Nat.le_refl mx, by decide, by decide, by decide, by decide, by decide,
    by decide⟩, fun _ mx => Nat.le_refl mx, by decide, by decide, by decide, by decide,
    by decide⟩

/-- C15 (amended). Candidate addresses stay inside the address space: assuming
the random source returns `r <= bound` and `1 <= size`, every candidate `c`
passed to the kernel map call by `MapCodeMemoryForProcessModern` satisfies,
when `addspace_base + addspace_size` of the queried address space does not
wrap, `addspace_base <= c`, `c + size <= addspace_base + addspace_size` and
`c - addspace_base` is a multiple of `0x1000`; `[c, c + size)` then misses the
heap region when `heap_size != 0` and `heap_base + heap_size` does not wrap, and
the alias region when `map_size != 0` and `map_base + map_size` does not wrap.
Every candidate passed to the kernel map call by
`MapCodeMemoryForProcessDeprecated` satisfies the three bounds with the
hardcoded layout as base and size, whatever the kernel reports. -/
theorem MapCodeMemoryForProcess_candidates (env : Env) (fuel : Nat) (t : List Event)
    (out_mcm : MappedCodeMemory) (h : Handle) (base_address size : Nat)
    (hrand : ∀ t0 mx, env.GetRandomU64 t0 mx ≤ mx) (hpos : 1 ≤ size) :
    (∀ t' new h' c src sz rc,
      (MapCodeMemoryForProcessModern env fuel t out_mcm h base_address size).log = some t' →
      t' = t ++ new → Event.Map h' c src sz rc ∈ new →
      (queriedSpace env t h).addspace_base + (queriedSpace env t h).addspace_size
        < 18446744073709551616 →
      (queriedSpace env t h).addspace_base ≤ c ∧
      c + size ≤ (queriedSpace env t h).addspace_base + (queriedSpace env t h).addspace_size ∧
      4096 ∣ (c - (queriedSpace env t h).addspace_base) ∧
      ((queriedSpace env t h).heap_base + (queriedSpace env t h).heap_size
          < 18446744073709551616 →
        (queriedSpace env t h).heap_size ≠ 0 →
        c + size ≤ (queriedSpace env t h).heap_base ∨
        (queriedSpace env t h).heap_base + (queriedSpace env t h).heap_size ≤ c) ∧
      ((queriedSpace env t h).map_base + (queriedSpace env t h).map_size
          < 18446744073709551616 →
        (queriedSpace env t h).map_size ≠ 0 →
        c + size ≤ (queriedSpace env t h).map_base ∨
        (queriedSpace env t h).map_base + (queriedSpace env t h).map_size ≤ c)) ∧
    (∀ is_64_bit t' new h' c src sz rc,
      (MapCodeMemoryForProcessDeprecated env t out_mcm h is_64_bit base_address size).log
        = some t' →
      t' = t ++ new → Event.Map h' c src sz rc ∈ new →
      (if is_64_bit = true then 134217728 else 2097152) ≤ c ∧
      c + size ≤ (if is_64_bit = true then 134217728 else 2097152)
        + (if is_64_bit = true then 2013265920 else 66977792) ∧
      4096 ∣ (c - (if is_64_bit = true then 134217728 else 2097152))) := by
  constructor
  · intro t' new h' c src sz rc hlog hnew he hw
    obtain ⟨hq, hfit, t0, a, t1, rc', hcand, heq⟩ := MapCodeMemoryForProcessModern_maps env fuel
      t out_mcm h base_address size t' new hlog hnew _ he rfl
    simp only [Event.Map.injEq] at heq
    obtain ⟨⟨t00, ha⟩, hov1, hov2⟩ := MapCodeMemoryForProcessModern.sample_candidate env _ size
      fuel t0 a t1 hcand
    have hb := candidate_bounds (hrand t00 _) hfit hw
    rw [← ha, ← heq.2.1] at hb
    have hs := (GetAddressSpaceInfo_success env t _ _ hq).1
    have hc64 : c + size < 18446744073709551616 := by omega
    rw [← heq.2.1] at hov1 hov2
    refine ⟨hb.1, hb.2.1, hb.2.2, ?_, ?_⟩
    · intro hheap64
      exact candidate_misses (by unfold queriedSpace; rw [hs]) hheap64 hpos hc64 hov1
    · intro hmap64
      exact candidate_misses (by unfold queriedSpace; rw [hs]) hmap64 hpos hc64 hov2
  · intro is_64_bit t' new h' c src sz rc hlog hnew he
    obtain ⟨hfit, t0, a, t1, rc', hcand, heq⟩ := MapCodeMemoryForProcessDeprecated_maps env
      t out_mcm h is_64_bit base_address size t' new hlog hnew _ he rfl
    simp only [Event.Map.injEq] at heq
    have hb := candidate_bounds (hrand t0 _) hfit
      (show (if is_64_bit = true then 134217728 else 2097152)
        + (if is_64_bit = true then 2013265920 else 66977792) < 18446744073709551616 by
        cases is_64_bit <;> simp)
    rw [← hcand.1, ← heq.2.1] at hb
    exact hb

/-- C15 (amended) at `wrapHeapEnv`, size `0x4800`: the random source returns
its bound; the address space does not wrap, so the candidates of the modern
path are in bounds and page-aligned, and they miss the empty alias region; the
heap region wraps there, so nothing is said about it. On the deprecated path
the candidates are inside the hardcoded layout although the kernel of
`wrapHeapEnv` reports another address space. -/
theorem MapCodeMemoryForProcess_candidates_witness :
    (∀ t' new h' c src sz rc,
      (MapCodeMemoryForProcessModern wrapHeapEnv 1 [] ⟨0, 0, 0, 0, ResultOther 0⟩ 7 65536
        18432).log = some t' →
      t' = [] ++ new → Event.Map h' c src sz rc ∈ new →
      (queriedSpace wrapHeapEnv [] 7).addspace_base
        + (queriedSpace wrapHeapEnv [] 7).addspace_size < 18446744073709551616 →
      (queriedSpace wrapHeapEnv [] 7).addspace_base ≤ c ∧
      c + 18432 ≤ (queriedSpace wrapHeapEnv [] 7).addspace_base
        + (queriedSpace wrapHeapEnv [] 7).addspace_size ∧
      4096 ∣ (c - (queriedSpace wrapHeapEnv [] 7).addspace_base) ∧
      ((queriedSpace wrapHeapEnv [] 7).heap_base + (queriedSpace wrapHeapEnv [] 7).heap_size
          < 18446744073709551616 →
        (queriedSpace wrapHeapEnv [] 7).heap_size ≠ 0 →
        c + 18432 ≤ (queriedSpace wrapHeapEnv [] 7).heap_base ∨
        (queriedSpace wrapHeapEnv [] 7).heap_base + (queriedSpace wrapHeapEnv [] 7).heap_size
          ≤ c) ∧
      ((queriedSpace wrapHeapEnv [] 7).map_base + (queriedSpace wrapHeapEnv [] 7).map_size
          < 18446744073709551616 →
        (queriedSpace wrapHeapEnv [] 7).map_size ≠ 0 →
        c + 18432 ≤ (queriedSpace wrapHeapEnv [] 7).map_base ∨
        (queriedSpace wrapHeapEnv [] 7).map_base + (queriedSpace wrapHeapEnv [] 7).map_size
          ≤ c)) ∧
    (∀ is_64_bit t' new h' c src sz rc,
      (MapCodeMemoryForProcessDeprecated wrapHeapEnv [] ⟨0, 0, 0, 0, ResultOther 0⟩ 7 is_64_bit
        65536 18432).log = some t' →
      t' = [] ++ new → Event.Map h' c src sz rc ∈ new →
      (if is_64_bit = true then 134217728 else 2097152) ≤ c ∧
      c + 18432 ≤ (if is_64_bit = true then 134217728 else 2097152)
        + (if is_64_bit = true then 2013265920 else 66977792) ∧
      4096 ∣ (c - (if is_64_bit = true then 134217728 else 2097152))) :=
  MapCodeMemoryForProcess_candidates wrapHeapEnv 1 [] ⟨0, 0, 0, 0, ResultOther 0⟩ 7 65536 18432
    (fun _ mx => Nat.le_refl mx) (by decide)

/-! ## The "no progress" checks of the modern locator -/

/-- C20. The heap and alias "no progress" branches are dead under the
data-model invariant: when `heap_end = heap_base + heap_size` and
`map_end = map_base + map_size` hold without wrap-around, then in every
iteration of the loop of `LocateSpaceForMapModern` in which the heap overlap
test holds, `cur_base < heap_end`, so the check `cur_base == heap_end` fails and
the iteration goes on with `cur_base = heap_end`; and likewise for the alias
region when the heap test fails and the alias test holds. -/
theorem LocateSpaceForMapModern_no_progress_dead (env : Env) (as : AddressSpaceInfo)
    (out_size fuel cur_base cur_end out : Nat) (t : List Event)
    (hheap : as.heap_end = as.heap_base + as.heap_size)
    (hheap64 : as.heap_base + as.heap_size < 18446744073709551616)
    (hmap : as.map_end = as.map_base + as.map_size)
    (hmap64 : as.map_base + as.map_size < 18446744073709551616) :
    (overlaps as.heap_size as.heap_base as.heap_end cur_base cur_end = true →
      cur_base < as.heap_end ∧
      LocateSpaceForMapModern.loop env as out_size (fuel + 1) cur_base cur_end out t
        = if add64 as.heap_end out_size ≤ as.heap_end
          then Outcome.ret (ResultKernelOutOfMemory, out) t
          else LocateSpaceForMapModern.loop env as out_size fuel as.heap_end
            (add64 as.heap_end out_size) out t) ∧
    (overlaps as.heap_size as.heap_base as.heap_end cur_base cur_end = false →
      overlaps as.map_size as.map_base as.map_end cur_base cur_end = true →
      cur_base < as.map_end ∧
      LocateSpaceForMapModern.loop env as out_size (fuel + 1) cur_base cur_end out t
        = if add64 as.map_end out_size ≤ as.map_end
          then Outcome.ret (ResultKernelOutOfMemory, out) t
          else LocateSpaceForMapModern.loop env as out_size fuel as.map_end
            (add64 as.map_end out_size) out t) := by
  have hh : as.heap_end = add64 as.heap_base as.heap_size := by
    rw [hheap]; unfold add64; omega
  have hm : as.map_end = add64 as.map_base as.map_size := by
    rw [hmap]; unfold add64; omega
  constructor
  · intro hov
    have hlt := overlaps_true_lt hh hheap64 hov
    refine ⟨hlt, ?_⟩
    rw [LocateSpaceForMapModern.loop]
    simp only [hov, if_true, if_neg (Nat.ne_of_lt hlt)]
  · intro hno hov
    have hlt := overlaps_true_lt hm hmap64 hov
    refine ⟨hlt, ?_⟩
    rw [LocateSpaceForMapModern.loop]
    simp only [hno, Bool.false_eq_true, if_false, hov, if_true, if_neg (Nat.ne_of_lt hlt)]

/-- C20 at the scenario environment, whose heap is `[0x1000, 0x2000)`, for the
probe range `[0x0, 0x100000)`. -/
theorem LocateSpaceForMapModern_no_progress_dead_witness :
    (overlaps (currentSpace scenarioEnv []).heap_size (currentSpace scenarioEnv []).heap_base
        (currentSpace scenarioEnv []).heap_end 0 1048576 = true →
      0 < (currentSpace scenarioEnv []).heap_end ∧
      LocateSpaceForMapModern.loop scenarioEnv (currentSpace scenarioEnv []) 1048576 (1 + 1) 0
          1048576 7 []
        = if add64 (currentSpace scenarioEnv []).heap_end 1048576
            ≤ (currentSpace scenarioEnv []).heap_end
          then Outcome.ret (ResultKernelOutOfMemory, 7) []
          else LocateSpaceForMapModern.loop scenarioEnv (currentSpace scenarioEnv []) 1048576 1
            (currentSpace scenarioEnv []).heap_end
            (add64 (currentSpace scenarioEnv []).heap_end 1048576) 7 []) ∧
    (overlaps (currentSpace scenarioEnv []).heap_size (currentSpace scenarioEnv []).heap_base
        (currentSpace scenarioEnv []).heap_end 0 1048576 = false →
      overlaps (currentSpace scenarioEnv []).map_size (currentSpace scenarioEnv []).map_base
        (currentSpace scenarioEnv []).map_end 0 1048576 = true →
      0 < (currentSpace scenarioEnv []).map_end ∧
      LocateSpaceForMapModern.loop scenarioEnv (currentSpace scenarioEnv []) 1048576 (1 + 1) 0
          1048576 7 []
        = if add64 (currentSpace scenarioEnv []).map_end 1048576
            ≤ (currentSpace scenarioEnv []).map_end
          then Outcome.ret (ResultKernelOutOfMemory, 7) []
          else LocateSpaceForMapModern.loop scenarioEnv (currentSpace scenarioEnv []) 1048576 1
            (currentSpace scenarioEnv []).map_end
            (add64 (currentSpace scenarioEnv []).map_end 1048576) 7 []) :=
  LocateSpaceForMapModern_no_progress_dead scenarioEnv (currentSpace scenarioEnv []) 1048576 1
    0 1048576 7 [] (by decide) (by decide) (by decide) (by decide)

/-! ## First fit -/

/-- A base at or after `cur_base` whose range lies in a Free block lies at or
after the end of the block reported at `cur_base` when that block is rejected. -/
theorem skip_block_free {env : Env} {size cb b : Nat}
    (hcont : BlocksContain env) (hpart : BlocksPartition env) (hu64 : BlockSizesU64 env)
    (hpos : 0 < size) (hcb64 : cb < 18446744073709551616)
    (hrej : ¬ ((env.svcQueryMemory cb).2.type = 0 ∧
      add64 (sub64 (env.svcQueryMemory cb).2.addr cb) (env.svcQueryMemory cb).2.size ≥ size))
    (hb64 : b + size < 18446744073709551616)
    (hfree : ∃ q, q < 18446744073709551616 ∧ (env.svcQueryMemory q).2.type = 0 ∧
      (env.svcQueryMemory q).2.addr ≤ b ∧
      b + size ≤ (env.svcQueryMemory q).2.addr + (env.svcQueryMemory q).2.size)
    (hb : cb ≤ b) :
    (env.svcQueryMemory cb).2.addr + (env.svcQueryMemory cb).2.size ≤ b := by
  by_contra hlt
  obtain ⟨q, hq64, hqfree, hqlo, hqhi⟩ := hfree
  have hc := hcont cb hcb64
  have hs := hu64 cb hcb64
  have e1 : (env.svcQueryMemory b).2 = (env.svcQueryMemory q).2 :=
    hpart b q (by omega) hq64 hqlo (by omega)
  have e2 : (env.svcQueryMemory b).2 = (env.svcQueryMemory cb).2 :=
    hpart b cb (by omega) hcb64 (by omega) (by omega)
  rw [e1] at e2
  rw [e2] at hqfree hqlo hqhi
  apply hrej
  refine ⟨hqfree, ?_⟩
  unfold add64 sub64
  omega

/-- The first-fit invariant of the loop of `LocateSpaceForMapModern`: if no
fitting base lies before `cur_base`, a returned base is at or after `cur_base`,
its range does not overflow, and no fitting base lies before it. -/
theorem LocateSpaceForMapModern.loop_first (env : Env) (as : AddressSpaceInfo) (size : Nat)
    (hsize : size < 18446744073709551616)
    (hheap : as.heap_end = add64 as.heap_base as.heap_size)
    (hheap64 : as.heap_base + as.heap_size < 18446744073709551616)
    (hmap : as.map_end = add64 as.map_base as.map_size)
    (hmap64 : as.map_base + as.map_size < 18446744073709551616)
    (hcont : BlocksContain env) (hpart : BlocksPartition env) (hu64 : BlockSizesU64 env) :
    ∀ (fuel cb ce out : Nat) (t : List Event) (b : Nat) (t' : List Event),
      ce = cb + size → 0 < size → ce < 18446744073709551616 →
      (∀ c, FitsFrom env as size c → cb ≤ c) →
      LocateSpaceForMapModern.loop env as size fuel cb ce out t
        = Outcome.ret (ResultSuccess, b) t' →
      cb ≤ b ∧ b + size < 18446744073709551616 ∧ ∀ c, FitsFrom env as size c → b ≤ c := by
  intro fuel
  induction fuel with
  | zero => intro cb ce out t b t' _ _ _ _ h; simp [LocateSpaceForMapModern.loop] at h
  | succ n ih =>
    intro cb ce out t b t' hce hpos hce64 hinv h
    rw [LocateSpaceForMapModern.loop] at h
    split at h
    · -- heap overlap
      rename_i hov
      have hskip : ∀ c, FitsFrom env as size c → as.heap_end ≤ c := fun c hfit =>
        (skip_region hheap hheap64 hce hpos hce64 hov hfit.2.2.1 (hinv c hfit)).2
      have hlt := overlaps_true_lt hheap hheap64 hov
      split at h
      · simp at h
      · simp only at h
        split at h
        · simp at h
        · rename_i hadv
          obtain ⟨e1, e2, e3⟩ := add64_advance hsize hadv
          have := ih _ _ _ _ _ _ e1 e2 (by omega) hskip h
          exact ⟨by omega, this.2⟩
    · split at h
      · -- alias overlap
        rename_i hov
        have hskip : ∀ c, FitsFrom env as size c → as.map_end ≤ c := fun c hfit =>
          (skip_region hmap hmap64 hce hpos hce64 hov hfit.2.2.2.1 (hinv c hfit)).2
        have hlt := overlaps_true_lt hmap hmap64 hov
        split at h
        · simp at h
        · simp only at h
          split at h
          · simp at h
          · rename_i hadv
            obtain ⟨e1, e2, e3⟩ := add64_advance hsize hadv
            have := ih _ _ _ _ _ _ e1 e2 (by omega) hskip h
            exact ⟨by omega, this.2⟩
      · -- kernel block
        simp only at h
        have hcb64 : cb < 18446744073709551616 := by omega
        have hc := hcont cb hcb64
        have hs := hu64 cb hcb64
        split at h
        · simp at h
        · split at h
          · simp only [Outcome.ret.injEq, Prod.mk.injEq, true_and] at h
            obtain ⟨hb, _⟩ := h
            subst hb
            exact ⟨Nat.le_refl _, by omega, hinv⟩
          · rename_i hrej
            have hskip : ∀ c, FitsFrom env as size c →
                (env.svcQueryMemory cb).2.addr + (env.svcQueryMemory cb).2.size ≤ c :=
              fun c hfit => skip_block_free hcont hpart hu64 hpos hcb64 hrej hfit.2.1
                hfit.2.2.2.2 (hinv c hfit)
            split at h
            · simp at h
            · rename_i hnowrap
              have heq : add64 (env.svcQueryMemory cb).2.addr (env.svcQueryMemory cb).2.size
                  = (env.svcQueryMemory cb).2.addr + (env.svcQueryMemory cb).2.size := by
                unfold add64 at hnowrap ⊢
                omega
              split at h
              · simp at h
              · split at h
                · simp at h
                · rename_i hadv
                  obtain ⟨e1, e2, e3⟩ := add64_advance hsize hadv
                  have := ih _ _ _ _ _ _ e1 e2 (by omega) (by rw [heq]; exact hskip) h
                  exact ⟨by omega, this.2⟩

/-- C17. First fit: for a request size that fits `u64` and a well-formed kernel
state (each reported block contains the probed address, the blocks partition the
space and have `u64` sizes, the heap and alias ends do not wrap), when
`LocateSpaceForMapModern` returns base `b`, then `b >= addspace_base`, the range
`[b, b + out_size)` does not overflow, misses the non-empty heap and alias
regions and lies inside a Free block, and `b` is the smallest such address: every
base `c >= addspace_base` with these properties satisfies `b <= c`. -/
theorem LocateSpaceForMapModern_first_fit (env : Env) (fuel : Nat) (t : List Event)
    (out out_size b : Nat) (t' : List Event)
    (hsize : out_size < 18446744073709551616)
    (hheap64 : (currentSpace env t).heap_base + (currentSpace env t).heap_size
      < 18446744073709551616)
    (hmap64 : (currentSpace env t).map_base + (currentSpace env t).map_size
      < 18446744073709551616)
    (hcont : BlocksContain env) (hpart : BlocksPartition env) (hu64 : BlockSizesU64 env)
    (hret : LocateSpaceForMapModern env fuel t out out_size
      = Outcome.ret (ResultSuccess, b) t') :
    FitsFrom env (currentSpace env t) out_size b ∧
    ∀ c, FitsFrom env (currentSpace env t) out_size c → b ≤ c := by
  unfold LocateSpaceForMapModern at hret
  simp only at hret
  split at hret
  · rename_i hfail
    simp only [Outcome.ret.injEq, Prod.mk.injEq] at hret
    exact absurd hret.1.1 hfail
  · rename_i hok
    have hok' : (GetAddressSpaceInfo env t AddressSpaceInfo.zero env.CUR_PROCESS_HANDLE).1
        = ResultSuccess := by simpa using hok
    have hs := (GetAddressSpaceInfo_success env t _ _ hok').1
    split at hret
    · simp at hret
    · rename_i hadv
      obtain ⟨e1, e2, e3⟩ := add64_advance hsize hadv
      have hh : (currentSpace env t).heap_end
          = add64 (currentSpace env t).heap_base (currentSpace env t).heap_size := by
        unfold currentSpace; rw [hs]
      have hm : (currentSpace env t).map_end
          = add64 (currentSpace env t).map_base (currentSpace env t).map_size := by
        unfold currentSpace; rw [hs]
      have h1 := LocateSpaceForMapModern.loop_sound env (currentSpace env t) out_size hsize
        hh hheap64 hm hmap64 hcont fuel _ _ out _ b t' e1 e2 (by omega) hret
      have h2 := LocateSpaceForMapModern.loop_first env (currentSpace env t) out_size hsize
        hh hheap64 hm hmap64 hcont hpart hu64 fuel _ _ out _ b t' e1 e2 (by omega)
        (fun c hfit => hfit.1) hret
      refine ⟨⟨h2.1, h2.2.1, h1.1, h1.2.1, b, by omega, h1.2.2.2.1, h1.2.2.2.2.1,
        h1.2.2.2.2.2⟩, h2.2.2⟩

/-- C17 at the scenario environment: a request for `0x1001` bytes returns
`0x2000`, the first base past the heap region `[0x1000, 0x2000)`. -/
theorem LocateSpaceForMapModern_first_fit_witness :
    FitsFrom scenarioEnv (currentSpace scenarioEnv []) 4097 8192 ∧
    ∀ c, FitsFrom scenarioEnv (currentSpace scenarioEnv []) 4097 c → 8192 ≤ c :=
  LocateSpaceForMapModern_first_fit scenarioEnv 2 [] 0 4097 8192
    ([Event.GetInfo 4 4294934529 0, Event.GetInfo 5 4294934529 0, Event.GetInfo 2 4294934529 0,
      Event.GetInfo 3 4294934529 0, Event.GetInfo 12 4294934529 0,
      Event.GetInfo 13 4294934529 0, Event.QueryMemory 8192])
    (by decide) (by decide) (by decide) scenarioEnv_BlocksContain scenarioEnv_BlocksPartition
    scenarioEnv_BlockSizesU64 rfl

/-! ## Progress and termination of the modern locator -/

/-- The loop of `LocateSpaceForMapModern` runs its body and, unless the body
returns, goes round again. -/
theorem LocateSpaceForMapModern.loop_body (env : Env) (as : AddressSpaceInfo)
    (size fuel cb ce out : Nat) (t : List Event) :
    LocateSpaceForMapModern.loop env as size (fuel + 1) cb ce out t
      = (LocateSpaceForMapModern.body env as size cb ce out t).run
          (fun c e t' => LocateSpaceForMapModern.loop env as size fuel c e out t') := by
  rw [LocateSpaceForMapModern.loop]
  unfold LocateSpaceForMapModern.body
  simp only
  repeat' split
  all_goals rfl

/-- An iteration of the loop of `LocateSpaceForMapModern` that does not return
moves `cur_base` strictly forward, to a `u64` value. -/
theorem LocateSpaceForMapModern.body_next (env : Env) (as : AddressSpaceInfo)
    (size cb ce out : Nat) (t : List Event) (c e : Nat) (t' : List Event)
    (hheap : as.heap_end = add64 as.heap_base as.heap_size)
    (hheap64 : as.heap_base + as.heap_size < 18446744073709551616)
    (hmap : as.map_end = add64 as.map_base as.map_size)
    (hmap64 : as.map_base + as.map_size < 18446744073709551616)
    (h : LocateSpaceForMapModern.body env as size cb ce out t = LoopStep.next c e t') :
    cb < c ∧ c < 18446744073709551616 := by
  unfold LocateSpaceForMapModern.body at h
  simp only at h
  split at h
  · rename_i hov
    have hlt := overlaps_true_lt hheap hheap64 hov
    split at h
    · simp at h
    · split at h
      · simp at h
      · simp only [LoopStep.next.injEq] at h
        obtain ⟨hc, _, _⟩ := h
        subst hc
        exact ⟨hlt, by rw [hheap]; exact add64_lt _ _⟩
  · split at h
    · rename_i hov
      have hlt := overlaps_true_lt hmap hmap64 hov
      split at h
      · simp at h
      · split at h
        · simp at h
        · simp only [LoopStep.next.injEq] at h
          obtain ⟨hc, _, _⟩ := h
          subst hc
          exact ⟨hlt, by rw [hmap]; exact add64_lt _ _⟩
    · split at h
      · simp at h
      · split at h
        · simp at h
        · split at h
          · simp at h
          · rename_i hfwd
            split at h
            · simp at h
            · split at h
              · simp at h
              · simp only [LoopStep.next.injEq] at h
                obtain ⟨hc, _, _⟩ := h
                subst hc
                exact ⟨by omega, add64_lt _ _⟩

/-- An iteration of the loop of `LocateSpaceForMapModern` that returns, returns
a base or `ResultKernelOutOfMemory`, or aborts on a failed memory query. -/
theorem LocateSpaceForMapModern.body_done (env : Env) (as : AddressSpaceInfo)
    (size cb ce out : Nat) (t : List Event) (o : Outcome (Result × Nat))
    (h : LocateSpaceForMapModern.body env as size cb ce out t = LoopStep.done o) :
    (∃ b t', o = Outcome.ret (ResultSuccess, b) t') ∨
    (∃ t', o = Outcome.ret (ResultKernelOutOfMemory, out) t') ∨
    ∃ a t', (env.svcQueryMemory a).1 ≠ ResultSuccess ∧ o = Outcome.abort t' := by
  unfold LocateSpaceForMapModern.body at h
  simp only at h
  repeat' split at h
  all_goals first
    | (simp only [LoopStep.done.injEq] at h; subst h; exact Or.inr (Or.inl ⟨_, rfl⟩))
    | (simp only [LoopStep.done.injEq] at h; subst h; exact Or.inl ⟨_, _, rfl⟩)
    | (simp only [LoopStep.done.injEq] at h; subst h
       exact Or.inr (Or.inr ⟨cb, _, by assumption, rfl⟩))
    | (exact absurd h (by simp))

/-- From a `u64` value of `cur_base`, the loop of `LocateSpaceForMapModern`
returns within `2^64 - cur_base` iterations. -/
theorem LocateSpaceForMapModern.loop_returns (env : Env) (as : AddressSpaceInfo)
    (size out : Nat)
    (hheap : as.heap_end = add64 as.heap_base as.heap_size)
    (hheap64 : as.heap_base + as.heap_size < 18446744073709551616)
    (hmap : as.map_end = add64 as.map_base as.map_size)
    (hmap64 : as.map_base + as.map_size < 18446744073709551616) :
    ∀ (k cb ce : Nat) (t : List Event) (fuel : Nat), cb < 18446744073709551616 →
      18446744073709551616 - cb ≤ k → k ≤ fuel →
      (∃ b t', LocateSpaceForMapModern.loop env as size fuel cb ce out t
        = Outcome.ret (ResultSuccess, b) t') ∨
      (∃ t', LocateSpaceForMapModern.loop env as size fuel cb ce out t
        = Outcome.ret (ResultKernelOutOfMemory, out) t') ∨
      ∃ a t', (env.svcQueryMemory a).1 ≠ ResultSuccess ∧
        LocateSpaceForMapModern.loop env as size fuel cb ce out t = Outcome.abort t' := by
  intro k
  induction k with
  | zero => intro cb ce t fuel h1 h2 _; omega
  | succ k ih =>
    intro cb ce t fuel h1 h2 h3
    obtain ⟨f, rfl⟩ : ∃ f, fuel = f + 1 := ⟨fuel - 1, by omega⟩
    rw [LocateSpaceForMapModern.loop_body]
    cases hb : LocateSpaceForMapModern.body env as size cb ce out t with
    | done o =>
      exact LocateSpaceForMapModern.body_done env as size cb ce out t o hb
    | next c e t1 =>
      have hn := LocateSpaceForMapModern.body_next env as size cb ce out t c e t1 hheap
        hheap64 hmap hmap64 hb
      exact ih c e t1 f hn.2 (by omega) (by omega)

/-- C16 as stated fails in two ways, both with heap and alias ends that do not
wrap. In `partialEnv` the address-space query fails: for a request of `0x10`
bytes `LocateSpaceForMapModern` returns the error of the failing info read,
`ResultOther 9`, which is neither a base nor `ResultKernelOutOfMemory`. In
`queryFailEnv` the address-space query succeeds and the memory query of the first
iteration fails: the `R_ASSERT` aborts, and the call returns nothing. -/
theorem LocateSpaceForMapModern_terminates_counterexample :
    (currentSpace partialEnv []).heap_base + (currentSpace partialEnv []).heap_size
      < 18446744073709551616 ∧
    (currentSpace partialEnv []).map_base + (currentSpace partialEnv []).map_size
      < 18446744073709551616 ∧
    (∀ fuel, LocateSpaceForMapModern partialEnv fuel [] 0 16
      = Outcome.ret (ResultOther 9, 0)
        [Event.GetInfo 4 4294934529 0, Event.GetInfo 5 4294934529 0]) ∧
    ResultOther 9 ≠ ResultSuccess ∧ ResultOther 9 ≠ ResultKernelOutOfMemory ∧
    (currentSpace queryFailEnv []).heap_base + (currentSpace queryFailEnv []).heap_size
      < 18446744073709551616 ∧
    (currentSpace queryFailEnv []).map_base + (currentSpace queryFailEnv []).map_size
      < 18446744073709551616 ∧
    (∀ fuel, LocateSpaceForMapModern queryFailEnv (fuel + 1) [] 0 16
      = Outcome.abort
        [Event.GetInfo 4 4294934529 0, Event.GetInfo 5 4294934529 0,
          Event.GetInfo 2 4294934529 0, Event.GetInfo 3 4294934529 0,
          Event.GetInfo 12 4294934529 0, Event.GetInfo 13 4294934529 0,
          Event.QueryMemory 0]) :=
  ⟨by decide, by decide, fun _ => rfl, by decide, by decide, by decide, by decide,
    fun _ => rfl⟩

/-- C16 (amended). Strict forward progress and termination of the modern
locator: when the address-space query succeeds and the heap and alias ends do
not wrap, the loop of `LocateSpaceForMapModern` runs its body until it returns, every
iteration that does not return replaces `cur_base` by a strictly larger value,
and for every size and every memory map the search ends within `2^64 + 1`
iterations, with a base or with `ResultKernelOutOfMemory`; the one other ending
is the `R_ASSERT` abort, taken only when a memory query fails. -/
theorem LocateSpaceForMapModern_terminates (env : Env) (t : List Event) (out out_size : Nat)
    (hquery : (GetAddressSpaceInfo env t AddressSpaceInfo.zero env.CUR_PROCESS_HANDLE).1
      = ResultSuccess)
    (hheap64 : (currentSpace env t).heap_base + (currentSpace env t).heap_size
      < 18446744073709551616)
    (hmap64 : (currentSpace env t).map_base + (currentSpace env t).map_size
      < 18446744073709551616) :
    (∀ fuel cb ce tl,
      LocateSpaceForMapModern.loop env (currentSpace env t) out_size (fuel + 1) cb ce out tl
        = (LocateSpaceForMapModern.body env (currentSpace env t) out_size cb ce out tl).run
            (fun c e tl' =>
              LocateSpaceForMapModern.loop env (currentSpace env t) out_size fuel c e out tl')) ∧
    (∀ cb ce tl c e tl',
      LocateSpaceForMapModern.body env (currentSpace env t) out_size cb ce out tl
        = LoopStep.next c e tl' → cb < c) ∧
    (∀ fuel, 18446744073709551616 < fuel →
      (∃ b t', LocateSpaceForMapModern env fuel t out out_size
        = Outcome.ret (ResultSuccess, b) t') ∨
      (∃ t', LocateSpaceForMapModern env fuel t out out_size
        = Outcome.ret (ResultKernelOutOfMemory, out) t') ∨
      ∃ a t', (env.svcQueryMemory a).1 ≠ ResultSuccess ∧
        LocateSpaceForMapModern env fuel t out out_size = Outcome.abort t') := by
  have hs := (GetAddressSpaceInfo_success env t _ _ hquery).1
  have hh : (currentSpace env t).heap_end
      = add64 (currentSpace env t).heap_base (currentSpace env t).heap_size := by
    unfold currentSpace; rw [hs]
  have hm : (currentSpace env t).map_end
      = add64 (currentSpace env t).map_base (currentSpace env t).map_size := by
    unfold currentSpace; rw [hs]
  refine ⟨fun fuel cb ce tl => LocateSpaceForMapModern.loop_body _ _ _ _ _ _ _ _,
    fun cb ce tl c e tl' h =>
      (LocateSpaceForMapModern.body_next _ _ _ _ _ _ _ _ _ _ hh hheap64 hm hmap64 h).1, ?_⟩
  have key : ∀ (f cb ce : Nat) (tl : List Event), 18446744073709551616 ≤ f →
      (∃ b t', LocateSpaceForMapModern.loop env (currentSpace env t) out_size (f + 1) cb ce
        out tl = Outcome.ret (ResultSuccess, b) t') ∨
      (∃ t', LocateSpaceForMapModern.loop env (currentSpace env t) out_size (f + 1) cb ce out tl
        = Outcome.ret (ResultKernelOutOfMemory, out) t') ∨
      ∃ a t', (env.svcQueryMemory a).1 ≠ ResultSuccess ∧
        LocateSpaceForMapModern.loop env (currentSpace env t) out_size (f + 1) cb ce out tl
          = Outcome.abort t' := by
    intro f cb ce tl hf
    rw [LocateSpaceForMapModern.loop_body]
    cases hb : LocateSpaceForMapModern.body env (currentSpace env t) out_size cb ce out tl with
    | done o =>
      exact LocateSpaceForMapModern.body_done _ _ _ _ _ _ _ o hb
    | next c e t1 =>
      have hn := LocateSpaceForMapModern.body_next _ _ _ _ _ _ _ c e t1 hh hheap64 hm hmap64 hb
      exact LocateSpaceForMapModern.loop_returns env (currentSpace env t) out_size out hh
        hheap64 hm hmap64 (18446744073709551616 - c) c e t1 f hn.2 (Nat.le_refl _)
        (by omega)
  intro fuel hfuel
  obtain ⟨f, rfl⟩ : ∃ f, fuel = f + 1 := ⟨fuel - 1, by omega⟩
  unfold LocateSpaceForMapModern
  simp only [hquery, ne_eq, not_true_eq_false, if_false]
  split
  · exact Or.inr (Or.inl ⟨_, rfl⟩)
  · exact key f _ _ _ (by omega)

/-- C16 (amended) at the scenario environment, for a request of `0x1001` bytes. -/
theorem LocateSpaceForMapModern_terminates_witness :
    (∀ fuel cb ce tl,
      LocateSpaceForMapModern.loop scenarioEnv (currentSpace scenarioEnv []) 4097 (fuel + 1) cb
          ce 0 tl
        = (LocateSpaceForMapModern.body scenarioEnv (currentSpace scenarioEnv []) 4097 cb ce 0
            tl).run
            (fun c e tl' =>
              LocateSpaceForMapModern.loop scenarioEnv (currentSpace scenarioEnv []) 4097 fuel c
                e 0 tl')) ∧
    (∀ cb ce tl c e tl',
      LocateSpaceForMapModern.body scenarioEnv (currentSpace scenarioEnv []) 4097 cb ce 0 tl
        = LoopStep.next c e tl' → cb < c) ∧
    (∀ fuel, 18446744073709551616 < fuel →
      (∃ b t', LocateSpaceForMapModern scenarioEnv fuel [] 0 4097
        = Outcome.ret (ResultSuccess, b) t') ∨
      (∃ t', LocateSpaceForMapModern scenarioEnv fuel [] 0 4097
        = Outcome.ret (ResultKernelOutOfMemory, 0) t') ∨
      ∃ a t', (scenarioEnv.svcQueryMemory a).1 ≠ ResultSuccess ∧
        LocateSpaceForMapModern scenarioEnv fuel [] 0 4097 = Outcome.abort t') :=
  LocateSpaceForMapModern_terminates scenarioEnv [] 0 4097 rfl (by decide) (by decide)

end MapUtils
